import Mathlib

/-! Phrozen3D help-center theme script: the category page.

A shallow embedding of the category-page part of `script.js` (the category
resolver, the machine renderer, the article cards and the thumbnail backfill)
together with the properties its specification states about it.

Strings are Lean strings: a JavaScript string is read as its sequence of
characters, which agrees with its sequence of UTF-16 code units on every string
made of characters of the Basic Multilingual Plane.
-/

namespace Phrozen3D

/-! ## Strings -/

/-- White space and line terminators, the characters `String.prototype.trim`
strips (ECMAScript `WhiteSpace` and `LineTerminator`). -/
def isWhiteSpace (c : Char) : Bool :=
  c.val = 0x09 || c.val = 0x0A || c.val = 0x0B || c.val = 0x0C || c.val = 0x0D ||
  c.val = 0x20 || c.val = 0xA0 || c.val = 0x1680 ||
  (0x2000 ≤ c.val && c.val ≤ 0x200A) ||
  c.val = 0x2028 || c.val = 0x2029 || c.val = 0x202F || c.val = 0x205F ||
  c.val = 0x3000 || c.val = 0xFEFF

/-- Characters left once the leading white space is dropped. -/
def trimStartChars (cs : List Char) : List Char :=
  cs.dropWhile isWhiteSpace

/-- Characters left once the trailing white space is dropped. -/
def trimEndChars (cs : List Char) : List Char :=
  (cs.reverse.dropWhile isWhiteSpace).reverse

/-- The characters of `s.trim()`. -/
def trimChars (cs : List Char) : List Char :=
  trimEndChars (trimStartChars cs)

/-- The method `s.trim()`. -/
def trim (s : String) : String :=
  String.mk (trimChars s.data)

/-- The pieces of `s.split(sep)` for a one-character separator: the text
between consecutive separators, empty pieces included. -/
def splitChars (sep : Char) : List Char → List (List Char)
  | [] => [[]]
  | c :: cs =>
    if c = sep then [] :: splitChars sep cs
    else
      match splitChars sep cs with
      | [] => [[c]]
      | w :: ws => (c :: w) :: ws

/-- The characters of `pieces.join(glue)` for a one-character glue. -/
def joinChars (glue : Char) : List (List Char) → List Char
  | [] => []
  | [w] => w
  | w :: v :: ws => w ++ glue :: joinChars glue (v :: ws)

/-- The function `categoryNameRemoveBlank`:
`categoryName.trim().split(' ').join('_')`. -/
def categoryNameRemoveBlank (categoryName : String) : String :=
  String.mk (joinChars '_' (splitChars ' ' (trim categoryName).data))

/-- A language key: the text `lang.substr(0, 2)` yields, at most two
characters long. -/
structure LangCode where
  text : String
  short : text.data.length ≤ 2
  deriving DecidableEq

/-- The expression `document.documentElement.lang.substr(0, 2)`. -/
def substr02 (lang : String) : LangCode :=
  ⟨String.mk (lang.data.take 2), by simp [List.length_take]⟩

/-! ## Objects and property lookup -/

/-- What `obj[key]` gives for an object literal: nothing, a property of the
literal, or a member every object inherits from `Object.prototype` (a function
or object, never a string). -/
inductive PropValue (α : Type) where
  | undefined
  | own (value : α)
  | inherited (name : String)
  deriving DecidableEq, Repr

/-- Property names every object literal inherits from `Object.prototype`
(ECMAScript 20.1.3 and annex B.2.2). -/
def objectPrototypeKeys : List String :=
  ["constructor", "hasOwnProperty", "isPrototypeOf", "propertyIsEnumerable",
   "toLocaleString", "toString", "valueOf", "__proto__",
   "__defineGetter__", "__defineSetter__", "__lookupGetter__", "__lookupSetter__"]

/-- The value an object literal with the given `key: value` entries holds under
`key`, when it has one; of a key written twice the later entry counts. -/
def getOwn {α : Type} (key : String) : List (String × α) → Option α
  | [] => none
  | (k, v) :: rest =>
    match getOwn key rest with
    | some w => some w
    | none => if k = key then some v else none

/-- The expression `obj[key]` for an object literal with the given entries. -/
def getProp {α : Type} (obj : List (String × α)) (key : String) : PropValue α :=
  match getOwn key obj with
  | some v => .own v
  | none => if key ∈ objectPrototypeKeys then .inherited key else .undefined

/-- Truthiness of a looked-up string: `undefined` and `""` are falsy. -/
def PropValue.truthy : PropValue String → Bool
  | .undefined => false
  | .own s => s ≠ ""
  | .inherited _ => true

/-- The expression `value || fallback`. -/
def PropValue.orElse (value : PropValue String) (fallback : String) : PropValue String :=
  if value.truthy then value else .own fallback

/-- An object literal keyed by language, `{"en": ..., "zh": ...}`. -/
structure PerLang (α : Type) where
  en : Option α
  zh : Option α
  deriving DecidableEq, Repr

/-- The expression `obj[currentLang]` for a per-language literal; `none` is
`undefined`. A key of at most two characters names no inherited member. -/
def PerLang.get {α : Type} (obj : PerLang α) (currentLang : LangCode) : Option α :=
  if currentLang.text = "en" then obj.en
  else if currentLang.text = "zh" then obj.zh
  else none

/-- Truthiness of `obj[currentLang]` for a string entry. -/
def truthy : Option String → Bool
  | none => false
  | some s => s ≠ ""

/-! ## The data tables -/

/-- The `resin` field of a machine record: one URL per language, or the two
named sub-variants `Transform` and `Shuffle_Series`, each with its URLs. -/
inductive Resin where
  | direct (urls : PerLang String)
  | variants (Transform : Option (PerLang String)) (Shuffle_Series : Option (PerLang String))
  deriving DecidableEq, Repr

/-- A record of `categoryMachinesInfo`. -/
structure MachineRecord where
  warranty : PerLang (List String)
  specs : PerLang (List String)
  manual : PerLang String
  resin : Resin
  deriving DecidableEq, Repr

/-- The table `categoryMachinesInfo`: machine key to record, in source order. -/
def categoryMachinesInfo : List (String × MachineRecord) := [
  ("Sonic_Mini_8K", {
    warranty := {
        en := some [
          "Mono-LCD : 3 Months",
          "LED Module : 12 Months",
          "Building Plate : 12 Months",
          "Z-axis : 12 Months",
          "Resin Vat : 12 Months",
          "Main Body : 12 Months",
          "FEP / PFA (nFEP) / ACF film : No Warranty" ],
        zh := some [
          "Mono-LCD 螢幕 : 3 個月",
          "LED 模組 : 12 個月",
          "載台 : 12 個月",
          "Z 軸 : 12 個月",
          "樹脂槽 : 12 個月",
          "主機體 : 12 個月",
          "離型膜（FEP / PFA (nFEP) / ACF）: 無保固" ] },
    specs := {
        en := some [
          "System: Phrozen OS",
          "Operation: 3.5\" in Large Touch Panel",
          "Slicer Software: CHITUBOX V1.9.0 or above",
          "Connectivity: Front USB Port",
          "Design: Technology Resin 3D Printer - LCD Type",
          "Light Source: Linear ProjectionLED Module",
          "Release Film: FEP Film",
          "XY Resolution: 22 µm",
          "Layer Thickness: 0.01-0.30 mm",
          "Maximum Printing Speed: 80 mm/hr",
          "Power Requirement: DC 24V；3A",
          "System Power: 50 W",
          "Printer Size: 29 x 29 x 43 cm",
          "Print Volume: 16.5 x 7.2 x 18 cm",
          "Printer Weight: 13 kg" ],
        zh := some [
          "操作系統： Phrozen OS",
          "操作面板： 3.5吋 觸控螢幕",
          "切片軟體： Chitubox、Lychee及其他軟體",
          "檔案傳輸模式： USB",
          "技術規格： 光固化 3D 列印機",
          "光源設計：Linear Projection LED Module",
          "配備離型膜：FEP 離型膜",
          "XY 解析度： 22 µm",
          "切層厚度： 0.01-0.30mm",
          "最快列印速度： 80毫米 / 小時",
          "適用電壓：DC 24V;2A",
          "消耗功率：50W",
          "機台尺寸： 29 x 29 x 43 公分",
          "列印尺寸： 16.5 x 7.2 x 18 公分",
          "機台重量： 13 公斤" ] },
    manual := {
        en := some "https://cdn.shopify.com/s/files/1/0436/6965/1618/files/User_Manual_Sonic_Mini_8K_EN.pdf?v=1686221392",
        zh := some "https://cdn.shopify.com/s/files/1/0436/6965/1618/files/User_Manual_Sonic_Mini_8K_CH.pdf?v=1686221396" },
    resin := .direct {
          en := some "https://phrozen3d.com/pages/resin-mini-8k",
          zh := some "https://phrozen3d.com.tw/pages/resin-sonic-mini-8k" } }),
  ("Sonic_Mini_8K_S", {
    warranty := {
        en := some [
          "Mono-LCD : 3 Months",
          "LED Module : 12 Months",
          "Building Plate : 12 Months",
          "Z-axis : 12 Months",
          "Resin Vat : 12 Months",
          "Main Body : 12 Months",
          "FEP / PFA (nFEP) / ACF film : No Warranty" ],
        zh := some [
          "Mono-LCD 螢幕 : 3 個月",
          "LED 模組 : 12 個月",
          "載台 : 12 個月",
          "Z 軸 : 12 個月",
          "樹脂槽 : 12 個月",
          "主機體 : 12 個月",
          "離型膜（FEP / PFA (nFEP) / ACF）: 無保固" ] },
    specs := {
        en := some [
          "System: Phrozen OS",
          "Operation: 3.5\" in Large Touch Panel",
          "Slicer Software: CHITUBOX V1.9.0 or above",
          "Connectivity: Front USB Port",
          "Design: Technology Resin 3D Printer - LCD Type",
          "Light Source: Linear ProjectionLED Module",
          "Release Film: FEP Film",
          "XY Resolution: 22 µm",
          "Layer Thickness: 0.01-0.30 mm",
          "Maximum Printing Speed: 80 mm/hr",
          "Power Requirement: DC 24V；3A",
          "System Power: 50 W",
          "Printer Size: 29 x 29 x 43 cm",
          "Print Volume: 16.5 x 7.2 x 17 cm",
          "Printer Weight: 10 kg" ],
        zh := some [
          "操作系統： Phrozen OS",
          "操作面板： 3.5吋 觸控螢幕",
          "切片軟體： Chitubox、Lychee及其他軟體",
          "檔案傳輸模式： USB",
          "技術規格： 光固化 3D 列印機",
          "光源設計：Linear Projection LED Module",
          "配備離型膜：FEP 離型膜",
          "XY 解析度： 22 µm",
          "切層厚度： 0.01-0.30mm",
          "最快列印速度： 80毫米 / 小時",
          "適用電壓：DC 24V;2A",
          "消耗功率：50W",
          "機台尺寸： 29 x 29 x 43 公分",
          "列印尺寸： 16.5 x 7.2 x 17 公分",
          "機台重量： 10 公斤" ] },
    manual := {
        en := some "https://cdn.shopify.com/s/files/1/0436/6965/1618/files/User_Manual_Sonic_Mini_8K_S_EN.pdf?v=1686221391",
        zh := some "https://cdn.shopify.com/s/files/1/0436/6965/1618/files/User_Manual_Sonic_Mini_8K_S_CH.pdf?v=1686221395" },
    resin := .direct {
          en := some "https://phrozen3d.com/pages/resin-sonic-mini-8k-s",
          zh := some "https://phrozen3d.com.tw/pages/resin-sonic-mini-8k-s" } }),
  ("Sonic_Mini_4K", {
    warranty := {
        en := some [
          "Mono-LCD : 3 Months",
          "LED Module : 12 Months",
          "Building Plate : 12 Months",
          "Z-axis : 12 Months",
          "Resin Vat : 12 Months",
          "Main Body : 12 Months",
          "FEP / PFA (nFEP) / ACF film : No Warranty" ],
        zh := some [
          "Mono-LCD 螢幕 : 3 個月",
          "LED 模組 : 12 個月",
          "載台 : 12 個月",
          "Z 軸 : 12 個月",
          "樹脂槽 : 12 個月",
          "主機體 : 12 個月",
          "離型膜（FEP / PFA (nFEP) / ACF）: 無保固" ] },
    specs := {
        en := some [
          "System: Phrozen OS",
          "Operation: 2.8in Touch Panel",
          "Slicer Software: ChiTu Box V1.6.5",
          "Connectivity: USB",
          "Technology: Resin 3D Printer - LCD Type",
          "Light Source: 405nm ParaLED Matrix 2.0",
          "Release Film: FEP Film",
          "XY Resolution: 35μm",
          "Layer Thickness: 0.01-0.30mm",
          "Maximum Printing Speed: 80mm/ hour",
          "Power Requirement: DC 24V;2A",
          "System Power: 40W",
          "Printer Size: 23 x 23 x 34 cm",
          "Print Volume: 13.4 x 7.5 x 13 cm",
          "Printer Weight: 5 kg" ],
        zh := some [
          "操作系統： Phrozen OS",
          "操作面板： 2.8吋 觸控螢幕",
          "切層軟體： CHITUBOX",
          "檔案傳輸模式： USB",
          "技術規格： 光固化 3D 列印機",
          "光源設計：ParaLED® 2.0平行光源",
          "配備離型膜：FEP 離型膜",
          "XY 解析度： 35 µm",
          "切層厚度： 0.01-0.30mm",
          "最快列印速度： 80毫米 / 小時",
          "適用電壓：DC 24V ; 2A",
          "消耗功率： 40W",
          "機台尺寸： 23 x 23 x 34 公分",
          "列印尺寸： 13.4 x 7.5 x 13 公分",
          "機台重量： 5 公斤" ] },
    manual := {
        en := some "https://cdn.shopify.com/s/files/1/0436/6965/1618/files/User_Manual_Sonic_Mini_4K_EN_CH.pdf?v=1686221404",
        zh := some "https://cdn.shopify.com/s/files/1/0436/6965/1618/files/User_Manual_Sonic_Mini_4K_EN_CH.pdf?v=1686221404" },
    resin := .direct {
          en := some "https://phrozen3d.com/pages/resin-sonic-mini-4k",
          zh := some "https://phrozen3d.com.tw/pages/resin-sonic-mini-4k" } }),
  ("Sonic_Mini", {
    warranty := {
        en := some [
          "Mono-LCD : 3 Months",
          "LED Module : 12 Months",
          "Building Plate : 12 Months",
          "Z-axis : 12 Months",
          "Resin Vat : 12 Months",
          "Main Body : 12 Months",
          "FEP / PFA (nFEP) / ACF film : No Warranty" ],
        zh := some [
          "Mono-LCD 螢幕 : 3 個月",
          "LED 模組 : 12 個月",
          "載台 : 12 個月",
          "Z 軸 : 12 個月",
          "樹脂槽 : 12 個月",
          "主機體 : 12 個月",
          "離型膜（FEP / PFA (nFEP) / ACF）: 無保固" ] },
    specs := {
        en := some [
          "System: Phrozen OS",
          "Operation: 2.8 in Touch Panel",
          "Slicer Software: CHITUBOX",
          "Connectivity: USB",
          "Technology: Resin 3D Printer - LCD Type",
          "Light Source: 405nm ParaLED Matrix 2.0",
          "XY Resolution: 62.5 µm",
          "Layer Thickness: 0.01-0.30mm",
          "Maximum Printing Speed: 80mm/ hour",
          "Power Requirement: AC100-240V~50/60Hz",
          "System Power: 30W",
          "Printer Size: 25 x 25 x 33 cm",
          "Print Volume: 12 x 6.8 x 13 cm",
          "Printer Weight: 5 kg" ],
        zh := some [
          "操作系統： Phrozen OS",
          "操作面板： 2.8吋 觸控螢幕",
          "切層軟體： CHITUBOX",
          "檔案傳輸模式：USB",
          "技術規格： 光固化 3D 列印機",
          "光源設計：ParaLED® 2.0平行光源",
          "配備離型膜：FEP 離型膜",
          "XY 解析度： 63 µm",
          "切層厚度： 0.01-0.30mm",
          "最快列印速度： 80毫米 / 小時",
          "適用電壓：AC100-240V~50/60Hz",
          "消耗功率：30W",
          "機台尺寸： 25 x 25 x 33 公分",
          "列印尺寸： 12 x 6.8 x 13 公分",
          "機台重量： 5公斤" ] },
    manual := {
        en := some "https://cdn.shopify.com/s/files/1/0436/6965/1618/files/User_Manual_Sonic_Mini_EN_CH.pdf?v=1686221395",
        zh := some "https://cdn.shopify.com/s/files/1/0436/6965/1618/files/User_Manual_Sonic_Mini_EN_CH.pdf?v=1686221395" },
    resin := .direct {
          en := some "https://phrozen3d.com/pages/resin-sonic-mini-series",
          zh := some "https://phrozen3d.com.tw/pages/resin-sonic-mini-series" } }),
  ("Sonic_Mighty_12K", {
    warranty := {
        en := some [
          "Mono-LCD : 3 Months",
          "LED Module : 12 Months",
          "Building Plate : 12 Months",
          "Z-axis : 12 Months",
          "Resin Vat : 12 Months",
          "Main Body : 12 Months",
          "FEP / PFA (nFEP) / ACF film : No Warranty" ],
        zh := some [
          "Mono-LCD 螢幕 : 3 個月",
          "LED 模組 : 12 個月",
          "載台 : 12 個月",
          "Z 軸 : 12 個月",
          "樹脂槽 : 12 個月",
          "主機體 : 12 個月",
          "離型膜（FEP / PFA (nFEP) / ACF）: 無保固" ] },
    specs := {
        en := some [
          "System: Phrozen OS",
          "Operation: 5\"\" in Large Touch Panel",
          "Slicer Software: CHITUBOX V2.0",
          "Connectivity: USB | Ethernet | Wi-Fi",
          "Built-in Memory: 8 GB",
          "Design: Technology Resin 3D Printer - LCD Type",
          "Light Source: Linear ProjectionLED Module",
          "Release Film: PFA(nFEP) Film",
          "XY Resolution: 19 x 24 µm",
          "Layer Thickness: 0.01-0.30 mm",
          "Maximum Printing Speed: 400 layer/hr",
          "Power Requirement: DC 24V；5A",
          "System Power: 120W",
          "Printer Size: 33.7 x 33.7 x 51.6 cm",
          "Print Volume: 21.8 x 12.3 x 23.5 cm",
          "Printer Weight: 14.3 kg" ],
        zh := some [
          "操作系統： Phrozen OS",
          "操作面板： 5吋 觸控螢幕",
          "切層軟體： CHITUBOX V1.9.4",
          "檔案傳輸模式： USB | 乙太網路 | Wi-Fi",
          "內建儲存空間: 8 GB",
          "技術規格： 光固化 3D 列印機",
          "光源設計：Linear Projection LED Module",
          "配備離型膜：PFA (nFEP)離型膜",
          "XY 解析度： 19 x 24 µm",
          "切層厚度： 0.01-0.30mm",
          "最快列印速度： 400層 / 小時",
          "適用電壓：DC 24V ; 5A",
          "消耗功率： 120W",
          "機台尺寸： 33.7 x 33.7 x 51.6 公分",
          "列印尺寸： 21.8 x 12.3 x 23.5 公分",
          "機台重量： 14.3 公斤" ] },
    manual := {
        en := some "https://cdn.shopify.com/s/files/1/0436/6965/1618/files/User_Manual_Sonic_Mighty_12K_EN.pdf?v=1710311360",
        zh := some "https://cdn.shopify.com/s/files/1/0436/6965/1618/files/User_Manual_Sonic_Mighty_12K_CH.pdf?v=1710311370" },
    resin := .direct {
          en := some "https://phrozen3d.com/pages/resin-12k-upgrade-kit-for-mighty-8k",
          zh := some "https://phrozen3d.com.tw/pages/resin-sonic-mighty-12k-upgrade-kit" } }),
  ("Sonic_Mighty_8K", {
    warranty := {
        en := some [
          "Mono-LCD : 3 Months",
          "LED Module : 12 Months",
          "Building Plate : 12 Months",
          "Z-axis : 12 Months",
          "Resin Vat : 12 Months",
          "Main Body : 12 Months",
          "FEP / PFA (nFEP) / ACF film : No Warranty" ],
        zh := some [
          "Mono-LCD 螢幕 : 3 個月",
          "LED 模組 : 12 個月",
          "載台 : 12 個月",
          "Z 軸 : 12 個月",
          "樹脂槽 : 12 個月",
          "主機體 : 12 個月",
          "離型膜（FEP / PFA (nFEP) / ACF）: 無保固" ] },
    specs := {
        en := some [
          "System: Phrozen OS",
          "Operation: 5\"\" in Large Touch Panel",
          "Slicer Software: CHITUBOX V2.0",
          "Connectivity: USB | Ethernet | Wi-Fi",
          "Built-in Memory: 3.5 GB",
          "Design: Technology Resin 3D Printer - LCD Type",
          "Light Source: Linear ProjectionLED Module",
          "Release Film: PFA(nFEP) Film",
          "XY Resolution: 28 µm",
          "Layer Thickness: 0.01-0.30 mm",
          "Maximum Printing Speed: 70 mm/hr",
          "Power Requirement: DC 24V；5A",
          "System Power: 120W",
          "Printer Size: 33.7 x 33.7 x 51.6 cm",
          "Print Volume: 21.8  x 12.3  x 23.5 cm",
          "Printer Weight: 14.3 kg" ],
        zh := some [
          "操作系統： Phrozen OS",
          "操作面板： 5吋 觸控螢幕",
          "切層軟體： CHITUBOX V1.9.4",
          "檔案傳輸模式： USB | 乙太網路 | Wi-Fi",
          "內建儲存空間: 3.5 GB",
          "技術規格： 光固化 3D 列印機",
          "光源設計：Linear Projection LED Module",
          "配備離型膜：PFA (nFEP)離型膜",
          "XY 解析度： 28 µm",
          "切層厚度： 0.01-0.30mm",
          "最快列印速度： 70毫米 / 小時",
          "適用電壓：DC 24V ; 5A",
          "消耗功率： 120W",
          "機台尺寸： 33.7 x 33.7 x 51.6 公分",
          "列印尺寸： 21.8 x 12.3 x 23.5 公分",
          "機台重量： 14.3 公斤" ] },
    manual := {
        en := some "https://cdn.shopify.com/s/files/1/0584/1777/4751/files/User_manual_Sonic_Mighty_8K_EN_CH-1.pdf?v=1688633520",
        zh := some "https://cdn.shopify.com/s/files/1/0584/1777/4751/files/User_manual_Sonic_Mighty_8K_EN_CH-1.pdf?v=1688633520" },
    resin := .direct {
          en := some "https://phrozen3d.com/pages/resin-sonic-mighty-8k",
          zh := some "https://phrozen3d.com.tw/pages/resin-sonic-mighty-8k" } }),
  ("Sonic_Mighty_4K", {
    warranty := {
        en := some [
          "Mono-LCD : 3 Months",
          "LED Module : 12 Months",
          "Building Plate : 12 Months",
          "Z-axis : 12 Months",
          "Resin Vat : 12 Months",
          "Main Body : 12 Months",
          "FEP / PFA (nFEP) / ACF film : No Warranty" ],
        zh := some [
          "Mono-LCD 螢幕 : 3 個月",
          "LED 模組 : 12 個月",
          "載台 : 12 個月",
          "Z 軸 : 12 個月",
          "樹脂槽 : 12 個月",
          "主機體 : 12 個月",
          "離型膜（FEP / PFA (nFEP) / ACF）: 無保固" ] },
    specs := {
        en := some [
          "System: Phrozen OS",
          "Operation: 2.8in Touch Panel",
          "Slicer Software: CHITUBOX",
          "Connectivity: USB",
          "Technology: Resin 3D Printer - LCD Type",
          "LCD Specification:  9.3\"\" 4K Mono LCD",
          "Light Source: 405nm ParaLED Matrix 2.0",
          "Release Film: FEP Film",
          "XY Resolution: 52 µm",
          "Layer Thickness: 0.01-0.30mm",
          "Maximum Printing Speed: 80mm/ hour",
          "Power Requirement: DC 24V；3A",
          "Printer Size: 29.3 x 29.3 x 43.2 cm",
          "Print Volume: 20 x 12.5 x 22 cm",
          "Printer Weight: 8 kg" ],
        zh := some [
          "操作系統： Phrozen OS",
          "操作面板： 2.8吋 觸控螢幕",
          "切層軟體： CHITUBOX V1.7.0",
          "檔案傳輸模式： USB",
          "技術規格： 光固化 3D 列印機",
          "光源設計：ParaLED® 2.0平行光源 (405nm UV-LED)",
          "配備離型膜：FEP 離型膜",
          "XY 解析度：52 µm",
          "切層厚度： 0.01-0.30mm",
          "最快列印速度： 80毫米 / 小時",
          "適用電壓：DC 24V ; 3A",
          "機台尺寸： 29.3 x 29.3 x 43.2 公分",
          "列印尺寸： 20 x 12.5 x 22 公分",
          "機台重量： 8 公斤" ] },
    manual := {
        en := some "https://cdn.shopify.com/s/files/1/0436/6965/1618/files/User_Manual_Sonic_Mini_4K_EN_CH.pdf?v=1686221404",
        zh := some "https://cdn.shopify.com/s/files/1/0436/6965/1618/files/User_Manual_Sonic_Mini_4K_EN_CH.pdf?v=1686221404" },
    resin := .direct {
          en := some "https://phrozen3d.com/pages/resin-sonic-mighty-4k",
          zh := some "https://phrozen3d.com.tw/pages/resin-sonic-mighty-4k" } }),
  ("Sonic_Mega_8K", {
    warranty := {
        en := some [
          "Mono-LCD : 3 Months",
          "LED Module : 12 Months",
          "Building Plate : 12 Months",
          "Z-axis : 12 Months",
          "Resin Vat : 12 Months",
          "Main Body : 12 Months",
          "FEP / PFA (nFEP) / ACF film : No Warranty" ],
        zh := some [
          "Mono-LCD 螢幕 : 3 個月",
          "LED 模組 : 12 個月",
          "載台 : 12 個月",
          "Z 軸 : 12 個月",
          "樹脂槽 : 12 個月",
          "主機體 : 12 個月",
          "離型膜（FEP / PFA (nFEP) / ACF）: 無保固" ] },
    specs := {
        en := some [
          "System: Phrozen OS",
          "Operation: 5\"\" in Large Touch Panel",
          "Slicer Software: CHITUBOX V1.9.0 or above",
          "Connectivity: Front USB Port | Ethernet",
          "Design: Technology Resin 3D Printer - LCD Type",
          "Light Source: 405nm ParaLED Matrix 3.0",
          "Release Film: PFA (nFEP)Film",
          "XY Resolution: 43 µm",
          "Layer Thickness: 0.01-0.30 mm",
          "Maximum Printing Speed: 70 mm/hr",
          "Power Requirement: 50-60Hz",
          "System Power: 250W",
          "Printer Size: 47.5 x 40 x 68 cm",
          "Print Volume: 33 x 18.5 x 40 cm",
          "Printer Weight: 35 kg" ],
        zh := some [
          "操作系統： Phrozen OS",
          "操作面板： 5吋 觸控螢幕",
          "切片軟體： CHITUBOX V1.9.0 或以上",
          "檔案傳輸模式： USB | 乙太網路",
          "技術規格： 光固化 3D 列印機",
          "光源設計：ParaLED® 3.0平行光源 (405nm UV-LED)",
          "配備離型膜：PFA (nFEP)離型膜",
          "XY 解析度： 43 µm",
          "切層厚度： 0.01-0.30mm",
          "最快列印速度： 70毫米 / 小時",
          "適用電壓：50-60Hz",
          "消耗功率： 250W",
          "機台尺寸： 47.5 x 40 x 68 公分",
          "列印尺寸： 33 x 18.5 x 40 公分",
          "機台重量： 35 公斤" ] },
    manual := {
        en := some "https://cdn.shopify.com/s/files/1/0436/6965/1618/files/User_Manual_Sonic_Mega_8K.pdf?v=1686221404",
        zh := some "https://cdn.shopify.com/s/files/1/0436/6965/1618/files/User_Manual_Sonic_Mega_8K.pdf?v=1686221404" },
    resin := .direct {
          en := some "https://phrozen3d.com/pages/resin-mega-8k",
          zh := some "https://phrozen3d.com.tw/pages/resin-mega-8k" } }),
  ("Sonic_Mega_8K_S", {
    warranty := {
        en := some [
          "Mono-LCD : 3 Months",
          "LED Module : 12 Months",
          "Building Plate : 12 Months",
          "Z-axis : 12 Months",
          "Resin Vat : 12 Months",
          "Main Body : 12 Months",
          "FEP / PFA (nFEP) / ACF film : No Warranty" ],
        zh := some [
          "Mono-LCD 螢幕 : 3 個月",
          "LED 模組 : 12 個月",
          "載台 : 12 個月",
          "Z 軸 : 12 個月",
          "樹脂槽 : 12 個月",
          "主機體 : 12 個月",
          "離型膜（FEP / PFA (nFEP) / ACF）: 無保固" ] },
    specs := {
        en := some [
          "System: Phrozen OS",
          "Operation: 3.5\"\" in Large Touch Panel",
          "Slicer Software: CHITUBOX V1.9.6 or above",
          "Connectivity: Front USB Port ",
          "Design: Technology Resin 3D Printer - LCD Type",
          "Light Source: 405nm ParaLED Matrix 2.0",
          "Release Film: ACF Film",
          "XY Resolution: 43 µm",
          "Layer Thickness: 0.01-0.30 mm",
          "Average Printing Speed: 600 layers/hr",
          "Power Requirement: AC100-240V；50-60Hz",
          "System Power: Max 240 W",
          "Printer Size: 47.2 x 38 x 56.6 cm",
          "Print Volume: 33 x 18.5 x 30 cm",
          "Printer Weight: 26 kg" ],
        zh := some [
          "操作系統： Phrozen OS",
          "操作面板： 3.5吋 觸控螢幕",
          "切片軟體： CHITUBOX V1.9.6 或以上",
          "檔案格式：.CTB 和 PRZ.",
          "檔案傳輸模式： 前置USB插孔",
          "技術規格： 光固化 3D列印機",
          "光源設計：405nm 波長 LED平行矩陣光源",
          "配備離型模：ACF 離型膜",
          "XY 解析度： 43 微米",
          "切層厚度： 0.01-0.30 毫米",
          "平均列印速度：600層 / 小時",
          "適用電壓：AC100-240V；50-60Hz",
          "消耗功率：最大240W",
          "機台尺寸： 47.2 x 38 x 56.6 公分",
          "列印尺寸： 33 x 18.5 x 30 公分",
          "機台重量： 26 公斤" ] },
    manual := {
        en := some "https://cdn.shopify.com/s/files/1/0584/1777/4751/files/User_Manual_Sonic_Mega_8K_S_EN.pdf?v=1697093749",
        zh := some "https://cdn.shopify.com/s/files/1/0584/1777/4751/files/User_Manual_Sonic_Mega_8K_S_CH.pdf?v=1697093749" },
    resin := .direct {
          en := some "https://phrozen3d.com/pages/resin-sonic-mega-8k-s",
          zh := some "https://phrozen3d.com.tw/pages/resin-mega-8k-s" } }),
  ("Wash_&amp;_Cure_Station", {
    warranty := {
        en := some [
          "Motor : 12 Months",
          "Main Body : 12 Months",
          "LED Module : 12 Months",
          "Turntable : 12 Months" ],
        zh := some [
          "馬達 : 12 個月",
          "主機體 : 12 個月",
          "LED模組 : 12 個月",
          "轉盤 : 12 個月" ] },
    specs := {
        en := some [
          "Wash machine dimensions: Length 27.7 x Width 20.7 x Height 46.7 cm",
          "Wash maximum model size: Length 21.8 x Width 12.3 x Height 23.5 cm",
          "Wash rated power: 48W",
          "Wash bottom turntable: Double turntable",
          "Wash cleaning bucket capacity: 8 liters",
          "Wash input voltage: 24 VDC",
          "Wash net weight: 3.5 kg",
          "Wash adjustable time: 1 to 30 minutes",
          "CURE rated power: 48W",
          "CURE input voltage: 24 VDC",
          "CURE machine dimensions: Length 35.4 x Width 30.9 x Height 36.8 cm",
          "CURE turntable size: Ø19.6 cm",
          "CURE maximum model size: Ø25 x Height 23.5 cm",
          "CURE net weight: 3.9 kg",
          "CURE adjustable time: 0-2 hours",
          "CURE LED wavelength: 405nm" ],
        zh := some [
          "Wash機器尺寸：長27.7 x 寬20.7 x 高46.7 公分",
          "Wash最大模型尺寸：長21.8 x 寬12.3 x 高23.5 公分",
          "Wash額定功率：48W",
          "Wash底部轉牌：雙轉盤",
          "Wash清洗桶容量：8 公升",
          "Wash輸入電壓：24 VDC",
          "Wash機台淨重 : 3.5 公斤",
          "Wash可設置時間：1~30 分鐘",
          "CURE額定功率：48W",
          "CURE輸入電壓：24 VDC",
          "CURE機器尺寸：長35.4 x 寬30.9 x 高36.8 公分",
          "CURE轉盤大小：Ø19.6 公分",
          "CURE最大模型尺寸：Ø25 x 高23.5 公分",
          "CURE機器淨重：3.9 公斤",
          "CURE可設置時間：0-2 小時",
          "CURELED 波長：405nm" ] },
    manual := {
        en := some "https://cdn.shopify.com/s/files/1/0584/1777/4751/files/User_Manual_Wash_Cure_Kit.pdf?v=1709697073",
        zh := some "https://cdn.shopify.com/s/files/1/0584/1777/4751/files/User_Manual_Wash_Cure_Kit.pdf?v=1709697073" },
    resin := .direct {
          en := some "",
          zh := some "" } }),
  ("Wash_Mega_S", {
    warranty := {
        en := some [
          "Motor : 12 Months",
          "Main Body : 12 Months" ],
        zh := some [
          "馬達 : 12 個月",
          "主機體 : 12 個月" ] },
    specs := {
        en := some [
          "Product Size: L41.2 x W26.0 x H62.5 cm",
          "Inner Capacity: L33.0 x W19.0 x H30.0 cm",
          "Vortex Speed: High (300 rpm), Low (275 rpm)",
          "Cleaning Method: Dual-speed double vortex",
          "Washing Capacity: 25L",
          "Supported Building Plate: 15 (Mega series), 13.6 13.3 and 12.8/span",
          "Input Voltage: AC100-2400-60Hz",
          "Weight: 8 kg",
          "Timer Settings: 10 min" ],
        zh := some [
          "機器尺寸：長 41.2 x 寬 26.0 x 高 62.5 公分",
          "最大模型尺寸：長 33.0 x 寬 19.0 x 高 30.0 公分",
          "轉速：高轉速(300 次/分鐘)、低轉速(275 次/分鐘）",
          "底部轉牌：雙轉盤",
          "清洗桶容量：25公升",
          "支援載台：Mega系列 15吋載台、12.8吋、13.3吋、13.6吋",
          "輸入電壓：AC100-240V；50-60Hz",
          "機台淨重 : 8公斤",
          "可設置時間：1~30 分鐘" ] },
    manual := {
        en := some "https://cdn.shopify.com/s/files/1/0584/1777/4751/files/User_Manual_Wash_Mega_S__EN.pdf?v=1698744297",
        zh := some "https://cdn.shopify.com/s/files/1/0584/1777/4751/files/User_Manual_Wash_Mega_S__CH.pdf?v=1698283085" },
    resin := .direct {
          en := some "",
          zh := some "" } }),
  ("Cure_Mega_S", {
    warranty := {
        en := some [
          "LED Module : 12 Months",
          "Turntable : 12 Months",
          "Main Body : 12 Months" ],
        zh := some [
          "LED 模組 : 12 個月",
          "轉盤 : 12 個月",
          "主機體 : 12 個月" ] },
    specs := {
        en := some [
          "Machine Size: L39.5 x W47.5 x H48.6 cm",
          "Max Curing Size: Ø35 x 30 cm",
          "Fan RPM: 1700 rotations/min",
          "Curing Time：1–120 min (Recommended time: Maximum 30 minutes/cycle)",
          "Input Voltage: AC100-240V ; 50/60Hz",
          "Machine Weight: 15 kg",
          "Max Power Consumption: 70 W",
          "LED Specification: 405 nm" ],
        zh := some [
          "機器尺寸：長 39.5 x 寬 47.5 x 高 48.6 公分",
          "最大固化尺寸:  Ø25 x 30.0 公分 ",
          "風扇轉速：1700 轉 / 分鐘",
          "可設置時間：0~30 分鐘",
          "輸入電壓：AC100-240V；50-60Hz",
          "機台淨重 : 15 公斤",
          "最大消耗功率：70瓦",
          "LED波長：405 nm" ] },
    manual := {
        en := some "https://cdn.shopify.com/s/files/1/0584/1777/4751/files/User_Manual_Cure_Mega_S__EN.pdf?v=1698027433",
        zh := some "https://cdn.shopify.com/s/files/1/0584/1777/4751/files/User_Manual_Cure_Mega_S__CH.pdf?v=1698027433" },
    resin := .direct {
          en := some "",
          zh := some "" } }),
  ("Transform_&amp;_Shuffle_Series", {
    warranty := {
        en := some [
          "RGB-LCD、Mono-LCD : No Warranty",
          "LED Module : 12 Months",
          "Building Plate : 12 Months",
          "Z-axis : 12 Months",
          "Resin Vat : 12 Months",
          "Main Body : 12 Months",
          "FEP / PFA (nFEP) / ACF film : No Warranty" ],
        zh := some [
          "RGB-LCD 螢幕、Mono-LCD 螢幕 : 無保固",
          "LED 模組 : 12 個月",
          "載台 : 12 個月",
          "Z 軸 : 12 個月",
          "樹脂槽 : 12 個月",
          "主機體 : 12 個月",
          "離型膜（FEP / PFA (nFEP) / ACF）: 無保固" ] },
    specs := {
        en := some [
          "Machine Size: L39.5 x W47.5 x H48.6 cm",
          "Max Curing Size: Ø35 x 30 cm",
          "Fan RPM: 1700 rotations/min",
          "Curing Time：1–120 min (Recommended time: Maximum 30 minutes/cycle)",
          "Input Voltage: AC100-240V ; 50/60Hz",
          "Machine Weight: 15 kg",
          "Max Power Consumption: 70 W",
          "LED Specification: 405 nm" ],
        zh := some [
          "機器尺寸：長 39.5 x 寬 47.5 x 高 48.6 公分",
          "最大固化尺寸:  Ø25 x 30.0 公分 ",
          "風扇轉速：1700 轉 / 分鐘",
          "可設置時間：0~30 分鐘",
          "輸入電壓：AC100-240V；50-60Hz",
          "機台淨重 : 15 公斤",
          "最大消耗功率：70瓦",
          "LED波長：405 nm" ] },
    manual := {
        en := some "https://cdn.shopify.com/s/files/1/0436/6965/1618/files/User_Manual_Transform_EN.rar?v=1686221397",
        zh := some "https://cdn.shopify.com/s/files/1/0436/6965/1618/files/User_Manual_Transform_CH.rar?v=1686221395" },
    resin := .variants
        (some {
            en := some "https://phrozen3d.com/pages/resin-transform",
            zh := some "https://phrozen3d.com.tw/pages/resin-transform-standard" })
        (some {
            en := some "https://phrozen3d.com/pages/resin-shuffle-4k",
            zh := some "https://phrozen3d.com.tw/pages/resin-shuffle-4k" }) }) ]

/-- The table `articleCardImages`: per language, article title to thumbnail
URL, in source order (a title written twice keeps both entries). -/
def articleCardImages : PerLang (List (String × String)) :=
  {
    en := some [
      ("[Sonic Mini 8K S] Unboxing Your Printer",
        "https://helpcenter.phrozen3d.com/hc/article_attachments/31574920725657"),
      ("[Sonic Mini 8K S] Getting to Know Your Printer",
        "https://helpcenter.phrozen3d.com/hc/article_attachments/31574920725657"),
      ("[Sonic Mini 8K S] Setting up Your Printer",
        "https://helpcenter.phrozen3d.com/hc/article_attachments/31574920725657"),
      ("[Sonic Mini 8K S] How to Run the LCD Test",
        "https://helpcenter.phrozen3d.com/hc/article_attachments/31574920725657"),
      ("[Sonic Mini 8K S] Z-axis Calibration",
        "https://helpcenter.phrozen3d.com/hc/article_attachments/31574920725657"),
      ("[Sonic Mini 8K S] Cleaning the Z-axis",
        "https://helpcenter.phrozen3d.com/hc/article_attachments/31706794092441"),
      ("[Sonic Mini 8K S] Checking the LCD",
        "https://helpcenter.phrozen3d.com/hc/article_attachments/31706918651289"),
      ("[Sonic Mini 8K S] Checking the Touch Panel",
        "https://helpcenter.phrozen3d.com/hc/article_attachments/31707012211609"),
      ("[Sonic Mini 8K S] Checking the LED",
        "https://helpcenter.phrozen3d.com/hc/article_attachments/31707321693721"),
      ("[Sonic Mini 8K S] Checking the Z-axis and Motor",
        "https://helpcenter.phrozen3d.com/hc/article_attachments/31707412799257"),
      ("[Sonic Mini 8K S] Replacing the Mainboard",
        "https://helpcenter.phrozen3d.com/hc/article_attachments/29320306686617"),
      ("[Sonic Mini 8K S] Replacing the LED",
        "https://helpcenter.phrozen3d.com/hc/article_attachments/29334118451225"),
      ("[Sonic Mini 8K S] Replacing the Z-axis",
        "https://helpcenter.phrozen3d.com/hc/article_attachments/29335006552857"),
      ("[Sonic Mini 8K S] Replacing the LCD",
        "https://helpcenter.phrozen3d.com/hc/article_attachments/29335853204633"),
      ("[Sonic Mini 8K] Key Features Highlight",
        "https://helpcenter.phrozen3d.com/hc/article_attachments/31869521663769"),
      ("[Sonic Mini 8K] Unboxing Your Printer",
        "https://helpcenter.phrozen3d.com/hc/article_attachments/31869521663769"),
      ("[Sonic Mini 8K] Getting to Know Your Printer",
        "https://helpcenter.phrozen3d.com/hc/article_attachments/31869521663769"),
      ("[Sonic Mini 8K] Setting up Your Printer",
        "https://helpcenter.phrozen3d.com/hc/article_attachments/31869521663769"),
      ("[Sonic Mini 8K] Z-axis Calibration",
        "https://helpcenter.phrozen3d.com/hc/article_attachments/31869521663769"),
      ("[Sonic Mini 8K] How to Run the LCD Test",
        "https://helpcenter.phrozen3d.com/hc/article_attachments/31869521663769"),
      ("[Sonic Mini 8K] First Test Print",
        "https://helpcenter.phrozen3d.com/hc/article_attachments/31869880369817"),
      ("[Sonic Mini 8K] Post-processing Guide",
        "https://helpcenter.phrozen3d.com/hc/article_attachments/31870015018521"),
      ("[Sonic Mini 8K] VAT Cleaning Function",
        "https://helpcenter.phrozen3d.com/hc/article_attachments/31870135117977"),
      ("[Sonic Mini 8K] Checking the Mainboard Version",
        "https://helpcenter.phrozen3d.com/hc/article_attachments/31870243192345"),
      ("[Sonic Mini 8K] Cleaning the Z-axis",
        "https://helpcenter.phrozen3d.com/hc/article_attachments/31870334422041"),
      ("[Sonic Mini 8K] Checking the LCD",
        "https://helpcenter.phrozen3d.com/hc/article_attachments/31870513354009"),
      ("[Sonic Mini 8K] Checking the Touch Panel",
        "https://helpcenter.phrozen3d.com/hc/article_attachments/31870633329945"),
      ("[Sonic Mini 8K] Checking the LED",
        "https://helpcenter.phrozen3d.com/hc/article_attachments/31870696950041"),
      ("[Sonic Mini 8K] Checking the Z-axis and Motor",
        "https://helpcenter.phrozen3d.com/hc/article_attachments/31870790784537"),
      ("[Sonic Mini 8K] Replacing the FEP Film",
        "https://helpcenter.phrozen3d.com/hc/article_attachments/29506262537497"),
      ("[Sonic Mini 8K] Replacing the LCD",
        "https://helpcenter.phrozen3d.com/hc/article_attachments/29506267837081"),
      ("[Sonic Mini 8K] Replacing the LED",
        "https://helpcenter.phrozen3d.com/hc/article_attachments/29506262493209"),
      ("[Sonic Mini 8K] Replacing the Z-axis",
        "https://helpcenter.phrozen3d.com/hc/article_attachments/29506262563097"),
      ("[Sonic Mini 8K] Replacing the Mainboard",
        "https://helpcenter.phrozen3d.com/hc/article_attachments/29506262480793"),
      ("[Sonic Mini 8K] Replacing the Touch Panel",
        "https://helpcenter.phrozen3d.com/hc/article_attachments/29564400177817"),
      ("[Sonic Mini 4K] Cleaning the Z-axis",
        "https://helpcenter.phrozen3d.com/hc/article_attachments/32491999333145"),
      ("[Sonic Mini 4K] Checking the Z-axis and Motor",
        "https://helpcenter.phrozen3d.com/hc/article_attachments/32492956725529"),
      ("[Sonic Mini 4K] Checking the LCD",
        "https://helpcenter.phrozen3d.com/hc/article_attachments/32492175553305"),
      ("[Sonic Mini 4K] Checking the Touch Panel",
        "https://helpcenter.phrozen3d.com/hc/article_attachments/32492358313753"),
      ("[Sonic Mini 4K] Checking the LED",
        "https://helpcenter.phrozen3d.com/hc/article_attachments/32492458215193"),
      ("[Sonic Mini 4K] Checking the LED",
        "https://helpcenter.phrozen3d.com/hc/article_attachments/32492458215193"),
      ("[Sonic Mini 4K] How to run the LCD Test",
        "https://helpcenter.phrozen3d.com/hc/article_attachments/32197218776985"),
      ("[Sonic Mini 4K] Z-axis calibration",
        "https://helpcenter.phrozen3d.com/hc/article_attachments/32197218776985"),
      ("[Sonic Mini 4K] Unboxing Your Printer",
        "https://helpcenter.phrozen3d.com/hc/article_attachments/32197218776985"),
      ("[Sonic Mini 4K] Getting to Know Your Printer",
        "https://helpcenter.phrozen3d.com/hc/article_attachments/32197218776985"),
      ("[Sonic Mini 4K] Setting up Your Printer",
        "https://helpcenter.phrozen3d.com/hc/article_attachments/32197218776985"),
      ("[Sonic Mini 4K] Sanding the Building Plate",
        "https://helpcenter.phrozen3d.com/hc/article_attachments/32197439157913"),
      ("[Sonic Mini 4K] First Test Print",
        "https://helpcenter.phrozen3d.com/hc/article_attachments/32197536456985"),
      ("[Sonic Mini 4K] Post-processing Guide",
        "https://helpcenter.phrozen3d.com/hc/article_attachments/32197580844569"),
      ("[Sonic Mini 4K] VAT Cleaning Function",
        "https://helpcenter.phrozen3d.com/hc/article_attachments/32197608125465"),
      ("[Sonic Mini 4K] Replacing the LCD",
        "https://helpcenter.phrozen3d.com/hc/article_attachments/29643767359897"),
      ("[Sonic Mini 4K] Replacing the LED",
        "https://helpcenter.phrozen3d.com/hc/article_attachments/29643797466521"),
      ("[Sonic Mini 4K] Replacing the Mainboard",
        "https://helpcenter.phrozen3d.com/hc/article_attachments/29643767367577"),
      ("[Sonic Mini 4K] Replacing the FEP Film",
        "https://helpcenter.phrozen3d.com/hc/article_attachments/29647760556569"),
      ("[Sonic Mini 4K] Replacing the Z-axis",
        "https://helpcenter.phrozen3d.com/hc/article_attachments/29751984134809"),
      ("[Sonic Mini] Cleaning the Z-axis",
        "https://helpcenter.phrozen3d.com/hc/article_attachments/32535629831705"),
      ("[Sonic Mini] Checking the Z-axis and Motor",
        "https://helpcenter.phrozen3d.com/hc/article_attachments/32535629831705"),
      ("[Sonic Mini] Checking the LCD",
        "https://helpcenter.phrozen3d.com/hc/article_attachments/32536611046041"),
      ("[Sonic Mini] Checking the LED",
        "https://helpcenter.phrozen3d.com/hc/article_attachments/32536681461657"),
      ("[Sonic Mini] Checking the Touch Panel",
        "https://helpcenter.phrozen3d.com/hc/article_attachments/32536787642393"),
      ("[Sonic Mini] How to Run the LCD Test",
        "https://helpcenter.phrozen3d.com/hc/article_attachments/32499291180697"),
      ("[Sonic Mini] Z-axis Calibration",
        "https://helpcenter.phrozen3d.com/hc/article_attachments/32499291180697"),
      ("[Sonic Mini] Replacing the Z-axis",
        "https://helpcenter.phrozen3d.com/hc/article_attachments/29846550154265"),
      ("[Sonic Mini] Replacing the Mainboard",
        "https://helpcenter.phrozen3d.com/hc/article_attachments/29846520889369"),
      ("[Sonic Mini] Replacing the LED",
        "https://helpcenter.phrozen3d.com/hc/article_attachments/29846520895769"),
      ("[Sonic Mini] Replacing the LCD",
        "https://helpcenter.phrozen3d.com/hc/article_attachments/29846520908441"),
      ("[Sonic Mini] Replacing the FEP Film",
        "https://helpcenter.phrozen3d.com/hc/article_attachments/29885513435801") ],
    zh := some [
      ("[Sonic Mini 8K S] 開箱您的列印機",
        "https://helpcenter.phrozen3d.com/hc/article_attachments/31574920725657"),
      ("[Sonic Mini 8K S] 了解您的列印機",
        "https://helpcenter.phrozen3d.com/hc/article_attachments/31574920725657"),
      ("[Sonic Mini 8K S] 如何進行LCD測試",
        "https://helpcenter.phrozen3d.com/hc/article_attachments/31574920725657"),
      ("[Sonic Mini 8K S] Z軸校正",
        "https://helpcenter.phrozen3d.com/hc/article_attachments/31574920725657"),
      ("[Sonic Mini 8K S] 設定您的列印機",
        "https://helpcenter.phrozen3d.com/hc/article_attachments/31574920725657"),
      ("[Sonic Mini 8K S] 保養螺桿",
        "https://helpcenter.phrozen3d.com/hc/article_attachments/31706794092441"),
      ("[Sonic Mini 8K S] LCD檢查",
        "https://helpcenter.phrozen3d.com/hc/article_attachments/31706918651289"),
      ("[Sonic Mini 8K S] 觸控面板檢查",
        "https://helpcenter.phrozen3d.com/hc/article_attachments/31707012211609"),
      ("[Sonic Mini 8K S] LED檢查",
        "https://helpcenter.phrozen3d.com/hc/article_attachments/31707321693721"),
      ("[Mini 8K S] Z軸及馬達檢查",
        "https://helpcenter.phrozen3d.com/hc/article_attachments/31707412799257"),
      ("[Sonic Mini 8K S] 更換主板",
        "https://helpcenter.phrozen3d.com/hc/article_attachments/29320306686617"),
      ("[Sonic Mini 8K S] 更換LED",
        "https://helpcenter.phrozen3d.com/hc/article_attachments/29334118451225"),
      ("[Sonic Mini 8K S] 更換Z軸",
        "https://helpcenter.phrozen3d.com/hc/article_attachments/29335006552857"),
      ("[Sonic Mini 8K S] 更換 LCD",
        "https://helpcenter.phrozen3d.com/hc/article_attachments/29335853204633"),
      ("[Sonic Mini 8K] 特點介紹",
        "https://helpcenter.phrozen3d.com/hc/article_attachments/31869521663769"),
      ("[Sonic Mini 8K] 開箱您的列印機",
        "https://helpcenter.phrozen3d.com/hc/article_attachments/31869521663769"),
      ("[Sonic Mini 8K] 了解您的列印機",
        "https://helpcenter.phrozen3d.com/hc/article_attachments/31869521663769"),
      ("[Sonic Mini 8K] 設定您的列印機",
        "https://helpcenter.phrozen3d.com/hc/article_attachments/31869521663769"),
      ("[Sonic Mini 8K] Z軸校正",
        "https://helpcenter.phrozen3d.com/hc/article_attachments/31869521663769"),
      ("[Sonic Mini 8K] 如何執行 LCD 測試",
        "https://helpcenter.phrozen3d.com/hc/article_attachments/31869521663769"),
      ("[Sonic Mini 8K] 首次使用普羅森測試檔案列印",
        "https://helpcenter.phrozen3d.com/hc/article_attachments/31869880369817"),
      ("[Sonic Mini 8K] 後處理指南",
        "https://helpcenter.phrozen3d.com/hc/article_attachments/31870015018521"),
      ("[Sonic Mini 8K] 料槽清理功能",
        "https://helpcenter.phrozen3d.com/hc/article_attachments/31870135117977"),
      ("[Sonic Mini 8K] 如何辨識主板版本",
        "https://helpcenter.phrozen3d.com/hc/article_attachments/31870243192345"),
      ("[Sonic Mini 8K] 保養螺桿",
        "https://helpcenter.phrozen3d.com/hc/article_attachments/31870334422041"),
      ("[Sonic Mini 8k] LCD 排線檢查",
        "https://helpcenter.phrozen3d.com/hc/article_attachments/31870696950041"),
      ("[Sonic Mini 8K] 觸控面板檢查",
        "https://helpcenter.phrozen3d.com/hc/article_attachments/31870633329945"),
      ("[Sonic Mini 8K] LED檢查",
        "https://helpcenter.phrozen3d.com/hc/article_attachments/31870513354009"),
      ("[Sonic Mini 8k] Z軸及馬達檢查",
        "https://helpcenter.phrozen3d.com/hc/article_attachments/31870790784537"),
      ("[Sonic Mini 8K] 更換 FEP 膜",
        "https://helpcenter.phrozen3d.com/hc/article_attachments/29506262537497"),
      ("[Sonic Mini 8K] 更換 LCD",
        "https://helpcenter.phrozen3d.com/hc/article_attachments/29506267837081"),
      ("[Sonic Mini 8K] 更換 LED",
        "https://helpcenter.phrozen3d.com/hc/article_attachments/29506262493209"),
      ("[Sonic Mini 8K] 更換 LED",
        "https://helpcenter.phrozen3d.com/hc/article_attachments/29506262493209"),
      ("[Sonic Mini 8K] 更換Z桿",
        "https://helpcenter.phrozen3d.com/hc/article_attachments/29506262563097"),
      ("[Sonic Mini 8K] 更換主板",
        "https://helpcenter.phrozen3d.com/hc/article_attachments/29506262480793"),
      ("[Sonic Mini 8K] 觸控面板更換",
        "https://helpcenter.phrozen3d.com/hc/article_attachments/29564400177817"),
      ("[Sonic Mini 4K] 如何進行 LCD 測試",
        "https://helpcenter.phrozen3d.com/hc/article_attachments/32197218776985"),
      ("[Sonic Mini 4K] 保養螺桿",
        "https://helpcenter.phrozen3d.com/hc/article_attachments/32491999333145"),
      ("[Sonic Mini 4K] 檢查 Z 軸和馬達",
        "https://helpcenter.phrozen3d.com/hc/article_attachments/32492956725529"),
      ("[Sonic Mini 4K] 檢查 LCD",
        "https://helpcenter.phrozen3d.com/hc/article_attachments/32492175553305"),
      ("[Sonic Mini 4K] 檢查觸控螢幕",
        "https://helpcenter.phrozen3d.com/hc/article_attachments/32492358313753"),
      ("[Sonic Mini 4K] 檢查 LED",
        "https://helpcenter.phrozen3d.com/hc/article_attachments/32492458215193"),
      ("[Sonic Mini 4K] Z軸校正",
        "https://helpcenter.phrozen3d.com/hc/article_attachments/32197218776985"),
      ("[Sonic Mini 4K] 開箱您的列印機",
        "https://helpcenter.phrozen3d.com/hc/article_attachments/32197218776985"),
      ("[Sonic Mini 4K] 了解您的列印機",
        "https://helpcenter.phrozen3d.com/hc/article_attachments/32197218776985"),
      ("[Sonic Mini 4K] 設定您的列印機",
        "https://helpcenter.phrozen3d.com/hc/article_attachments/32197218776985"),
      ("[Sonic Mini 4K] 打磨載台",
        "https://helpcenter.phrozen3d.com/hc/article_attachments/32197439157913"),
      ("[Sonic Mini 4K] 首次使用普羅森測試檔案列印",
        "https://helpcenter.phrozen3d.com/hc/article_attachments/32197536456985"),
      ("[Sonic Mini 4K] 後期處理指南",
        "https://helpcenter.phrozen3d.com/hc/article_attachments/32197580844569"),
      ("[Sonic Mini 4K] 料槽清理功能",
        "https://helpcenter.phrozen3d.com/hc/article_attachments/32197608125465"),
      ("[Sonic Mini 4K] 更換 LCD",
        "https://helpcenter.phrozen3d.com/hc/article_attachments/29643767359897"),
      ("[Sonic Mini 4K] 更換LED",
        "https://helpcenter.phrozen3d.com/hc/article_attachments/29643797466521"),
      ("[Sonic Mini 4K] 更換主板",
        "https://helpcenter.phrozen3d.com/hc/article_attachments/29643767367577"),
      ("[Sonic Mini 4K] 更換FEP薄膜",
        "https://helpcenter.phrozen3d.com/hc/article_attachments/29647760556569"),
      ("[Sonic Mini 4K] 更換 Z 軸",
        "https://helpcenter.phrozen3d.com/hc/article_attachments/29751984134809"),
      ("[Sonic Mini] 更換 Z 軸",
        "https://helpcenter.phrozen3d.com/hc/article_attachments/29846550154265"),
      ("[Sonic Mini] 更換主板",
        "https://helpcenter.phrozen3d.com/hc/article_attachments/29846520889369"),
      ("[Sonic Mini] 更換LED",
        "https://helpcenter.phrozen3d.com/hc/article_attachments/29846520895769"),
      ("[Sonic Mini] 更換LCD",
        "https://helpcenter.phrozen3d.com/hc/article_attachments/29846520908441"),
      ("[Sonic Mini] 更換FEP薄膜",
        "https://helpcenter.phrozen3d.com/hc/article_attachments/29885513435801") ] }

/-- The list `excludedCategories`. -/
def excludedCategories : List String :=
  ["Orders &amp; Shipping", "Software", "軟體", "訂單&amp;運輸", "Beginner\x27s Guide",
   "新手指南", "Printing Issues", "列印問題", "Knowledge Hub", "知識庫",
   "Common Queries", "常見問題"]

/-- The function `findMachineInfo`: `categoryMachinesInfo[categoryName]`. -/
def findMachineInfo (categoryMachinesInfo : List (String × MachineRecord))
    (categoryName : String) : PropValue MachineRecord :=
  getProp categoryMachinesInfo categoryName

/-! ## Completions -/

/-- An exception raised by the script: a `TypeError`, or the `SyntaxError` of
`querySelector` for a selector that is not valid. -/
inductive JsError where
  | typeError
  | syntaxError
  deriving DecidableEq, Repr

/-- How a statement ends: normally, or by raising. -/
inductive Completion where
  | normal
  | throw (e : JsError)
  deriving DecidableEq, Repr

/-- The state a piece of code leaves and how it ended; what was written before
an exception stays written. -/
structure Run (σ : Type) where
  state : σ
  completion : Completion

/-- Sequencing: `next` runs only when the first part ended normally. -/
def Run.andThen {σ : Type} (r : Run σ) (next : σ → Run σ) : Run σ :=
  match r.completion with
  | .normal => next r.state
  | .throw _ => r

/-- The method `items.forEach(callback)` for a callback that acts on the state
and may raise. -/
def forEach {α σ : Type} (items : List α) (callback : α → σ → Run σ) (s : σ) : Run σ :=
  match items with
  | [] => ⟨s, .normal⟩
  | item :: rest => (callback item s).andThen (forEach rest callback)

/-! ## The category page

The page is modelled by the elements the script selects. A field of type
`Option` holds the element `document.querySelector` returns for the selector
(`none` for `null`), a list holds the elements `querySelectorAll` returns, in
document order. Elements of different fields are different elements, and an
element leaves the page through `remove()` only.
-/

/-- A list item built by `document.createElement("li")`: the markup assigned
to its `innerHTML` and its class list. -/
structure Li where
  innerHTML : String
  classList : List String
  deriving DecidableEq, Repr

/-- An anchor whose `href` the script assigns; `none` once `undefined` was
assigned. -/
structure Link where
  href : Option String
  deriving DecidableEq, Repr

/-- A collapsible wrapper: the value last assigned to `style.height`, written
as text, and the class list. -/
structure Wrapper where
  height : String
  classList : List String
  deriving DecidableEq, Repr

/-- The click listeners the script registers. -/
inductive ClickListener where
  | warrantyToggle
  | specsToggle
  deriving DecidableEq, Repr

/-- A toggle button: its label and the listeners registered for `click`. -/
structure Button where
  innerHTML : String
  clickListeners : List ClickListener
  deriving DecidableEq, Repr

/-- The machine part of a category page. -/
structure Page where
  /-- The text `document.documentElement.lang`. -/
  lang : String
  /-- The children of `.warranty-list`. -/
  warrantyList : Option (List Li)
  /-- The element `.warranty-btn`. -/
  warrantyBtn : Option Button
  /-- The element `.warranty-wrapper`. -/
  warrantyWrapper : Option Wrapper
  /-- The children of `.specs-list`. -/
  specsList : Option (List Li)
  /-- The element `.specs-btn`. -/
  specsBtn : Option Button
  /-- The element `.specs-wrapper`. -/
  specsWrapper : Option Wrapper
  /-- The element `.machine-manual-link`. -/
  machineManualLink : Option Link
  /-- The elements `.machine-resin-link`. -/
  machineResinLinks : List Link
  /-- Whether the document holds the `.last-hr` separator. -/
  lastHr : Bool
  /-- Whether the document holds the `.machine-resin` block. -/
  machineResin : Bool

/-- The method `classList.add(name)`. -/
def classListAdd (name : String) (classList : List String) : List String :=
  if name ∈ classList then classList else classList ++ [name]

/-- The method `classList.remove(name)`. -/
def classListRemove (name : String) (classList : List String) : List String :=
  classList.filter (fun c => c ≠ name)

/-- The callback of `forEach` in `renderWarrantyContent`: one `li` of class
`warranty-item` holding `item` is appended to `.warranty-list`. -/
def appendWarrantyItem (item : String) (p : Page) : Run Page :=
  let newLi : Li := { innerHTML := item, classList := classListAdd "warranty-item" [] }
  match p.warrantyList with
  | some children => ⟨{ p with warrantyList := some (children ++ [newLi]) }, .normal⟩
  | none => ⟨p, .throw .typeError⟩

/-- The function `renderWarrantyContent`. Reading `['warranty'][currentLang]`
raises for a `machineObj` that is `undefined` or an inherited member, and
`forEach` raises when the record has no list for the language. -/
def renderWarrantyContent (machineObj : PropValue MachineRecord) (p : Page) : Run Page :=
  let currentLang := substr02 p.lang
  match machineObj with
  | .own record =>
    match record.warranty.get currentLang with
    | some items => forEach items appendWarrantyItem p
    | none => ⟨p, .throw .typeError⟩
  | _ => ⟨p, .throw .typeError⟩

/-- The callback of `forEach` in `renderSpecsContent`: one `li` of class
`specs-item` holding `item` is appended to `.specs-list`. -/
def appendSpecsItem (item : String) (p : Page) : Run Page :=
  let newLi : Li := { innerHTML := item, classList := classListAdd "specs-item" [] }
  match p.specsList with
  | some children => ⟨{ p with specsList := some (children ++ [newLi]) }, .normal⟩
  | none => ⟨p, .throw .typeError⟩

/-- The function `renderSpecsContent`, alike for `['specs'][currentLang]`. -/
def renderSpecsContent (machineObj : PropValue MachineRecord) (p : Page) : Run Page :=
  let currentLang := substr02 p.lang
  match machineObj with
  | .own record =>
    match record.specs.get currentLang with
    | some items => forEach items appendSpecsItem p
    | none => ⟨p, .throw .typeError⟩
  | _ => ⟨p, .throw .typeError⟩

/-- The click listener both collapse functions register, on its button and
wrapper. `list` is the list element the function selected (`none` when the
page has none) and `scrollHeight` the height the browser measures for it.
Opening writes the label and the class first; reading `scrollHeight` of a
missing list then raises, and the height is left as it was. -/
def collapseClick (scrollHeight : Nat) (list : Option (List Li)) (btn : Button)
    (wrapper : Wrapper) : Run (Button × Wrapper) :=
  if "open" ∈ wrapper.classList then
    ⟨({ btn with innerHTML := "+" },
      { height := "0", classList := classListRemove "open" wrapper.classList }), .normal⟩
  else
    let btn := { btn with innerHTML := "-" }
    let wrapper := { wrapper with classList := classListAdd "open" wrapper.classList }
    match list with
    | none => ⟨(btn, wrapper), .throw .typeError⟩
    | some _ => ⟨(btn, { wrapper with height := toString scrollHeight ++ "px" }), .normal⟩

/-- The function `machineWarrantyBtnCollapse`: the wrapper's height is set to
`0`, then the click listener is registered. It does not read its argument. -/
def machineWarrantyBtnCollapse (_machineObj : PropValue MachineRecord) (p : Page) : Run Page :=
  match p.warrantyWrapper with
  | none => ⟨p, .throw .typeError⟩
  | some wrapper =>
    let p := { p with warrantyWrapper := some { wrapper with height := "0" } }
    match p.warrantyBtn with
    | none => ⟨p, .throw .typeError⟩
    | some btn =>
      let btn := { btn with clickListeners := btn.clickListeners ++ [.warrantyToggle] }
      ⟨{ p with warrantyBtn := some btn }, .normal⟩

/-- The function `machineSpecsBtnCollapse`: the wrapper's height is set to
`0`, then the click listener is registered. It does not read its argument. -/
def machineSpecsBtnCollapse (_machineObj : PropValue MachineRecord) (p : Page) : Run Page :=
  match p.specsWrapper with
  | none => ⟨p, .throw .typeError⟩
  | some wrapper =>
    let p := { p with specsWrapper := some { wrapper with height := "0" } }
    match p.specsBtn with
    | none => ⟨p, .throw .typeError⟩
    | some btn =>
      let btn := { btn with clickListeners := btn.clickListeners ++ [.specsToggle] }
      ⟨{ p with specsBtn := some btn }, .normal⟩

/-- The expression `machineObj['resin'][currentLang]` of the branch without
sub-variants; a language key names neither sub-variant, so the lookup in a
record that has them gives `undefined`. -/
def Resin.forLang (resin : Resin) (currentLang : LangCode) : Option String :=
  match resin with
  | .direct urls => urls.get currentLang
  | .variants _ _ => none

/-- The function `bindMachineLink`. The test `machineObj['resin']["Shuffle_Series"]`
is truthy exactly for a record whose `resin` has that sub-variant. -/
def bindMachineLink (machineObj : PropValue MachineRecord) (p : Page) : Run Page :=
  let currentLang := substr02 p.lang
  match machineObj, p.machineManualLink with
  | .own record, some manualLink =>
    let manualLink := { manualLink with href := record.manual.get currentLang }
    let p := { p with machineManualLink := some manualLink }
    match record.resin with
    | .variants transform (some shuffleSeries) =>
      match transform, p.machineResinLinks with
      | some transformUrls, first :: rest =>
        let first := { first with href := transformUrls.get currentLang }
        match rest with
        | second :: others =>
          let second := { second with href := shuffleSeries.get currentLang }
          ⟨{ p with machineResinLinks := first :: second :: others }, .normal⟩
        | [] => ⟨{ p with machineResinLinks := [first] }, .throw .typeError⟩
      | _, _ => ⟨p, .throw .typeError⟩
    | resin =>
      if truthy (resin.forLang currentLang) then
        match p.machineResinLinks with
        | first :: rest =>
          let first := { first with href := resin.forLang currentLang }
          ⟨{ p with machineResinLinks := first :: rest }, .normal⟩
        | [] => ⟨p, .normal⟩
      else if p.lastHr then
        let p := { p with lastHr := false }
        if p.machineResin then ⟨{ p with machineResin := false }, .normal⟩
        else ⟨p, .throw .typeError⟩
      else ⟨p, .throw .typeError⟩
  | _, _ => ⟨p, .throw .typeError⟩

/-- The function `renderMachineContent`. -/
def renderMachineContent (machineObj : PropValue MachineRecord) (p : Page) : Run Page :=
  (renderWarrantyContent machineObj p).andThen fun p =>
  (renderSpecsContent machineObj p).andThen fun p =>
  (machineWarrantyBtnCollapse machineObj p).andThen fun p =>
  (machineSpecsBtnCollapse machineObj p).andThen fun p =>
  bindMachineLink machineObj p

/-- Which renderer the page-load handler calls for a `.category-name` element,
and with which argument. -/
inductive CategoryRender where
  | renderMachineContent (machineObj : PropValue MachineRecord)
  | renderFaqContent (categoryName : String)
  deriving DecidableEq

/-- The branch of the page-load handler taken for the text `innerHTML` of the
`.category-name` element. -/
def categoryRender (innerHTML : String) : CategoryRender :=
  if !(excludedCategories.contains innerHTML) then
    .renderMachineContent
      (findMachineInfo categoryMachinesInfo (categoryNameRemoveBlank innerHTML))
  else
    .renderFaqContent innerHTML


/-! ## Article cards -/

/-- An article of the endpoint's response: the fields the script reads. -/
structure Article where
  title : String
  html_url : String
  promoted : Bool
  deriving DecidableEq, Repr

/-- The parsed body of one section request, `{count, articles}`. -/
structure SectionArticles where
  count : Nat
  articles : List Article
  deriving DecidableEq, Repr

/-- A part of a template literal: literal text, or the value of a `${...}`
substitution. -/
inductive Piece where
  | text (s : String)
  | hole (value : String)
  deriving DecidableEq, Repr

/-- The text of a piece. -/
def Piece.render : Piece → String
  | .text s => s
  | .hole value => value

/-- The string a template literal evaluates to. -/
def renderTemplate (pieces : List Piece) : String :=
  String.join (pieces.map Piece.render)

/-- The star glyph the promoted template holds before the title. -/
def starSvg : String :=
  "<svg xmlns=\"http://www.w3.org/2000/svg\" width=\"12\" height=\"12\" focusable=\"false\" viewBox=\"0 0 12 12\" class=\"icon-star\" title=\"\x7b\x7bt \x27promoted\x27\x7d\x7d\">\n                <path fill=\"currentColor\" d=\"M2.88 11.73c-.19 0-.39-.06-.55-.18a.938.938 0 01-.37-1.01l.8-3L.35 5.57a.938.938 0 01-.3-1.03c.12-.37.45-.63.85-.65L4 3.73 5.12.83c.14-.37.49-.61.88-.61s.74.24.88.6L8 3.73l3.11.17a.946.946 0 01.55 1.68L9.24 7.53l.8 3a.95.95 0 01-1.43 1.04L6 9.88l-2.61 1.69c-.16.1-.34.16-.51.16z\"/>\n              </svg>"

/-- The template literal assigned to `articleHTML` for the article `a`: the
starred one when `a.promoted` is truthy, the plain one otherwise. The star
glyph is kept as a text piece of its own. -/
def articleTemplate (a : Article) : List Piece :=
  if a.promoted then
    [ .text "\n          <div class=\"category-card\">\n          \t<a href=\"",
      .hole a.html_url,
      .text "\" class=\"article-image-link\">\n              <img src=\"https://phrozen3d.com.tw/cdn/shop/files/718KS_1400x1600_01_14b22783-8e9d-4df3-b044-7d390edcb3ec.png?v=1695112910&width=400\" alt=\"",
      .hole a.title,
      .text "\" class=\"category-article-image\">\n            </a>\n            <a href=\"",
      .hole a.html_url,
      .text "\" class=\"article-list-link\">\n              ",
      .text starSvg,
      .text "\n              ",
      .hole a.title,
      .text " </a>\n          </div>\n        " ]
  else
    [ .text "\n          <div class=\"category-card\">\n            <a href=\"",
      .hole a.html_url,
      .text "\" class=\"article-image-link\">\n              <img src=\"https://phrozen3d.com.tw/cdn/shop/files/718KS_1400x1600_01_14b22783-8e9d-4df3-b044-7d390edcb3ec.png?v=1695112910&width=400\" alt=\"",
      .hole a.title,
      .text "\" class=\"category-article-image\">\n            </a>\n            <a href=\"",
      .hole a.html_url,
      .text "\" class=\"article-list-link\">",
      .hole a.title,
      .text " </a>\n          </div>\n        " ]

/-- The markup `articleHTML` of one card. -/
def articleHTML (a : Article) : String :=
  renderTemplate (articleTemplate a)

/-- The card container before an anchor: the markup written to its
`innerHTML`, as written (the elements the browser parses from it are not
derived). -/
structure CardsSection where
  innerHTML : String
  deriving DecidableEq, Repr

/-- A `.see-all-articles` anchor with its `previousElementSibling`. -/
structure SeeAllArticles where
  href : String
  previousElementSibling : Option CardsSection
  deriving DecidableEq, Repr

/-- The inner loop of `insertAllArticles` from index `j` with `n` iterations
left: `for(let j = 0; j < count; j++)` is `insertCardsFrom articles 0 count`. -/
def insertCardsFrom (articles : List Article) : Nat → Nat → CardsSection → Run CardsSection
  | _, 0, cardsSection => ⟨cardsSection, .normal⟩
  | j, n + 1, cardsSection =>
    match articles[j]? with
    | none => ⟨cardsSection, .throw .typeError⟩
    | some a =>
      insertCardsFrom articles (j + 1) n { innerHTML := cardsSection.innerHTML ++ articleHTML a }

/-- One round of the outer loop of `insertAllArticles`: the anchor
`allArticlesElements[i]` with the entry `allArticleObj[i]` (`none` when the
list is shorter). -/
def insertSectionArticles (element : SeeAllArticles) (articleObj : Option SectionArticles) :
    Run SeeAllArticles :=
  match element.previousElementSibling with
  | none => ⟨element, .throw .typeError⟩
  | some _ =>
    let cardsSection : CardsSection := { innerHTML := "" }
    match articleObj with
    | none => ⟨{ element with previousElementSibling := some cardsSection }, .throw .typeError⟩
    | some obj =>
      let r := insertCardsFrom obj.articles 0 obj.count cardsSection
      ⟨{ element with previousElementSibling := some r.state }, r.completion⟩

/-- The outer loop of `insertAllArticles` from index `i` over the anchors that
are left. -/
def insertAllArticlesFrom (allArticleObj : List SectionArticles) :
    Nat → List SeeAllArticles → Run (List SeeAllArticles)
  | _, [] => ⟨[], .normal⟩
  | i, element :: rest =>
    let r := insertSectionArticles element allArticleObj[i]?
    match r.completion with
    | .normal =>
      let r2 := insertAllArticlesFrom allArticleObj (i + 1) rest
      ⟨r.state :: r2.state, r2.completion⟩
    | .throw e => ⟨r.state :: rest, .throw e⟩

/-- The function `insertAllArticles`. -/
def insertAllArticles (allArticlesElements : List SeeAllArticles)
    (allArticleObj : List SectionArticles) : Run (List SeeAllArticles) :=
  insertAllArticlesFrom allArticleObj 0 allArticlesElements

/-! ## Thumbnails -/

/-- A `.category-article-image` element: the value assigned to `src`. -/
structure Img where
  src : PropValue String
  deriving DecidableEq, Repr

/-- An `.article-list-link` element. -/
structure TitleLink where
  innerHTML : String
  deriving DecidableEq, Repr

/-- The URL `setCategoryCardImage` falls back to. -/
def fallbackImage : String :=
  "https://theme.zdassets.com/theme_assets/11395229/5992495bc017105b6783ee2f8e1de26818ce190b.jpg"

/-- The loop of `setCategoryCardImage` from index `i` over the title links that
are left. -/
def setCategoryCardImageFrom (currentLang : LangCode) :
    Nat → List TitleLink → List Img → Run (List Img)
  | _, [], images => ⟨images, .normal⟩
  | i, link :: rest, images =>
    match articleCardImages.get currentLang, images[i]? with
    | some table, some image =>
      let src := (getProp table (trim link.innerHTML)).orElse fallbackImage
      setCategoryCardImageFrom currentLang (i + 1) rest (images.set i { image with src := src })
    | _, _ => ⟨images, .throw .typeError⟩

/-- The function `setCategoryCardImage` on a document with language `lang`,
images `categoryArticleImage` and title links `articleListLinkContents`. -/
def setCategoryCardImage (lang : String) (categoryArticleImage : List Img)
    (articleListLinkContents : List TitleLink) : Run (List Img) :=
  setCategoryCardImageFrom (substr02 lang) 0 articleListLinkContents categoryArticleImage

/-! ## Notions used to state the properties -/

/-- The character `categoryNameRemoveBlank` writes for `c`: an underscore for a
space, `c` itself otherwise. -/
def underscored (c : Char) : Char :=
  if c = ' ' then '_' else c

/-- Neither end of the text is white space. -/
def Trimmed (cs : List Char) : Prop :=
  (∀ c, cs.head? = some c → isWhiteSpace c = false) ∧
  (∀ c, cs.getLast? = some c → isWhiteSpace c = false)

/-- A category page as the server renders it: every element the machine
renderer selects is present, both lists are empty, two resin links. -/
def categoryPage (lang : String) : Page :=
  { lang := lang,
    warrantyList := some [],
    warrantyBtn := some { innerHTML := "+", clickListeners := [] },
    warrantyWrapper := some { height := "", classList := [] },
    specsList := some [],
    specsBtn := some { innerHTML := "+", clickListeners := [] },
    specsWrapper := some { height := "", classList := [] },
    machineManualLink := some { href := some "#" },
    machineResinLinks := [{ href := some "#" }, { href := some "#" }],
    lastHr := true,
    machineResin := true }

/-- A step that leaves both lists as they are. -/
def KeepsLists (f : Page → Run Page) : Prop :=
  ∀ p, (f p).state.warrantyList = p.warrantyList ∧ (f p).state.specsList = p.specsList


/-- The markup of the cards of `articles`, one card after the other. -/
def cardsMarkup (articles : List Article) : String :=
  String.join (articles.map articleHTML)

/-- The values a template substitutes right after a text piece ending in
`attr`, in order. -/
def holesAfter (attr : String) : List Piece → List String
  | [] => []
  | .text t :: rest =>
    match rest with
    | .hole value :: _ =>
      if attr.data.isSuffixOf t.data then value :: holesAfter attr rest
      else holesAfter attr rest
    | _ => holesAfter attr rest
  | .hole _ :: rest => holesAfter attr rest

/-- Two sample articles: "A" is not promoted, "B" is. -/
def articleA : Article :=
  { title := "A", html_url := "https://helpcenter.phrozen3d.com/hc/en-us/articles/1",
    promoted := false }

/-- The promoted sample article. -/
def articleB : Article :=
  { title := "B", html_url := "https://helpcenter.phrozen3d.com/hc/en-us/articles/2",
    promoted := true }

/-- A sample anchor whose card container holds server-rendered markup. -/
def sampleAnchor : SeeAllArticles :=
  { href := "https://helpcenter.phrozen3d.com/hc/en-us/sections/360001",
    previousElementSibling := some { innerHTML := "<div class=\"category-card\"></div>" } }

/-- The anchor `element` once its card container holds the cards of `articles`
and nothing else. -/
def withCards (element : SeeAllArticles) (articles : List Article) : SeeAllArticles :=
  { element with previousElementSibling := some { innerHTML := cardsMarkup articles } }

/-- The image `src` the card templates write before the backfill. -/
def placeholderImage : String :=
  "https://phrozen3d.com.tw/cdn/shop/files/718KS_1400x1600_01_14b22783-8e9d-4df3-b044-7d390edcb3ec.png?v=1695112910&width=400"

/-! ## FAQ categories -/

/-- The table `FaqsContents`: per language, category title to prose, in
source order. -/
def FaqsContents : PerLang (List (String × String)) :=
  {
    en := some [
      ("Beginner\x27s Guide",
        "Dive into the world of 3D printing with our \x27Beginners Guide\x27 category, tailored for those taking their first steps in this exciting realm. Explore fundamental concepts, \tdiscover essential techniques, and gain insights through beginner-friendly tutorials. Build a solid foundation for your 3D printing journey and unleash your creativity with confidence."),
      ("Printing Issues",
        "Navigate the challenges of 3D printing with our \x27Printing Issues in Resin/FDM Printing\x27 category, dedicated to troubleshooting and resolving common problems that may arise during the printing process. Uncover insights into mitigating issues such as layer adhesion, warping, and misprints, ensuring smoother and more successful 3D printing experiences. Equip yourself with practical solutions to overcome hurdles and optimize the quality of your FDM and resin prints."),
      ("Common Queries",
        "Explore answers to your 3D printing inquiries in our \x27Common Queries\x27 category, where we address frequently asked questions and provide clear explanations for enthusiasts of all skill levels. From troubleshooting printing issues to understanding complex concepts, this category serves as a knowledge hub to demystify common queries and empower users with valuable insights. Stay informed, enhance your expertise, and make the most out of your 3D printing endeavors with our comprehensive responses."),
      ("Orders &amp; Shipping",
        "Navigate the seamless journey from order placement to delivery with our \x27Orders & Shipping\x27 category, designed to provide a smooth and informative experience for our customers. Discover valuable information on order processing times, shipping methods, and tracking details to ensure transparency and clarity at every step. From placing your order to receiving your 3D printing essentials, we\x27re here to streamline the process and keep you informed throughout."),
      ("Software",
        "Dive into the realm of digital precision with our \x27Software\x27 category, tailored for enthusiasts seeking mastery in the intricacies of 3D printing software and slicers. Uncover expert insights, tutorials, and troubleshooting tips to optimize your slicing processes, ensuring your digital designs translate seamlessly into stunning physical prints. Elevate your printing experience by delving into the world of cutting-edge software tools and harness the full potential of your 3D printer."),
      ("Knowledge Hub",
        "Engage in a rich repository of insights through our \x27Knowledge Hub,\x27 an all-encompassing category curated to be your prime source for broadening your understanding of 3D printing. Immerse yourself in an array of articles, guides, and expert perspectives spanning advanced techniques and the latest industry developments. Empower yourself with the wisdom to unlock fresh opportunities and thrive in the dynamic realm of the 3D Printing World.") ],
    zh := some [
      ("新手指南",
        "透過我們的「新手指南」，了解3D列印的世界，並探索基本概念，了解必備技巧。為你的3D打印旅程奠定堅實基礎，自信地開始創作屬於你的創意。"),
      ("列印問題",
        "透過我們的「樹脂/FDM打印的打印問題」，能解決和排除在列印過程中可能出現的常見問題，克服3D打印的挑戰。揭示解決問題的可能性，例如模型附著性、翹曲和列印錯誤，確保體驗更流暢和成功的3D列印。讓自己以實際解決方案，克服障礙，優化FDM和樹脂列印的品質。"),
      ("常見問題",
        "在我們的「常見問題」中，我們會針對常見的問題進行探索，並為所有的愛好者提供清晰的解釋。從排除列印問題到理解複雜的概念，這個類別作為一個知識中心，用以解開普遍疑問的神秘面紗，為用戶提供有價值的見解。保持資訊更新，增強你的專業知識，並充分發揮你的3D列印。"),
      ("知識庫",
        "通過我們的「知識中心」，參與一個豐富的知識庫，這是你擴大對3D列印理解的主要來源，沉浸於一系列文章、指南和觀點，涵蓋先進技術。以這份智慧賦予自己，解鎖新機會，在3D打印世界的動態。"),
      ("軟體",
        "透過我們的「軟體」類別，深入挖掘3D列印軟體和切片軟體的複雜性，特別為追求在這方面精通的愛好者設計。發現專家見解、教學和解決問題的提示，以優化切片流程，確保你的設計無縫轉化為令人驚嘆的實體列印。深入研究軟體工具的世界，發揮你的3D列印機的全部潛力。"),
      ("訂單&amp;運輸",
        "透過我們的「訂單和運輸」類別，，旨在為我們的客戶提供順利從下單到交付整個流程完整的資訊。若發現有關訂單交期、運輸方法和其他有關訂單的資訊，我們會確保在每一步都能提供最詳細的資訊。從下單到收到你的3D打印必需品，我們致力於簡化流程，並在整個過程中隨時保持資訊透明。") ] }

/-- A child of the `.machine-content` container: its tag name and the value
assigned to its `innerHTML`. -/
structure Child where
  tagName : String
  innerHTML : PropValue String
  deriving DecidableEq, Repr

/-- The category page together with its `.machine-content` container (`none`
when the page has none): the children of the container. -/
structure CategoryDocument where
  page : Page
  machineContent : Option (List Child)

/-- The function `renderFaqContent`: the container is emptied, then a new
`div` whose `innerHTML` is `FaqsContents[currentLang][categoryName]` is
appended. Emptying raises when there is no container; the lookup raises when
`FaqsContents` has no table for the language. -/
def renderFaqContent (categoryName : String) (d : CategoryDocument) : Run CategoryDocument :=
  let currentLang := substr02 d.page.lang
  match d.machineContent with
  | none => ⟨d, .throw .typeError⟩
  | some _ =>
    let d := { d with machineContent := some [] }
    match FaqsContents.get currentLang with
    | none => ⟨d, .throw .typeError⟩
    | some table =>
      let newDiv : Child := { tagName := "div", innerHTML := getProp table categoryName }
      ⟨{ d with machineContent := some [newDiv] }, .normal⟩

/-! ## Shapes of the `resin` field -/

/-- The `resin` field is a direct map with an entry for en and for zh. -/
def Resin.isDirect : Resin → Bool
  | .direct urls => urls.en.isSome && urls.zh.isSome
  | .variants _ _ => false

/-- The `resin` field has the sub-variants `Transform` and `Shuffle_Series`,
each with a non-empty URL for en and for zh. -/
def Resin.isTwoVariants : Resin → Bool
  | .variants (some transform) (some shuffleSeries) =>
    truthy transform.en && truthy transform.zh &&
    truthy shuffleSeries.en && truthy shuffleSeries.zh
  | _ => false

/-! ## Clicks on the collapse buttons -/

/-- One registered click listener runs on the page; `scrollHeight` is the
height the browser measures for the list the listener reads. A listener is
registered only once its button and wrapper were found. -/
def runClickListener (scrollHeight : Nat) (listener : ClickListener) (p : Page) : Run Page :=
  match listener with
  | .warrantyToggle =>
    match p.warrantyBtn, p.warrantyWrapper with
    | some btn, some wrapper =>
      let r := collapseClick scrollHeight p.warrantyList btn wrapper
      ⟨{ p with warrantyBtn := some r.state.1, warrantyWrapper := some r.state.2 },
        r.completion⟩
    | _, _ => ⟨p, .normal⟩
  | .specsToggle =>
    match p.specsBtn, p.specsWrapper with
    | some btn, some wrapper =>
      let r := collapseClick scrollHeight p.specsList btn wrapper
      ⟨{ p with specsBtn := some r.state.1, specsWrapper := some r.state.2 }, r.completion⟩
    | _, _ => ⟨p, .normal⟩

/-- A click on `.warranty-btn`: its listeners run in the order they were
registered. What a listener raises is reported by the browser and stops
neither the other listeners nor later clicks; what it wrote before stays. -/
def clickWarrantyBtn (scrollHeight : Nat) (p : Page) : Page :=
  match p.warrantyBtn with
  | none => p
  | some btn =>
    btn.clickListeners.foldl (fun p listener => (runClickListener scrollHeight listener p).state) p

/-- A click on `.specs-btn`. -/
def clickSpecsBtn (scrollHeight : Nat) (p : Page) : Page :=
  match p.specsBtn with
  | none => p
  | some btn =>
    btn.clickListeners.foldl (fun p listener => (runClickListener scrollHeight listener p).state) p

/-- A run of clicks on `.warranty-btn`, one per measured height, first click
first. -/
def clicksWarrantyBtn (scrollHeights : List Nat) (p : Page) : Page :=
  scrollHeights.foldl (fun p h => clickWarrantyBtn h p) p

/-- A run of clicks on `.specs-btn`. -/
def clicksSpecsBtn (scrollHeights : List Nat) (p : Page) : Page :=
  scrollHeights.foldl (fun p h => clickSpecsBtn h p) p

/-- The wrapper is open: it has the class `open`. -/
def Wrapper.isOpen (wrapper : Wrapper) : Bool :=
  "open" ∈ wrapper.classList

/-- The page `p` with the warranty button labelled `label`, listening with
`listeners`, and the warranty wrapper closed: height `0`, classes `classes`. -/
def warrantyClosed (p : Page) (label : String) (listeners : List ClickListener)
    (classes : List String) : Page :=
  { p with
    warrantyBtn := some { innerHTML := label, clickListeners := listeners },
    warrantyWrapper := some { height := "0", classList := classes } }

/-- The page `p` with the warranty button labelled `-` and the warranty
wrapper open at the measured height `h`, the class `open` added to `classes`. -/
def warrantyOpen (p : Page) (h : Nat) (listeners : List ClickListener)
    (classes : List String) : Page :=
  { p with
    warrantyBtn := some { innerHTML := "-", clickListeners := listeners },
    warrantyWrapper := some { height := toString h ++ "px", classList := classes ++ ["open"] } }

/-- The page `p` with the specs button labelled `label` and the specs wrapper
closed. -/
def specsClosed (p : Page) (label : String) (listeners : List ClickListener)
    (classes : List String) : Page :=
  { p with
    specsBtn := some { innerHTML := label, clickListeners := listeners },
    specsWrapper := some { height := "0", classList := classes } }

/-- The page `p` with the specs button labelled `-` and the specs wrapper open
at the measured height `h`. -/
def specsOpen (p : Page) (h : Nat) (listeners : List ClickListener)
    (classes : List String) : Page :=
  { p with
    specsBtn := some { innerHTML := "-", clickListeners := listeners },
    specsWrapper := some { height := toString h ++ "px", classList := classes ++ ["open"] } }

/-! ## The request URL -/

/-- A JavaScript number that `parseInt` can return: `NaN`, an infinity, or a
finite integer given by its sign and magnitude (`-0` has the sign and the
magnitude `0`). -/
inductive JsNumber where
  | nan
  | infinity (negative : Bool)
  | finite (negative : Bool) (magnitude : Nat)
  deriving DecidableEq, Repr

/-- The digit characters of radix 16 with their values. -/
def digitTable : List (Char × Nat) :=
  [('0', 0), ('1', 1), ('2', 2), ('3', 3), ('4', 4), ('5', 5), ('6', 6), ('7', 7),
   ('8', 8), ('9', 9), ('a', 10), ('b', 11), ('c', 12), ('d', 13), ('e', 14), ('f', 15),
   ('A', 10), ('B', 11), ('C', 12), ('D', 13), ('E', 14), ('F', 15)]

/-- The value of a digit character, for the digits `0`-`9` and the letters
`a`-`f` and `A`-`F`. -/
def digitValue (c : Char) : Option Nat :=
  digitTable.lookup c

/-- The values of the longest run of radix-`radix` digits the text starts
with. -/
def leadingDigits (radix : Nat) : List Char → List Nat
  | [] => []
  | c :: cs =>
    match digitValue c with
    | some v => if v < radix then v :: leadingDigits radix cs else []
    | none => []

/-- The integer a list of digit values denotes in the given radix. -/
def digitsToNat (radix : Nat) (digits : List Nat) : Nat :=
  digits.foldl (fun acc d => acc * radix + d) 0

/-- The text without a leading `+` or `-`. -/
def stripSign : List Char → List Char
  | [] => []
  | c :: cs => if c = '+' ∨ c = '-' then cs else c :: cs

/-- The text starts with `0x` or `0X`. -/
def hexPrefixed : List Char → Bool
  | a :: b :: _ => a = '0' && (b = 'x' || b = 'X')
  | _ => false

/-- The number of binary digits of `n`, counted with at most `fuel` halvings. -/
def bitLengthAux : Nat → Nat → Nat
  | 0, _ => 0
  | fuel + 1, n => if n = 0 then 0 else bitLengthAux fuel (n / 2) + 1

/-- The number of binary digits of `n`. -/
def bitLength (n : Nat) : Nat :=
  bitLengthAux n n

/-- The double nearest to the integer `n` (ties to even), as an integer; `none`
when it is an infinity. Integers below `2^53` are doubles. -/
def roundToDouble (n : Nat) : Option Nat :=
  if n < 2 ^ 53 then some n
  else
    let e := bitLength n - 53
    let q := n / 2 ^ e
    let r := n % 2 ^ e
    let q := if 2 ^ (e - 1) < r ∨ (r = 2 ^ (e - 1) ∧ q % 2 = 1) then q + 1 else q
    if bitLength (q * 2 ^ e) ≤ 1024 then some (q * 2 ^ e) else none

/-- The function `parseInt(s)` with no radix argument: leading white space is
skipped, a sign is read, a `0x` or `0X` selects radix 16, the longest run of
digits is read (`NaN` when there is none) and its value is rounded to a double.
Past 20 decimal digits an engine may read the later digits as zeros; the exact
value, which it may also take, is taken here. -/
def parseInt (s : String) : JsNumber :=
  let trimmed := trimStartChars s.data
  let negative : Bool := trimmed.head? = some '-'
  let unsigned := stripSign trimmed
  let radix := if hexPrefixed unsigned then 16 else 10
  let digits := leadingDigits radix (if hexPrefixed unsigned then unsigned.drop 2 else unsigned)
  if digits = [] then .nan
  else
    match roundToDouble (digitsToNat radix digits) with
    | some v => .finite negative v
    | none => .infinity negative

/-- Candidates `(s, m)` with `k` digits in `s` whose value `s * 10^m` rounds to
the double `v`, for the two exponents and two significands next to `v`. -/
def digitCandidates (v k : Nat) : List (Nat × Nat) :=
  let d := (Nat.toDigits 10 v).length
  ([d - k, d - k + 1].flatMap fun m => [(v / 10 ^ m, m), (v / 10 ^ m + 1, m)]).filter
    fun c => 10 ^ (k - 1) ≤ c.1 && c.1 < 10 ^ k && c.2 + k ≥ d &&
      roundToDouble (c.1 * 10 ^ c.2) == some v

/-- The distance between two integers. -/
def natDist (a b : Nat) : Nat :=
  (a - b) + (b - a)

/-- The best of the candidates: nearest to `v`, the even significand on a
tie. -/
def bestCandidate (v : Nat) : List (Nat × Nat) → Option (Nat × Nat)
  | [] => none
  | c :: cs =>
    match bestCandidate v cs with
    | none => some c
    | some b =>
      let dc := natDist (c.1 * 10 ^ c.2) v
      let db := natDist (b.1 * 10 ^ b.2) v
      if dc < db ∨ (dc = db ∧ c.1 % 2 = 0) then some c else some b

/-- The shortest significand and exponent `(s, m)` with `s * 10^m` rounding to
the double `v`, searched with `k = 1, 2, ...` digits; `fuel` bounds the
search, and the digits of `v` itself are the last resort. -/
def shortestDigits (v : Nat) : Nat → Nat → Nat × Nat
  | _, 0 => (v, 0)
  | k, fuel + 1 =>
    match bestCandidate v (digitCandidates v k) with
    | some c => c
    | none => shortestDigits v (k + 1) fuel

/-- The text of a positive integer double `v`, as `Number::toString` gives it:
the decimal digits for `v < 2^53`, otherwise the shortest digits that identify
`v`, padded with zeros up to 21 digits and in exponent form beyond. -/
def integerToString (v : Nat) : String :=
  if v < 2 ^ 53 then toString v
  else
    let c := shortestDigits v 1 17
    let digits := Nat.toDigits 10 c.1
    let n := digits.length + c.2
    if n ≤ 21 then String.mk (digits ++ List.replicate c.2 '0')
    else
      match digits with
      | [] => ""
      | [d] => String.mk [d] ++ "e+" ++ toString (n - 1)
      | d :: rest => String.mk (d :: '.' :: rest) ++ "e+" ++ toString (n - 1)

/-- The text a number turns into when `+` joins it to a string. -/
def numberToString : JsNumber → String
  | .nan => "NaN"
  | .infinity false => "Infinity"
  | .infinity true => "-Infinity"
  | .finite negative v =>
    if v = 0 then "0"
    else if negative then "-" ++ integerToString v
    else integerToString v

/-- The method `s.toLowerCase()` for the letters `A`-`Z`; a language tag is
made of ASCII letters, digits and hyphens. -/
def toLowerCase (s : String) : String :=
  String.mk (s.data.map Char.toLower)

/-- The expression `href.split("/").pop()`: the text after the last `/`. -/
def lastSegment (href : String) : String :=
  String.mk ((splitChars '/' href.data).getLastD [])

/-- The text assigned to `allArticlesUrl` for an anchor with the given `href`
on a page with language tag `lang`. -/
def allArticlesUrl (lang : String) (href : String) : String :=
  "https://helpcenter.phrozen3d.com/" ++ "/api/v2/help_center/" ++ toLowerCase lang ++
    "/sections/" ++ numberToString (parseInt (lastSegment href)) ++ "/articles.json"

/-! ## Fetching the articles

The run of the asynchronous functions is modelled as the sequence of its
steps: nothing else touches the anchors and their containers between two
steps. The network is a parameter.
-/

/-- How the request for one section ends: `fetch` rejects, the response is not
ok, reading the body as JSON fails, or the body is parsed. -/
inductive FetchOutcome where
  | networkError
  | notOk
  | badBody
  | ok (data : SectionArticles)
  deriving DecidableEq, Repr

/-- The network: how the `n`-th request of a run, made to the given URL,
ends. -/
def Network : Type :=
  Nat → String → FetchOutcome

/-- What a run of `setAllArticles` does, in order. The two `console.log` calls
are left out. -/
inductive Event where
  /-- The call `fetch(allArticlesUrl)` for the anchor. -/
  | fetchStart (anchor : Nat) (url : String)
  /-- The awaited request of the anchor settled, with parsed data or not. -/
  | fetchEnd (anchor : Nat) (succeeded : Bool)
  /-- The `console.error` of `getAllArticles` for the anchor. -/
  | fetchErrorLogged (anchor : Nat)
  /-- The round of `insertAllArticles` for the anchor began. -/
  | insert (anchor : Nat)
  /-- The call `setCategoryCardImage()`. -/
  | backfill
  /-- The `console.error` of `setAllArticles`. -/
  | errorLogged
  deriving DecidableEq, Repr

/-- What `getAllArticles` returns, and the steps it took. -/
structure Fetched where
  allArticlesArray : List SectionArticles
  events : List Event

/-- The loop of `getAllArticles` from the anchor with index `i`, with the
bodies pushed so far. A request that fails in any way is logged and pushes
nothing. -/
def getAllArticlesFrom (network : Network) (lang : String) :
    Nat → List SeeAllArticles → List SectionArticles → Fetched
  | _, [], allArticlesArray => ⟨allArticlesArray, []⟩
  | i, element :: rest, allArticlesArray =>
    let url := allArticlesUrl lang element.href
    match network i url with
    | .ok data =>
      let r := getAllArticlesFrom network lang (i + 1) rest (allArticlesArray ++ [data])
      ⟨r.allArticlesArray, .fetchStart i url :: .fetchEnd i true :: r.events⟩
    | _ =>
      let r := getAllArticlesFrom network lang (i + 1) rest allArticlesArray
      ⟨r.allArticlesArray,
        .fetchStart i url :: .fetchEnd i false :: .fetchErrorLogged i :: r.events⟩

/-- The function `getAllArticles` on a page with language tag `lang`. -/
def getAllArticles (network : Network) (lang : String)
    (allArticlesElements : List SeeAllArticles) : Fetched :=
  getAllArticlesFrom network lang 0 allArticlesElements []

/-- The anchors whose round of `insertAllArticles` begins, from index `i`: the
loop goes on to the next anchor only after a round that ended normally. -/
def insertRoundsFrom (allArticleObj : List SectionArticles) :
    Nat → List SeeAllArticles → List Nat
  | _, [] => []
  | i, element :: rest =>
    match (insertSectionArticles element allArticleObj[i]?).completion with
    | .normal => i :: insertRoundsFrom allArticleObj (i + 1) rest
    | .throw _ => [i]

/-! ### The elements of the cards

The images and title links `setCategoryCardImage` selects are read off the
markup of the card containers, for markup of the form the card templates write
and titles and URLs without markup characters. The `innerHTML` of a title link
is the text written between its opening and its closing tag.
-/

/-- The text before the first occurrence of `stop`. -/
def takeUntil (stop : List Char) : List Char → List Char
  | [] => []
  | c :: cs => if stop.isPrefixOf (c :: cs) then [] else c :: takeUntil stop cs

/-- For every occurrence of `start`, the text between it and the next
`stop`. -/
def between (start stop : List Char) : List Char → List (List Char)
  | [] => []
  | c :: cs =>
    if start.isPrefixOf (c :: cs) then
      takeUntil stop ((c :: cs).drop start.length) :: between start stop cs
    else between start stop cs

/-- The `.article-list-link` elements of a piece of card markup. -/
def titleLinksOf (markup : String) : List TitleLink :=
  (between "class=\"article-list-link\">".data "</a>".data markup.data).map
    fun cs => { innerHTML := String.mk cs }

/-- The `.category-article-image` elements of a piece of card markup: the
`img` tags with that class, each with the `src` written in the tag. -/
def imagesOf (markup : String) : List Img :=
  ((between "<img ".data ">".data markup.data).filter fun tag =>
      (between "class=\"category-article-image\"".data [] tag) ≠ []).map
    fun tag => { src := .own (String.mk ((between "src=\"".data "\"".data tag).headD [])) }

/-- The markup of the card containers of the anchors, in document order. -/
def containersMarkup (elements : List SeeAllArticles) : List String :=
  elements.filterMap fun e => e.previousElementSibling.map CardsSection.innerHTML

/-- The `.category-article-image` elements of the card containers. -/
def cardImages (elements : List SeeAllArticles) : List Img :=
  (containersMarkup elements).flatMap imagesOf

/-- The `.article-list-link` elements of the card containers. -/
def cardTitleLinks (elements : List SeeAllArticles) : List TitleLink :=
  (containersMarkup elements).flatMap titleLinksOf

/-- The state of a run of `setAllArticles`: the anchors with their containers,
the card images once `setCategoryCardImage` has run on them, and the steps
taken. -/
structure ArticlesState where
  elements : List SeeAllArticles
  images : Option (List Img)
  events : List Event

/-- A `try` block with its `catch` clause. -/
def tryCatch {σ : Type} (body : Run σ) (handler : JsError → σ → Run σ) : Run σ :=
  match body.completion with
  | .normal => body
  | .throw e => handler e body.state

/-- The `try` block of `setAllArticles`: the articles are fetched, inserted,
and the thumbnails are backfilled. -/
def setAllArticlesBody (network : Network) (lang : String)
    (allArticlesElements : List SeeAllArticles) : Run ArticlesState :=
  let allArticles := getAllArticles network lang allArticlesElements
  let inserted := insertAllArticles allArticlesElements allArticles.allArticlesArray
  let events := allArticles.events ++
    (insertRoundsFrom allArticles.allArticlesArray 0 allArticlesElements).map Event.insert
  match inserted.completion with
  | .throw e => ⟨{ elements := inserted.state, images := none, events := events }, .throw e⟩
  | .normal =>
    let filled := setCategoryCardImage lang (cardImages inserted.state)
      (cardTitleLinks inserted.state)
    ⟨{ elements := inserted.state, images := some filled.state,
       events := events ++ [.backfill] }, filled.completion⟩

/-- The function `setAllArticles`: what is raised inside the `try` block is
logged. -/
def setAllArticles (network : Network) (lang : String)
    (allArticlesElements : List SeeAllArticles) : Run ArticlesState :=
  tryCatch (setAllArticlesBody network lang allArticlesElements)
    fun _ s => ⟨{ s with events := s.events ++ [.errorLogged] }, .normal⟩

/-! ## The page-load handler of the category page -/

/-- The calls the page-load handler makes, in order. `logMyErrors` is the
logger the `catch` clause hands the exception to; it is not part of
`script.js`. -/
inductive InitCall where
  | renderMachineContent (machineObj : PropValue MachineRecord)
  | renderFaqContent (categoryName : String)
  | setAllArticles
  | getCheckedCategory
  | addChangeListeners
  | logMyErrors (e : JsError)
  deriving DecidableEq

/-- What the page-load handler leaves: the document and the calls it made. -/
structure InitRun where
  document : CategoryDocument
  calls : List InitCall

/-- The renderer call of the page-load handler with its effect on the
document. -/
def renderCategory (innerHTML : String) (d : CategoryDocument) : InitCall × Run CategoryDocument :=
  match categoryRender innerHTML with
  | .renderMachineContent machineObj =>
    let r := renderMachineContent machineObj d.page
    (.renderMachineContent machineObj, ⟨{ d with page := r.state }, r.completion⟩)
  | .renderFaqContent categoryName =>
    (.renderFaqContent categoryName, renderFaqContent categoryName d)

/-- The page-load handler of the category page, for the text of the
`.category-name` element (`none` when the page has none). Inside one `try`
block the category is rendered, `setAllArticles()` is called (it returns a
promise and raises nothing here), `getCheckedCategory` runs and the radio
buttons get their `change` listeners; whatever is raised goes to `logMyErrors`
and ends the block. How `getCheckedCategory` ends is a parameter. -/
def categoryInit (categoryName : Option String) (getCheckedCategoryEnds : Completion)
    (d : CategoryDocument) : InitRun :=
  match categoryName with
  | none => ⟨d, []⟩
  | some innerHTML =>
    let rendered := renderCategory innerHTML d
    match rendered.2.completion with
    | .throw e => ⟨rendered.2.state, [rendered.1, .logMyErrors e]⟩
    | .normal =>
      match getCheckedCategoryEnds with
      | .normal =>
        ⟨rendered.2.state,
          [rendered.1, .setAllArticles, .getCheckedCategory, .addChangeListeners]⟩
      | .throw e =>
        ⟨rendered.2.state,
          [rendered.1, .setAllArticles, .getCheckedCategory, .logMyErrors e]⟩

/-! ## Notions used to state the properties of a run -/

/-- The request an event starts, when it is the start of one. -/
def Event.request? : Event → Option (Nat × String)
  | .fetchStart anchor url => some (anchor, url)
  | _ => none

/-- The event belongs to the fetching of the articles. -/
def Event.isFetch : Event → Bool
  | .fetchStart _ _ => true
  | .fetchEnd _ _ => true
  | .fetchErrorLogged _ => true
  | _ => false

/-- The event is the settling of a request. -/
def Event.isFetchEnd : Event → Bool
  | .fetchEnd _ _ => true
  | _ => false

/-- The event is the beginning of a round of `insertAllArticles`. -/
def Event.isInsert : Event → Bool
  | .insert _ => true
  | _ => false

/-- What follows the rounds of `insertAllArticles` in a run of
`setAllArticles`: the log entry when `insertAllArticles` ended by raising, else
the backfill and, when that raised, the log entry. -/
def afterInsert (inserted backfilled : Completion) : List Event :=
  match inserted with
  | .throw _ => [.errorLogged]
  | .normal =>
    match backfilled with
    | .normal => [.backfill]
    | .throw _ => [.backfill, .errorLogged]

/-- The event is the start of the request of the given anchor. -/
def Event.isFetchStartOf (anchor : Nat) : Event → Bool
  | .fetchStart a _ => a = anchor
  | _ => false

/-- The parsed body of a request that succeeded. -/
def FetchOutcome.body? : FetchOutcome → Option SectionArticles
  | .ok data => some data
  | _ => none

/-- The steps of the request of the anchor `i` with the outcome `outcome`. -/
def fetchSteps (i : Nat) (url : String) (outcome : FetchOutcome) : List Event :=
  match outcome with
  | .ok _ => [.fetchStart i url, .fetchEnd i true]
  | _ => [.fetchStart i url, .fetchEnd i false, .fetchErrorLogged i]

/-- Some event satisfying `first` comes, in the list, before some event
satisfying `second`. -/
def precedes (first second : Event → Bool) : List Event → Bool
  | [] => false
  | e :: rest => (first e && rest.any second) || precedes first second rest

/-- The network in which every request is answered with `data`, but the
`failing`-th, which is not ok. -/
def networkFailingAt (failing : Nat) (data : Nat → SectionArticles) : Network :=
  fun i _ => if i = failing then .notOk else .ok (data i)

/-! ## Sample runs -/

/-- A second sample anchor, of another section. -/
def secondAnchor : SeeAllArticles :=
  { href := "https://helpcenter.phrozen3d.com/hc/en-us/sections/360002",
    previousElementSibling := some { innerHTML := "<div class=\"category-card\"></div>" } }

/-- The sample body of the section of the anchor `i`: one article, `articleA`
for the first anchor and `articleB` for the others. -/
def sampleSection (i : Nat) : SectionArticles :=
  if i = 0 then { count := 1, articles := [articleA] }
  else { count := 1, articles := [articleB] }

/-- The network in which the request of the anchor `i` is answered with
`data i`. -/
def networkOk (data : Nat → SectionArticles) : Network :=
  fun i _ => .ok (data i)

/-- An article whose title is a key of the English image table, promoted or
not. -/
def testPrint (promoted : Bool) : Article :=
  { title := "[Sonic Mini 8K] First Test Print",
    html_url := "https://helpcenter.phrozen3d.com/hc/en-us/articles/3",
    promoted := promoted }

/-- The body of a section that holds the one article `a`. -/
def oneArticle (a : Article) : SectionArticles :=
  { count := 1, articles := [a] }

/-! ## Dropdowns

A dropdown is a toggle with its menu. The state holds what the methods of
`Dropdown.prototype` read and write: the `aria-expanded` attribute and the
class list of the menu, the menu items, the focused element of the document,
and what the handled event records.
-/

/-- An element of the document, by identity. -/
abbrev Element : Type := Nat

/-- The key codes the script names. -/
def ENTER : Nat := 13

/-- The key code of Escape. -/
def ESCAPE : Nat := 27

/-- The key code of the space bar. -/
def SPACE : Nat := 32

/-- The key code of the up arrow. -/
def UP : Nat := 38

/-- The key code of the down arrow. -/
def DOWN : Nat := 40

/-- The key code of the tabulator. -/
def TAB : Nat := 9

/-- The field `menuPlacement` of a dropdown: whether the menu had the classes
`dropdown-menu-top` and `dropdown-menu-end` when the dropdown was made. -/
structure MenuPlacement where
  top : Bool
  atEnd : Bool
  deriving DecidableEq, Repr

/-- A dropdown within its document. -/
structure Dropdown where
  toggle : Element
  /-- The attribute `aria-expanded` of the menu, `none` when it has none. -/
  ariaExpanded : Option String
  /-- The class list of the menu. -/
  classList : List String
  /-- The getter `menuItems`: the `[role=menuitem]` elements of the menu in
  document order. -/
  menuItems : List Element
  menuPlacement : MenuPlacement
  /-- The focused element of the document. -/
  activeElement : Option Element
  /-- Whether `preventDefault` was called on the event being handled. -/
  defaultPrevented : Bool
  /-- The elements `click()` was called on, in order. -/
  clicked : List Element
  deriving DecidableEq, Repr

/-- A keyboard event: the fields the handlers read. -/
structure KeyEvent where
  keyCode : Nat
  shiftKey : Bool
  target : Element
  deriving DecidableEq, Repr

/-- What `handleOverflow` measures: the rectangle of the menu, the size of the
window, and the top of the menu once the placement classes are added. -/
structure Layout where
  left : Int
  top : Int
  width : Int
  height : Int
  innerWidth : Int
  innerHeight : Int
  topAfter : Int
  deriving DecidableEq, Repr

/-- The getter `isExpanded`. -/
def Dropdown.isExpanded (d : Dropdown) : Bool :=
  d.ariaExpanded = some "true"

/-- The method `dismiss`. -/
def Dropdown.dismiss (d : Dropdown) : Dropdown :=
  if !d.isExpanded then d
  else
    { d with
      ariaExpanded := some "false",
      classList :=
        classListRemove "dropdown-menu-top" (classListRemove "dropdown-menu-end" d.classList) }

/-- The method `handleOverflow`. -/
def Dropdown.handleOverflow (layout : Layout) (d : Dropdown) : Dropdown :=
  let overflowRight :=
    decide (layout.left < 0) || decide (layout.left + layout.width > layout.innerWidth)
  let overflowBottom :=
    decide (layout.top < 0) || decide (layout.top + layout.height > layout.innerHeight)
  let d :=
    if overflowRight || d.menuPlacement.atEnd then
      { d with classList := classListAdd "dropdown-menu-end" d.classList }
    else d
  let d :=
    if overflowBottom || d.menuPlacement.top then
      { d with classList := classListAdd "dropdown-menu-top" d.classList }
    else d
  if layout.topAfter < 0 then
    { d with classList := classListRemove "dropdown-menu-top" d.classList }
  else d

/-- The method `open`. -/
def Dropdown.openMenu (layout : Layout) (d : Dropdown) : Dropdown :=
  if d.isExpanded then d
  else Dropdown.handleOverflow layout { d with ariaExpanded := some "true" }

/-- The call `items.indexOf(currentItem)`: the first index that holds the
element, `-1` when none does or when no argument is passed. -/
def indexOf (items : List Element) (currentItem : Option Element) : Int :=
  match currentItem with
  | none => -1
  | some item => if item ∈ items then (items.indexOf item : Nat) else -1

/-- The index `nextIndex` of `focusNextMenuItem` for `length` menu items. -/
def nextIndex (length : Nat) (currentIndex : Int) : Int :=
  if currentIndex = (length : Int) - 1 ∨ currentIndex < 0 then 0 else currentIndex + 1

/-- The index `previousIndex` of `focusPreviousMenuItem`. -/
def previousIndex (length : Nat) (currentIndex : Int) : Int :=
  if currentIndex ≤ 0 then (length : Int) - 1 else currentIndex - 1

/-- The call `this.menuItems[index].focus()`; it raises when the index names
no item. -/
def Dropdown.focusItem (index : Int) (d : Dropdown) : Run Dropdown :=
  if index < 0 then ⟨d, .throw .typeError⟩
  else
    match d.menuItems[index.toNat]? with
    | none => ⟨d, .throw .typeError⟩
    | some item => ⟨{ d with activeElement := some item }, .normal⟩

/-- The method `focusNextMenuItem`. -/
def Dropdown.focusNextMenuItem (currentItem : Option Element) (d : Dropdown) : Run Dropdown :=
  if d.menuItems.length = 0 then ⟨d, .normal⟩
  else
    let currentIndex := indexOf d.menuItems currentItem
    d.focusItem (nextIndex d.menuItems.length currentIndex)

/-- The method `focusPreviousMenuItem`. -/
def Dropdown.focusPreviousMenuItem (currentItem : Option Element) (d : Dropdown) :
    Run Dropdown :=
  if d.menuItems.length = 0 then ⟨d, .normal⟩
  else
    let currentIndex := indexOf d.menuItems currentItem
    d.focusItem (previousIndex d.menuItems.length currentIndex)

/-- The method `clickHandler`. -/
def Dropdown.clickHandler (layout : Layout) (d : Dropdown) : Dropdown :=
  if d.isExpanded then d.dismiss else d.openMenu layout

/-- The call `e.preventDefault()`. -/
def Dropdown.preventDefault (d : Dropdown) : Dropdown :=
  { d with defaultPrevented := true }

/-- The call `this.toggle.focus()`. -/
def Dropdown.focusToggle (d : Dropdown) : Dropdown :=
  { d with activeElement := some d.toggle }

/-- The method `toggleKeyHandler`. -/
def Dropdown.toggleKeyHandler (layout : Layout) (e : KeyEvent) (d : Dropdown) : Run Dropdown :=
  if e.keyCode = ENTER ∨ e.keyCode = SPACE ∨ e.keyCode = DOWN then
    ((d.preventDefault).openMenu layout).focusNextMenuItem none
  else if e.keyCode = UP then
    ((d.preventDefault).openMenu layout).focusPreviousMenuItem none
  else if e.keyCode = ESCAPE then
    ⟨(d.dismiss).focusToggle, .normal⟩
  else ⟨d, .normal⟩

/-- The method `menuKeyHandler`. The listeners of the click that Enter and the
space bar dispatch are not run here; the click is recorded. -/
def Dropdown.menuKeyHandler (e : KeyEvent) (d : Dropdown) : Run Dropdown :=
  let firstItem := d.menuItems[0]?
  let lastItem := d.menuItems[d.menuItems.length - 1]?
  let currentElement := e.target
  if e.keyCode = ESCAPE then
    ⟨(d.dismiss).focusToggle, .normal⟩
  else if e.keyCode = DOWN then
    (d.preventDefault).focusNextMenuItem (some currentElement)
  else if e.keyCode = UP then
    (d.preventDefault).focusPreviousMenuItem (some currentElement)
  else if e.keyCode = TAB then
    if e.shiftKey then
      if some currentElement = firstItem then ⟨d.dismiss, .normal⟩
      else (d.preventDefault).focusPreviousMenuItem (some currentElement)
    else if some currentElement = lastItem then ⟨d.dismiss, .normal⟩
    else (d.preventDefault).focusNextMenuItem (some currentElement)
  else if e.keyCode = ENTER ∨ e.keyCode = SPACE then
    let d : Dropdown := d.preventDefault
    ⟨{ d with clicked := d.clicked ++ [currentElement] }, .normal⟩
  else ⟨d, .normal⟩

/-! ## Accordion -/

/-- The element after an accordion header: the value of its
`style.maxHeight`, the empty text when it is not set. -/
structure Panel where
  maxHeight : String
  deriving DecidableEq, Repr

/-- An element of class `accordion`. -/
structure AccordionHeader where
  classList : List String
  /-- Whether the element lies inside an element of class `accordion-div`. -/
  insideAccordionDiv : Bool
  nextElementSibling : Option Panel
  deriving DecidableEq, Repr

/-- The method `classList.toggle(name)`. -/
def classListToggle (name : String) (classList : List String) : List String :=
  if name ∈ classList then classListRemove name classList else classListAdd name classList

/-- One round of the loop over the active headers: the class `active` is
removed and the `maxHeight` of the next element is reset. -/
def deactivate (header : AccordionHeader) : Run AccordionHeader :=
  let header := { header with classList := classListRemove "active" header.classList }
  match header.nextElementSibling with
  | none => ⟨header, .throw .typeError⟩
  | some panel =>
    ⟨{ header with nextElementSibling := some { panel with maxHeight := "" } }, .normal⟩

/-- The loop over `document.querySelectorAll(".accordion-div .accordion.active")`,
in document order. -/
def deactivateAll : List AccordionHeader → Run (List AccordionHeader)
  | [] => ⟨[], .normal⟩
  | header :: rest =>
    if header.insideAccordionDiv && decide ("active" ∈ header.classList) then
      let r := deactivate header
      match r.completion with
      | .normal =>
        let r2 := deactivateAll rest
        ⟨r.state :: r2.state, r2.completion⟩
      | .throw e => ⟨r.state :: rest, .throw e⟩
    else
      let r2 := deactivateAll rest
      ⟨header :: r2.state, r2.completion⟩

/-- The click listener of the `k`-th accordion header, for the `scrollHeight`
the panel measures at the click. -/
def accordionClick (scrollHeight : Nat) (k : Nat) (acc : List AccordionHeader) :
    Run (List AccordionHeader) :=
  match acc[k]? with
  | none => ⟨acc, .normal⟩
  | some header =>
    match header.nextElementSibling with
    | none => ⟨acc, .throw .typeError⟩
    | some panel =>
      if panel.maxHeight ≠ "" then
        ⟨acc.set k { header with nextElementSibling := some { panel with maxHeight := "" } },
          .normal⟩
      else
        let r := deactivateAll acc
        match r.completion, r.state[k]? with
        | .normal, some header =>
          ⟨r.state.set k
            { header with
              classList := classListToggle "active" header.classList,
              nextElementSibling := some { maxHeight := toString scrollHeight ++ "px" } },
            .normal⟩
        | _, _ => r

/-- A sequence of clicks, each on the header with the given index at the given
measured height; a click whose listener raises leaves what it wrote, and the
later clicks are handled all the same. -/
def accordionClicks : List (Nat × Nat) → List AccordionHeader → List AccordionHeader
  | [], acc => acc
  | (k, scrollHeight) :: rest, acc =>
    accordionClicks rest (accordionClick scrollHeight k acc).state

/-- The panel of the header is open: it has a `maxHeight`. -/
def AccordionHeader.isOpen (header : AccordionHeader) : Bool :=
  match header.nextElementSibling with
  | some panel => panel.maxHeight ≠ ""
  | none => false

/-- The header carries the class `active`. -/
def AccordionHeader.isActive (header : AccordionHeader) : Bool :=
  decide ("active" ∈ header.classList)

/-! ## The filter of the home page -/

/-- An element of class `blocks-item`: the `textContent` of its
`.blocks-item-title` (`none` when it has no such element) and its
`style.display`. -/
structure BlocksItem where
  title : Option String
  display : String
  deriving DecidableEq, Repr

/-- The constant `excludedTitles` of `filterBlocksItems`. -/
def excludedTitles : List String :=
  ["3d printing tips", "orders & shipping", "for dental printers", "faq", "列印小竅門", "訂單",
   "新手指南", "常見問題", "列印問題", "知識庫", "common queries", "printing issues",
   "knowledge hub", "beginner\x27s guide"]

/-- Whether `sub` occurs in the text. -/
def includesChars (sub : List Char) : List Char → Bool
  | [] => sub.isEmpty
  | c :: cs => sub.isPrefixOf (c :: cs) || includesChars sub cs

/-- The method `s.includes(sub)`. -/
def includes (s sub : String) : Bool :=
  includesChars sub.data s.data

/-- The callback of `forEach` in `filterBlocksItems`. The method `toLowerCase`
is the parameter `lower`: the properties of the filter hold whatever it maps a
title to. -/
def filterBlocksItem (lower : String → String) (filterId : String) (item : BlocksItem) :
    Run BlocksItem :=
  match item.title with
  | none => ⟨item, .throw .typeError⟩
  | some textContent =>
    let title := lower textContent
    let isExcludedTitle := excludedTitles.any fun excludedTitle => includes title excludedTitle
    if isExcludedTitle then ⟨{ item with display := "none" }, .normal⟩
    else
      let shouldDisplay :=
        includes title filterId && decide (filterId ≠ "other") && !includes title "wash" &&
          !includes title "cure"
      let shouldDisplay :=
        if filterId = "fdm" ∧ includes title "arco" = true then true
        else if filterId = "wash" then includes title "wash" || includes title "cure"
        else if filterId = "other" then
          !(includes title "wash" || includes title "sonic" || includes title "mega" ||
            includes title "software" || includes title "軟體" || includes title "arco")
        else shouldDisplay
      ⟨{ item with display := if shouldDisplay then "" else "none" }, .normal⟩

/-- The function `filterBlocksItems` on the `.blocks-item` elements of the
page. -/
def filterBlocksItems (lower : String → String) (filterId : String) :
    List BlocksItem → Run (List BlocksItem)
  | [] => ⟨[], .normal⟩
  | item :: rest =>
    let r := filterBlocksItem lower filterId item
    match r.completion with
    | .normal =>
      let r2 := filterBlocksItems lower filterId rest
      ⟨r.state :: r2.state, r2.completion⟩
    | .throw e => ⟨r.state :: rest, .throw e⟩

/-- The lower-cased title holds an entry of `excludedTitles`. -/
def isExcluded (lower : String → String) (textContent : String) : Bool :=
  excludedTitles.any fun excludedTitle => includes (lower textContent) excludedTitle

/-! ## The checked category -/

/-- Whether `/./` matches the character: every character but the line
terminators. -/
def isLineTerminator (c : Char) : Bool :=
  c = '\n' || c = '\r' || c = Char.ofNat 0x2028 || c = Char.ofNat 0x2029

/-- The end `.` of the pattern `/\.\d+K?./`: the text left after one character
that is no line terminator. -/
def matchAny : List Char → Option (List Char)
  | [] => none
  | c :: cs => if isLineTerminator c then none else some cs

/-- The part `K?.` of the pattern: with the `K` first, without it next. -/
def matchOptionalK : List Char → Option (List Char)
  | 'K' :: cs =>
    match matchAny cs with
    | some rest => some rest
    | none => matchAny ('K' :: cs)
  | cs => matchAny cs

/-- The part `\d+K?.` of the pattern: one digit, then as many more as leave a
match for what follows. -/
def matchDigits : List Char → Option (List Char)
  | [] => none
  | c :: cs =>
    if c.isDigit then
      match matchDigits cs with
      | some rest => some rest
      | none => matchOptionalK cs
    else none

/-- The pattern `/\.\d+K?./` at the start of the text: the text left after the
match. -/
def matchVersion : List Char → Option (List Char)
  | '.' :: cs => matchDigits cs
  | _ => none

/-- The call `.replace(/\.\d+K?./g, '.')` on the first `fuel` characters to
look at. -/
def replaceVersionsAux : Nat → List Char → List Char
  | 0, cs => cs
  | _, [] => []
  | fuel + 1, c :: cs =>
    match matchVersion (c :: cs) with
    | some rest => '.' :: replaceVersionsAux fuel rest
    | none => c :: replaceVersionsAux fuel cs

/-- The call `.replace(/\.\d+K?./g, '.')`. -/
def replaceVersions (cs : List Char) : List Char :=
  replaceVersionsAux cs.length cs

/-- The seven calls of `replace` that put a backslash before every `'`, `&`,
`:`, `(`, `)`, `[` and `]`. -/
def escapeChars (cs : List Char) : List Char :=
  cs.flatMap fun c =>
    if c = '\x27' ∨ c = '&' ∨ c = ':' ∨ c = '(' ∨ c = ')' ∨ c = '[' ∨ c = ']' then ['\\', c]
    else [c]

/-- The function `convertClassNameToSelector`, for text of the Basic
Multilingual Plane. -/
def convertClassNameToSelector (className : String) : String :=
  String.mk (replaceVersions (escapeChars (joinChars '.' (splitChars ' ' (trim className).data))))

/-- The checked radio button: its `id`. -/
structure Radio where
  id : String
  deriving DecidableEq, Repr

/-- The element of the section title. -/
structure SectionTitle where
  innerHTML : String
  deriving DecidableEq, Repr

/-- A `.section-flex` element. -/
structure SectionFlex where
  classList : List String
  deriving DecidableEq, Repr

/-- What `document.querySelector(selector)` gives: the selector is not valid,
nothing matches, the first match is the `index`-th `.section-flex` element, or
it is another element. -/
inductive QueryResult where
  | syntaxError
  | null
  | sectionFlex (index : Nat)
  | other
  deriving DecidableEq, Repr

/-- The part of the document `getCheckedCategory` reads and writes. -/
structure CheckedDocument where
  /-- The element `input[name="categoryInput"]:checked`. -/
  checkedRadio : Option Radio
  /-- The argument `categroySectionTitle`. -/
  categroySectionTitle : Option SectionTitle
  /-- The `.section-flex` elements. -/
  categroySections : List SectionFlex
  deriving DecidableEq, Repr

/-- The function `getCheckedCategory`; `querySelector` tells what the document
gives for a selector. -/
def getCheckedCategory (querySelector : String → QueryResult) (d : CheckedDocument) :
    Run CheckedDocument :=
  match d.checkedRadio, d.categroySectionTitle with
  | some checkedRadio, some _ =>
    let d := { d with categroySectionTitle := some { innerHTML := checkedRadio.id } }
    let d :=
      { d with
        categroySections := d.categroySections.map fun (section_ : SectionFlex) =>
          { section_ with classList := classListAdd "hidden" section_.classList } }
    let checkedRadio : Radio :=
      if checkedRadio.id = "3D 列印小竅門" then { id := "列印小竅門" } else checkedRadio
    let d := { d with checkedRadio := some checkedRadio }
    match querySelector ("." ++ convertClassNameToSelector checkedRadio.id) with
    | .syntaxError => ⟨d, .throw .syntaxError⟩
    | .null => ⟨d, .throw .typeError⟩
    | showSection =>
      let d :=
        match showSection with
        | .sectionFlex index =>
          { d with
            categroySections := d.categroySections.modify
              (fun (section_ : SectionFlex) =>
                { section_ with classList := classListRemove "hidden" section_.classList })
              index }
        | _ => d
      let checkedRadio : Radio :=
        if checkedRadio.id = "列印小竅門" then { id := "3D 列印小竅門" } else checkedRadio
      ⟨{ d with checkedRadio := some checkedRadio }, .normal⟩
  | _, _ => ⟨d, .throw .typeError⟩

/-! ## Notions used to state the properties of the widgets -/

/-- The Tab key would take the focus out of the menu: the target is the last
menu item, or with Shift the first. -/
def leavesMenu (e : KeyEvent) (d : Dropdown) : Bool :=
  if e.shiftKey then decide (d.menuItems[0]? = some e.target)
  else decide (d.menuItems[d.menuItems.length - 1]? = some e.target)

/-- A sample dropdown: an expanded menu with the given items, the focus on
`active`. -/
def sampleDropdown (menuItems : List Element) (active : Element) : Dropdown :=
  { toggle := 0,
    ariaExpanded := some "true",
    classList := ["dropdown-menu", "dropdown-menu-end"],
    menuItems := menuItems,
    menuPlacement := { top := false, atEnd := false },
    activeElement := some active,
    defaultPrevented := false,
    clicked := [] }

/-- A layout in which the menu fits the window. -/
def sampleLayout : Layout :=
  { left := 10, top := 10, width := 100, height := 100, innerWidth := 800, innerHeight := 600,
    topAfter := 10 }

/-- A sample accordion: two closed headers inside an `.accordion-div`, each
followed by its panel. -/
def sampleAccordion : List AccordionHeader :=
  [ { classList := ["accordion"], insideAccordionDiv := true,
      nextElementSibling := some { maxHeight := "" } },
    { classList := ["accordion"], insideAccordionDiv := true,
      nextElementSibling := some { maxHeight := "" } } ]

/-- A sample category page: the checked radio has the given `id`, the first of
the two sections carries the class `列印小竅門`. -/
def sampleChecked (id : String) : CheckedDocument :=
  { checkedRadio := some { id := id },
    categroySectionTitle := some { innerHTML := "" },
    categroySections :=
      [ { classList := ["section-flex", "列印小竅門"] },
        { classList := ["section-flex", "FAQ"] } ] }

/-- The `querySelector` of the sample category page. -/
def sampleQuery (selector : String) : QueryResult :=
  if selector = ".列印小竅門" then .sectionFlex 0
  else if selector = ".FAQ" then .sectionFlex 1
  else if selector = ".3D.列印小竅門" then .syntaxError
  else .null

/-- The `id` for which `getCheckedCategory` looks up the section: `id` itself,
but `列印小竅門` for `3D 列印小竅門`. -/
def lookupId (id : String) : String :=
  if id = "3D 列印小竅門" then "列印小竅門" else id

/-! ## Normalization of category names -/

theorem splitChars_ne_nil (sep : Char) (cs : List Char) : splitChars sep cs ≠ [] := by
  cases cs with
  | nil => simp [splitChars]
  | cons c cs =>
    unfold splitChars
    split
    · simp
    · split <;> simp

theorem joinChars_cons_cons (glue c : Char) (w : List Char) (ws : List (List Char)) :
    joinChars glue ((c :: w) :: ws) = c :: joinChars glue (w :: ws) := by
  cases ws <;> simp [joinChars]

/-- Splitting at a character and joining with another replaces every
occurrence of the first by the second, one for one. -/
theorem joinChars_splitChars (sep glue : Char) (cs : List Char) :
    joinChars glue (splitChars sep cs) = cs.map (fun c => if c = sep then glue else c) := by
  induction cs with
  | nil => simp [splitChars, joinChars]
  | cons c cs ih =>
    have hne := splitChars_ne_nil sep cs
    unfold splitChars
    by_cases hc : c = sep
    · simp only [hc, if_true, List.map_cons]
      cases hs : splitChars sep cs with
      | nil => exact absurd hs hne
      | cons v vs =>
        rw [hs] at ih
        simp [joinChars, ih]
    · simp only [hc, if_false, List.map_cons]
      cases hs : splitChars sep cs with
      | nil => exact absurd hs hne
      | cons v vs =>
        rw [hs] at ih
        simp [joinChars_cons_cons, ih]

theorem categoryNameRemoveBlank_data (s : String) :
    (categoryNameRemoveBlank s).data = (trimChars s.data).map underscored := by
  simp only [categoryNameRemoveBlank, trim, joinChars_splitChars]
  rfl

theorem trimStartChars_head (cs : List Char) (c : Char)
    (h : (trimStartChars cs).head? = some c) : isWhiteSpace c = false := by
  have := List.head?_dropWhile_not isWhiteSpace cs
  unfold trimStartChars at h
  rw [h] at this
  exact this

theorem trimEndChars_getLast (cs : List Char) (c : Char)
    (h : (trimEndChars cs).getLast? = some c) : isWhiteSpace c = false := by
  unfold trimEndChars at h
  rw [List.getLast?_reverse] at h
  have := List.head?_dropWhile_not isWhiteSpace cs.reverse
  rw [h] at this
  exact this

theorem trimEndChars_cons (a : Char) (cs : List Char) :
    trimEndChars (a :: cs) =
      if trimEndChars cs = [] then (if isWhiteSpace a then [] else [a])
      else a :: trimEndChars cs := by
  unfold trimEndChars
  rw [List.reverse_cons, List.dropWhile_append]
  by_cases h : (List.dropWhile isWhiteSpace cs.reverse) = []
  · simp [h, List.dropWhile]
    cases isWhiteSpace a <;> simp
  · simp [h]

theorem trimEndChars_head (cs : List Char) (c : Char)
    (h : (trimEndChars cs).head? = some c) : cs.head? = some c := by
  cases cs with
  | nil => simp [trimEndChars] at h
  | cons a cs =>
    rw [trimEndChars_cons] at h
    split at h
    · split at h <;> simp_all
    · simpa using h

theorem trimmed_trimChars (cs : List Char) : Trimmed (trimChars cs) :=
  ⟨fun c h => trimStartChars_head cs c (trimEndChars_head _ c h),
   fun c h => trimEndChars_getLast _ c h⟩

theorem trimChars_of_trimmed (cs : List Char) (h : Trimmed cs) : trimChars cs = cs := by
  have hstart : trimStartChars cs = cs := by
    cases cs with
    | nil => rfl
    | cons a cs =>
      have ha := h.1 a (by simp)
      simp [trimStartChars, List.dropWhile, ha]
  have hend : trimEndChars cs = cs := by
    unfold trimEndChars
    cases hr : cs.reverse with
    | nil => simp_all
    | cons a rest =>
      have hl : cs.getLast? = some a := by
        rw [← List.head?_reverse, hr]; rfl
      have ha := h.2 a hl
      simp only [List.dropWhile, ha]
      rw [← hr, List.reverse_reverse]
  unfold trimChars
  rw [hstart, hend]

theorem underscored_of_not_whiteSpace (c : Char) (h : isWhiteSpace c = false) :
    underscored c = c := by
  unfold underscored
  split
  · next hc => subst hc; exact absurd h (by decide)
  · rfl

theorem underscored_idem (c : Char) : underscored (underscored c) = underscored c := by
  unfold underscored
  by_cases h : c = ' '
  · simp [h]
  · simp [h]

theorem underscored_ne_space (c : Char) : underscored c ≠ ' ' := by
  unfold underscored
  by_cases h : c = ' '
  · simp [h]
  · simp [h]

theorem trimmed_map_underscored (cs : List Char) (h : Trimmed cs) :
    Trimmed (cs.map underscored) := by
  constructor
  · intro c hc
    rw [List.head?_map] at hc
    cases hh : cs.head? with
    | none => simp [hh] at hc
    | some a =>
      have ha := h.1 a hh
      simp [hh, underscored_of_not_whiteSpace a ha] at hc
      exact hc ▸ ha
  · intro c hc
    rw [List.getLast?_map] at hc
    cases hh : cs.getLast? with
    | none => simp [hh] at hc
    | some a =>
      have ha := h.2 a hh
      simp [hh, underscored_of_not_whiteSpace a ha] at hc
      exact hc ▸ ha

/-- C1. Category-name normalization is idempotent: for every string `s`,
`categoryNameRemoveBlank (categoryNameRemoveBlank s) = categoryNameRemoveBlank s`. -/
theorem categoryNameRemoveBlank_idempotent (s : String) :
    categoryNameRemoveBlank (categoryNameRemoveBlank s) = categoryNameRemoveBlank s := by
  apply String.ext
  rw [categoryNameRemoveBlank_data (categoryNameRemoveBlank s), categoryNameRemoveBlank_data s,
    trimChars_of_trimmed _ (trimmed_map_underscored _ (trimmed_trimChars s.data)),
    List.map_map]
  apply List.map_congr_left
  intro c _
  exact underscored_idem c

/-- C2. The category text "Sonic Mini 8K" is not in the exclusion set, is
normalized to the key "Sonic_Mini_8K", `findMachineInfo` finds a record of
`categoryMachinesInfo` under that key, and the English warranty list of that
record, as the table holds it and as `renderMachineContent` renders it on an
English page, starts with "Mono-LCD : 3 Months". -/
theorem sonic_mini_8K_end_to_end :
    "Sonic Mini 8K" ∉ excludedCategories ∧
    categoryNameRemoveBlank "Sonic Mini 8K" = "Sonic_Mini_8K" ∧
    ∃ record : MachineRecord,
      findMachineInfo categoryMachinesInfo (categoryNameRemoveBlank "Sonic Mini 8K")
        = .own record ∧
      categoryRender "Sonic Mini 8K" = .renderMachineContent (.own record) ∧
      (record.warranty.get (substr02 "en-US")).bind List.head? = some "Mono-LCD : 3 Months" ∧
      ((renderMachineContent (.own record) (categoryPage "en-US")).state.warrantyList).bind
        List.head? = some { innerHTML := "Mono-LCD : 3 Months", classList := ["warranty-item"] } := by
  refine ⟨by decide, by decide, ?_⟩
  refine ⟨_, rfl, ?_, ?_, ?_⟩
  · decide
  · decide
  · decide

/-- C3, as stated, fails: the two spaces of "Sonic  Mini" become two
underscores, not one. -/
theorem categoryNameRemoveBlank_keeps_runs :
    categoryNameRemoveBlank "Sonic  Mini" = "Sonic__Mini" ∧
    categoryNameRemoveBlank "Sonic  Mini" ≠ "Sonic_Mini" := by
  decide

/-- C3, amended. For every input the key returned by `categoryNameRemoveBlank`
has no white space at either end and holds no space character, and it is the
trimmed input with every space replaced by one underscore, character for
character: a run of `k` internal spaces becomes `k` underscores and the key is
as long as the trimmed input. -/
theorem categoryNameRemoveBlank_spec (s : String) :
    Trimmed (categoryNameRemoveBlank s).data ∧
    ' ' ∉ (categoryNameRemoveBlank s).data ∧
    (categoryNameRemoveBlank s).data
      = (trim s).data.map (fun c => if c = ' ' then '_' else c) ∧
    (categoryNameRemoveBlank s).data.length = (trim s).data.length := by
  have hdata := categoryNameRemoveBlank_data s
  refine ⟨?_, ?_, ?_, ?_⟩
  · rw [hdata]
    exact trimmed_map_underscored _ (trimmed_trimChars s.data)
  · rw [hdata]
    intro hmem
    obtain ⟨c, _, hc⟩ := List.mem_map.mp hmem
    exact underscored_ne_space c hc
  · rw [hdata]; rfl
  · rw [hdata, List.length_map]; rfl

/-- C4. The page-load handler calls `renderFaqContent`, with the raw text,
exactly when the raw text of `.category-name` is one of the 12 entries of
`excludedCategories`; for every other text it calls `renderMachineContent` with
what `findMachineInfo` finds in `categoryMachinesInfo` under the normalized
text. An excluded name with white space around it is not excluded. -/
theorem categoryRender_spec (innerHTML : String) :
    excludedCategories.length = 12 ∧
    (categoryRender innerHTML = .renderFaqContent innerHTML ↔
      innerHTML ∈ excludedCategories) ∧
    (innerHTML ∉ excludedCategories →
      categoryRender innerHTML = .renderMachineContent
        (findMachineInfo categoryMachinesInfo (categoryNameRemoveBlank innerHTML))) ∧
    (trim " Software " ∈ excludedCategories ∧ " Software " ∉ excludedCategories) := by
  refine ⟨by decide, ?_, ?_, by decide⟩
  · unfold categoryRender
    by_cases h : innerHTML ∈ excludedCategories
    · simp [h]
    · simp [h]
  · intro h
    unfold categoryRender
    simp [h]

/-- C4 at the text " Software ": the machine path is taken, with the record
looked up under the key "Software". -/
theorem categoryRender_spec_witness :
    " Software " ∉ excludedCategories ∧
    categoryRender " Software " = .renderMachineContent
      (findMachineInfo categoryMachinesInfo (categoryNameRemoveBlank " Software ")) :=
  ⟨by decide, (categoryRender_spec " Software ").2.2.1 (by decide)⟩

/-! ## Rendering the machine lists -/

theorem getOwn_mem {α : Type} (key : String) (entries : List (String × α)) (v : α)
    (h : getOwn key entries = some v) : (key, v) ∈ entries := by
  induction entries with
  | nil => simp [getOwn] at h
  | cons e rest ih =>
    obtain ⟨k, w⟩ := e
    unfold getOwn at h
    cases hr : getOwn key rest with
    | some u =>
      rw [hr] at h
      simp only [Option.some.injEq] at h
      subst h
      exact List.mem_cons_of_mem _ (ih hr)
    | none =>
      rw [hr] at h
      by_cases hk : k = key
      · simp [hk] at h
        subst h; subst hk
        exact List.mem_cons_self _ _
      · simp [hk] at h

theorem getProp_own_mem {α : Type} (entries : List (String × α)) (key : String) (v : α)
    (h : getProp entries key = .own v) : (key, v) ∈ entries := by
  cases hr : getOwn key entries with
  | some u =>
    simp only [getProp, hr, PropValue.own.injEq] at h
    subst h
    exact getOwn_mem key entries u hr
  | none =>
    simp only [getProp, hr] at h
    split at h <;> simp at h

/-- Every record of the table has a warranty list and a specs list in both
languages. -/
theorem categoryMachinesInfo_lists :
    ∀ e ∈ categoryMachinesInfo,
      e.2.warranty.en.isSome ∧ e.2.warranty.zh.isSome ∧
      e.2.specs.en.isSome ∧ e.2.specs.zh.isSome := by
  decide

theorem perLang_get_isSome {α : Type} (obj : PerLang α) (currentLang : LangCode)
    (hen : obj.en.isSome) (hzh : obj.zh.isSome)
    (hlang : currentLang.text = "en" ∨ currentLang.text = "zh") :
    ∃ v, obj.get currentLang = some v := by
  unfold PerLang.get
  rcases hlang with h | h
  · rw [if_pos h]; exact Option.isSome_iff_exists.mp hen
  · have hne : currentLang.text ≠ "en" := by rw [h]; decide
    rw [if_neg hne, if_pos h]; exact Option.isSome_iff_exists.mp hzh

theorem forEach_appendWarrantyItem (items : List String) (p : Page) (children : List Li)
    (h : p.warrantyList = some children) :
    forEach items appendWarrantyItem p =
      ⟨{ p with warrantyList := some (children ++
          items.map fun item => { innerHTML := item, classList := ["warranty-item"] }) },
        .normal⟩ := by
  induction items generalizing p children with
  | nil =>
    cases p
    simp_all [forEach]
  | cons item rest ih =>
    unfold forEach
    simp only [appendWarrantyItem, h, Run.andThen]
    rw [ih _ (children ++ [{ innerHTML := item, classList := classListAdd "warranty-item" [] }]) rfl]
    simp [classListAdd]

theorem forEach_appendSpecsItem (items : List String) (p : Page) (children : List Li)
    (h : p.specsList = some children) :
    forEach items appendSpecsItem p =
      ⟨{ p with specsList := some (children ++
          items.map fun item => { innerHTML := item, classList := ["specs-item"] }) },
        .normal⟩ := by
  induction items generalizing p children with
  | nil =>
    cases p
    simp_all [forEach]
  | cons item rest ih =>
    unfold forEach
    simp only [appendSpecsItem, h, Run.andThen]
    rw [ih _ (children ++ [{ innerHTML := item, classList := classListAdd "specs-item" [] }]) rfl]
    simp [classListAdd]

theorem keepsLists_andThen (r : Run Page) (f : Page → Run Page) (hf : KeepsLists f) :
    (r.andThen f).state.warrantyList = r.state.warrantyList ∧
    (r.andThen f).state.specsList = r.state.specsList := by
  unfold Run.andThen
  split
  · exact hf r.state
  · exact ⟨rfl, rfl⟩

theorem keepsLists_machineWarrantyBtnCollapse (m : PropValue MachineRecord) :
    KeepsLists (machineWarrantyBtnCollapse m) := by
  intro p
  unfold machineWarrantyBtnCollapse
  split
  · exact ⟨rfl, rfl⟩
  · dsimp only
    split <;> exact ⟨rfl, rfl⟩

theorem keepsLists_machineSpecsBtnCollapse (m : PropValue MachineRecord) :
    KeepsLists (machineSpecsBtnCollapse m) := by
  intro p
  unfold machineSpecsBtnCollapse
  split
  · exact ⟨rfl, rfl⟩
  · dsimp only
    split <;> exact ⟨rfl, rfl⟩

theorem keepsLists_bindMachineLink (m : PropValue MachineRecord) :
    KeepsLists (bindMachineLink m) := by
  intro p
  unfold bindMachineLink
  dsimp only
  repeat' split
  all_goals exact ⟨rfl, rfl⟩

/-- C5. For every machine key of `categoryMachinesInfo` and each of the
languages en and zh, `renderMachineContent` on a page whose `.warranty-list`
and `.specs-list` are empty leaves one `li` of class `warranty-item` per string
of `warranty[lang]` and one `li` of class `specs-item` per string of
`specs[lang]`, holding those strings in the order of the table: the lists have
the length of the source lists and the `k`-th item holds the `k`-th string. -/
theorem renderMachineContent_lists (key : String) (record : MachineRecord) (p : Page)
    (hkey : findMachineInfo categoryMachinesInfo key = .own record)
    (hlang : (substr02 p.lang).text = "en" ∨ (substr02 p.lang).text = "zh")
    (hwarranty : p.warrantyList = some []) (hspecs : p.specsList = some []) :
    ∃ warranty specs warrantyItems specsItems,
      record.warranty.get (substr02 p.lang) = some warranty ∧
      record.specs.get (substr02 p.lang) = some specs ∧
      (renderMachineContent (.own record) p).state.warrantyList = some warrantyItems ∧
      (renderMachineContent (.own record) p).state.specsList = some specsItems ∧
      warrantyItems = warranty.map (fun s => { innerHTML := s, classList := ["warranty-item"] }) ∧
      specsItems = specs.map (fun s => { innerHTML := s, classList := ["specs-item"] }) ∧
      warrantyItems.length = warranty.length ∧ specsItems.length = specs.length ∧
      (∀ k : Nat, (warrantyItems[k]?).map Li.innerHTML = warranty[k]?) ∧
      (∀ k : Nat, (specsItems[k]?).map Li.innerHTML = specs[k]?) := by
  have hmem := getProp_own_mem _ _ _ hkey
  obtain ⟨h1, h2, h3, h4⟩ := categoryMachinesInfo_lists _ hmem
  obtain ⟨warranty, hw⟩ := perLang_get_isSome record.warranty _ h1 h2 hlang
  obtain ⟨specs, hs⟩ := perLang_get_isSome record.specs _ h3 h4 hlang
  have hr1 : renderWarrantyContent (.own record) p =
      ⟨{ p with warrantyList := some ([] ++
          warranty.map fun item => { innerHTML := item, classList := ["warranty-item"] }) },
        .normal⟩ := by
    simp only [renderWarrantyContent, hw]
    exact forEach_appendWarrantyItem warranty p [] hwarranty
  have hr2 : ∀ q : Page, q.lang = p.lang → q.specsList = some [] →
      renderSpecsContent (.own record) q =
        ⟨{ q with specsList := some ([] ++
            specs.map fun item => { innerHTML := item, classList := ["specs-item"] }) },
          .normal⟩ := by
    intro q hq hqs
    have hs2 : record.specs.get (substr02 q.lang) = some specs := by rw [hq]; exact hs
    simp only [renderSpecsContent, hs2]
    exact forEach_appendSpecsItem specs q [] hqs
  have hrest : KeepsLists (fun q =>
      (machineWarrantyBtnCollapse (.own record) q).andThen fun q =>
      (machineSpecsBtnCollapse (.own record) q).andThen fun q =>
      bindMachineLink (.own record) q) := by
    intro q
    have a := keepsLists_andThen (machineWarrantyBtnCollapse (.own record) q)
      (fun q => (machineSpecsBtnCollapse (.own record) q).andThen fun q =>
        bindMachineLink (.own record) q)
      (fun q => by
        have b := keepsLists_andThen (machineSpecsBtnCollapse (.own record) q)
          (fun q => bindMachineLink (.own record) q) (keepsLists_bindMachineLink _)
        have c := keepsLists_machineSpecsBtnCollapse (.own record) q
        exact ⟨b.1.trans c.1, b.2.trans c.2⟩)
    have d := keepsLists_machineWarrantyBtnCollapse (.own record) q
    exact ⟨a.1.trans d.1, a.2.trans d.2⟩
  have hstate : (renderMachineContent (.own record) p).state.warrantyList
        = some (warranty.map fun s => { innerHTML := s, classList := ["warranty-item"] }) ∧
      (renderMachineContent (.own record) p).state.specsList
        = some (specs.map fun s => { innerHTML := s, classList := ["specs-item"] }) := by
    have hr3 := hr2 { p with warrantyList := some ([] ++
      warranty.map fun item => { innerHTML := item, classList := ["warranty-item"] }) } rfl hspecs
    unfold renderMachineContent
    rw [hr1]
    simp only [Run.andThen]
    rw [hr3]
    simp only []
    have e := hrest { p with
      warrantyList := some ([] ++ warranty.map fun s =>
        { innerHTML := s, classList := ["warranty-item"] }),
      specsList := some ([] ++ specs.map fun s =>
        { innerHTML := s, classList := ["specs-item"] }) }
    simpa [Run.andThen] using e
  refine ⟨warranty, specs, _, _, hw, hs, hstate.1, hstate.2, rfl, rfl, ?_, ?_, ?_, ?_⟩
  · simp
  · simp
  · intro k; simp [List.getElem?_map, Option.map_map, Function.comp_def]
  · intro k; simp [List.getElem?_map, Option.map_map, Function.comp_def]

/-- C5 at the key "Sonic_Mini_8K" on an English page with empty lists. -/
theorem renderMachineContent_lists_witness :
    ∃ record, findMachineInfo categoryMachinesInfo "Sonic_Mini_8K" = .own record ∧
      ((substr02 (categoryPage "en-US").lang).text = "en" ∨
        (substr02 (categoryPage "en-US").lang).text = "zh") ∧
      (categoryPage "en-US").warrantyList = some [] ∧
      (categoryPage "en-US").specsList = some [] ∧
      ∃ warranty specs warrantyItems specsItems,
        record.warranty.get (substr02 (categoryPage "en-US").lang) = some warranty ∧
        record.specs.get (substr02 (categoryPage "en-US").lang) = some specs ∧
        (renderMachineContent (.own record) (categoryPage "en-US")).state.warrantyList
          = some warrantyItems ∧
        (renderMachineContent (.own record) (categoryPage "en-US")).state.specsList
          = some specsItems ∧
        warrantyItems
          = warranty.map (fun s => { innerHTML := s, classList := ["warranty-item"] }) ∧
        specsItems = specs.map (fun s => { innerHTML := s, classList := ["specs-item"] }) ∧
        warrantyItems.length = warranty.length ∧ specsItems.length = specs.length ∧
        (∀ k : Nat, (warrantyItems[k]?).map Li.innerHTML = warranty[k]?) ∧
        (∀ k : Nat, (specsItems[k]?).map Li.innerHTML = specs[k]?) :=
  ⟨_, rfl, Or.inl (by decide), rfl, rfl,
    renderMachineContent_lists "Sonic_Mini_8K" _ (categoryPage "en-US") rfl
      (Or.inl (by decide)) rfl rfl⟩

/-! ## Binding the manual and resin links -/

/-- The record keyed "Transform_&amp;_Shuffle_Series" has the two resin
sub-variants, with these URLs. -/
theorem categoryMachinesInfo_variants :
    ∀ e ∈ categoryMachinesInfo, e.1 = "Transform_&amp;_Shuffle_Series" →
      e.2.resin = .variants
        (some { en := some "https://phrozen3d.com/pages/resin-transform",
                zh := some "https://phrozen3d.com.tw/pages/resin-transform-standard" })
        (some { en := some "https://phrozen3d.com/pages/resin-shuffle-4k",
                zh := some "https://phrozen3d.com.tw/pages/resin-shuffle-4k" }) := by
  decide

/-- C6. For the record keyed "Transform_&amp;_Shuffle_Series", whose `resin`
field has the sub-variants `Transform` and `Shuffle_Series`, on a page with a
manual link and at least two `.machine-resin-link` elements, `bindMachineLink`
ends normally, sets the `href` of the first resin link to
`resin.Transform[lang]`, that of the second to `resin.Shuffle_Series[lang]`,
leaves the other resin links alone and sets the `href` of the manual link to
`manual[lang]`. -/
theorem bindMachineLink_variants (record : MachineRecord) (p : Page)
    (manualLink first second : Link) (others : List Link)
    (hkey : findMachineInfo categoryMachinesInfo "Transform_&amp;_Shuffle_Series" = .own record)
    (hmanual : p.machineManualLink = some manualLink)
    (hlinks : p.machineResinLinks = first :: second :: others) :
    ∃ transform shuffleSeries : PerLang String,
      record.resin = .variants (some transform) (some shuffleSeries) ∧
      transform = { en := some "https://phrozen3d.com/pages/resin-transform",
                    zh := some "https://phrozen3d.com.tw/pages/resin-transform-standard" } ∧
      shuffleSeries = { en := some "https://phrozen3d.com/pages/resin-shuffle-4k",
                        zh := some "https://phrozen3d.com.tw/pages/resin-shuffle-4k" } ∧
      (bindMachineLink (.own record) p).completion = .normal ∧
      (bindMachineLink (.own record) p).state.machineResinLinks =
        { href := transform.get (substr02 p.lang) } ::
          { href := shuffleSeries.get (substr02 p.lang) } :: others ∧
      (bindMachineLink (.own record) p).state.machineManualLink =
        some { href := record.manual.get (substr02 p.lang) } := by
  have hresin := categoryMachinesInfo_variants _ (getProp_own_mem _ _ _ hkey) rfl
  refine ⟨_, _, hresin, rfl, rfl, ?_⟩
  simp only at hresin
  simp [bindMachineLink, hmanual, hresin, hlinks]

/-- C6 on a Chinese page with two resin links: the first gets the Transform
URL, the second the Shuffle URL. -/
theorem bindMachineLink_variants_witness :
    ∃ record, findMachineInfo categoryMachinesInfo "Transform_&amp;_Shuffle_Series" = .own record ∧
      (bindMachineLink (.own record) (categoryPage "zh-TW")).state.machineResinLinks =
        [{ href := some "https://phrozen3d.com.tw/pages/resin-transform-standard" },
         { href := some "https://phrozen3d.com.tw/pages/resin-shuffle-4k" }] ∧
      ∃ transform shuffleSeries : PerLang String,
        record.resin = .variants (some transform) (some shuffleSeries) ∧
        transform = { en := some "https://phrozen3d.com/pages/resin-transform",
                      zh := some "https://phrozen3d.com.tw/pages/resin-transform-standard" } ∧
        shuffleSeries = { en := some "https://phrozen3d.com/pages/resin-shuffle-4k",
                          zh := some "https://phrozen3d.com.tw/pages/resin-shuffle-4k" } ∧
        (bindMachineLink (.own record) (categoryPage "zh-TW")).completion = .normal ∧
        (bindMachineLink (.own record) (categoryPage "zh-TW")).state.machineResinLinks =
          { href := transform.get (substr02 (categoryPage "zh-TW").lang) } ::
            { href := shuffleSeries.get (substr02 (categoryPage "zh-TW").lang) } :: [] ∧
        (bindMachineLink (.own record) (categoryPage "zh-TW")).state.machineManualLink =
          some { href := record.manual.get (substr02 (categoryPage "zh-TW").lang) } :=
  ⟨_, rfl, by decide,
    bindMachineLink_variants _ (categoryPage "zh-TW") { href := some "#" } { href := some "#" }
      { href := some "#" } [] rfl rfl rfl⟩

/-- C7. When a record without resin sub-variants has no resin entry for the
active language (none at all, or the empty string), on a page that holds the
manual link, the `.last-hr` separator and the `.machine-resin` block,
`bindMachineLink` ends normally and leaves the page without the separator and
without the block. -/
theorem bindMachineLink_removes_resin (record : MachineRecord) (urls : PerLang String)
    (p : Page) (manualLink : Link)
    (hresin : record.resin = .direct urls)
    (hentry : urls.get (substr02 p.lang) = none ∨ urls.get (substr02 p.lang) = some "")
    (hmanual : p.machineManualLink = some manualLink)
    (hhr : p.lastHr = true) (hblock : p.machineResin = true) :
    (bindMachineLink (.own record) p).completion = .normal ∧
    (bindMachineLink (.own record) p).state.lastHr = false ∧
    (bindMachineLink (.own record) p).state.machineResin = false := by
  have hfalsy : truthy (Resin.forLang (.direct urls) (substr02 p.lang)) = false := by
    rcases hentry with h | h <;> simp [Resin.forLang, h, truthy]
  simp [bindMachineLink, hmanual, hresin, hfalsy, hhr, hblock]

/-- C7 at the records "Wash_&amp;_Cure_Station", "Wash_Mega_S" and
"Cure_Mega_S", whose resin entries are empty strings, on English and Chinese
pages. -/
theorem bindMachineLink_removes_resin_witness :
    (∃ record urls, findMachineInfo categoryMachinesInfo "Wash_Mega_S" = .own record ∧
      record.resin = .direct urls ∧ urls.get (substr02 "en-US") = some "" ∧
      (bindMachineLink (.own record) (categoryPage "en-US")).completion = .normal ∧
      (bindMachineLink (.own record) (categoryPage "en-US")).state.lastHr = false ∧
      (bindMachineLink (.own record) (categoryPage "en-US")).state.machineResin = false) ∧
    (∃ record urls, findMachineInfo categoryMachinesInfo "Wash_&amp;_Cure_Station" = .own record ∧
      record.resin = .direct urls ∧ urls.get (substr02 "zh-TW") = some "" ∧
      (bindMachineLink (.own record) (categoryPage "zh-TW")).completion = .normal ∧
      (bindMachineLink (.own record) (categoryPage "zh-TW")).state.lastHr = false ∧
      (bindMachineLink (.own record) (categoryPage "zh-TW")).state.machineResin = false) ∧
    (∃ record urls, findMachineInfo categoryMachinesInfo "Cure_Mega_S" = .own record ∧
      record.resin = .direct urls ∧ urls.get (substr02 "en-US") = some "" ∧
      (bindMachineLink (.own record) (categoryPage "en-US")).completion = .normal ∧
      (bindMachineLink (.own record) (categoryPage "en-US")).state.lastHr = false ∧
      (bindMachineLink (.own record) (categoryPage "en-US")).state.machineResin = false) :=
  ⟨⟨_, _, rfl, rfl, rfl,
      bindMachineLink_removes_resin _ _ (categoryPage "en-US") _ rfl (Or.inr rfl) rfl rfl rfl⟩,
    ⟨_, _, rfl, rfl, rfl,
      bindMachineLink_removes_resin _ _ (categoryPage "zh-TW") _ rfl (Or.inr rfl) rfl rfl rfl⟩,
    ⟨_, _, rfl, rfl, rfl,
      bindMachineLink_removes_resin _ _ (categoryPage "en-US") _ rfl (Or.inr rfl) rfl rfl rfl⟩⟩

/-! ## Article cards -/

theorem string_join_cons (s : String) (ss : List String) :
    String.join (s :: ss) = s ++ String.join ss := by
  apply String.ext
  simp [String.data_join]

theorem string_append_assoc (a b c : String) : a ++ b ++ c = a ++ (b ++ c) := by
  apply String.ext
  simp [String.data_append]

theorem string_append_empty (a : String) : a ++ "" = a := by
  apply String.ext
  simp [String.data_append]

theorem string_empty_append (a : String) : "" ++ a = a := by
  apply String.ext
  simp [String.data_append]

/-- The inner loop from index `j`: it appends the cards of the articles `j`,
`j + 1`, ... in order, and raises once it indexes past the last article. -/
theorem insertCardsFrom_eq (articles : List Article) (n j : Nat) (cardsSection : CardsSection)
    (hj : j ≤ articles.length) :
    insertCardsFrom articles j n cardsSection =
      ⟨{ innerHTML := cardsSection.innerHTML ++ cardsMarkup ((articles.drop j).take n) },
        if j + n ≤ articles.length then .normal else .throw .typeError⟩ := by
  induction n generalizing j cardsSection with
  | zero =>
    simp [insertCardsFrom, cardsMarkup, hj, String.join, string_append_empty]
  | succ n ih =>
    unfold insertCardsFrom
    by_cases hlt : j < articles.length
    · rw [List.getElem?_eq_getElem hlt]
      simp only
      rw [ih (j + 1) _ hlt, List.drop_eq_getElem_cons hlt]
      simp only [List.take_succ_cons, cardsMarkup, List.map_cons, string_join_cons,
        string_append_assoc]
      have : j + 1 + n = j + (n + 1) := by omega
      rw [this]
    · have hje : j = articles.length := Nat.le_antisymm hj (Nat.le_of_not_lt hlt)
      have hnone : articles[j]? = none := List.getElem?_eq_none (Nat.le_of_eq hje.symm)
      rw [hnone]
      have hdrop : articles.drop j = [] := List.drop_eq_nil_of_le (Nat.le_of_eq hje.symm)
      have hnot : ¬ (j + (n + 1) ≤ articles.length) := by omega
      simp [hdrop, cardsMarkup, String.join, string_append_empty, hnot]

/-- One round of the outer loop for an anchor with a card container: the
container is cleared and filled with the cards of the first `count` articles;
the round raises exactly when `count` exceeds the number of articles. -/
theorem insertSectionArticles_eq (element : SeeAllArticles) (cardsSection : CardsSection)
    (obj : SectionArticles) (hsibling : element.previousElementSibling = some cardsSection) :
    insertSectionArticles element (some obj) =
      ⟨withCards element (obj.articles.take obj.count),
        if obj.count ≤ obj.articles.length then .normal else .throw .typeError⟩ := by
  simp only [insertSectionArticles, hsibling]
  rw [insertCardsFrom_eq obj.articles obj.count 0 _ (Nat.zero_le _)]
  simp [string_empty_append, withCards]

theorem insertAllArticlesFrom_eq (allArticleObj : List SectionArticles)
    (elements : List SeeAllArticles) (i : Nat)
    (hsibling : ∀ e ∈ elements, e.previousElementSibling.isSome)
    (hlen : i + elements.length ≤ allArticleObj.length)
    (hcount : ∀ o ∈ allArticleObj, o.count = o.articles.length) :
    insertAllArticlesFrom allArticleObj i elements =
      ⟨List.zipWith (fun e o => withCards e o.articles) elements (allArticleObj.drop i),
        .normal⟩ := by
  induction elements generalizing i with
  | nil => simp [insertAllArticlesFrom]
  | cons e rest ih =>
    have hi : i < allArticleObj.length := by
      simp only [List.length_cons] at hlen; omega
    obtain ⟨c, hc⟩ := Option.isSome_iff_exists.mp (hsibling e (List.mem_cons_self _ _))
    have ho := hcount _ (List.getElem_mem hi)
    unfold insertAllArticlesFrom
    rw [List.getElem?_eq_getElem hi]
    simp only
    rw [insertSectionArticles_eq e c _ hc]
    simp only [ho, Nat.le_refl, if_true, List.take_length]
    rw [ih (i + 1) (fun e2 h2 => hsibling e2 (List.mem_cons_of_mem _ h2))
      (by simp only [List.length_cons] at hlen; omega)]
    rw [List.drop_eq_getElem_cons hi]
    rfl

/-- The substitutions of a card template: both links point to `html_url`, the
image's `alt` is the title, the text before the closing tag of the title link
is the title, and the star glyph is there exactly for a promoted article. -/
theorem articleTemplate_spec (a : Article) :
    holesAfter "<a href=\"" (articleTemplate a) = [a.html_url, a.html_url] ∧
    holesAfter "alt=\"" (articleTemplate a) = [a.title] ∧
    (articleTemplate a).reverse.take 2
      = [.text " </a>\n          </div>\n        ", .hole a.title] ∧
    (Piece.text starSvg ∈ articleTemplate a ↔ a.promoted = true) := by
  obtain ⟨title, url, promoted⟩ := a
  cases promoted
  · refine ⟨rfl, rfl, rfl, ?_⟩
    simp [articleTemplate]
    decide
  · refine ⟨rfl, rfl, rfl, ?_⟩
    simp [articleTemplate]

theorem cardsMarkup_append (front back : List Article) :
    cardsMarkup (front ++ back) = cardsMarkup front ++ cardsMarkup back := by
  apply String.ext
  simp [cardsMarkup, String.data_join, String.data_append]

theorem cardsMarkup_cons (a : Article) (rest : List Article) :
    cardsMarkup (a :: rest) = articleHTML a ++ cardsMarkup rest := by
  apply String.ext
  simp [cardsMarkup, String.data_join, String.data_append]

theorem string_join_nil : String.join [] = "" := rfl

theorem list_split_at {α : Type} (l : List α) (k : Nat) (a : α) (h : l[k]? = some a) :
    l = l.take k ++ a :: l.drop (k + 1) := by
  induction l generalizing k with
  | nil => simp at h
  | cons b rest ih =>
    cases k with
    | zero =>
      simp only [List.getElem?_cons_zero, Option.some.injEq] at h
      simp [h]
    | succ k =>
      simp only [List.getElem?_cons_succ] at h
      simp only [List.take_succ_cons, List.drop_succ_cons, List.cons_append]
      rw [← ih k h]

/-- The markup of a card, written out: the fixed text of the template with the
`html_url` in both `href` attributes, the title in the `alt` attribute and
before the closing tag of the title link, and the star glyph between the
opening tag of the title link and the title exactly for a promoted article. -/
theorem articleHTML_eq (a : Article) :
    articleHTML a =
      (if a.promoted then "\n          <div class=\"category-card\">\n          \t<a href=\""
        else "\n          <div class=\"category-card\">\n            <a href=\"") ++
      a.html_url ++
      "\" class=\"article-image-link\">\n              <img src=\"https://phrozen3d.com.tw/cdn/shop/files/718KS_1400x1600_01_14b22783-8e9d-4df3-b044-7d390edcb3ec.png?v=1695112910&width=400\" alt=\"" ++
      a.title ++
      "\" class=\"category-article-image\">\n            </a>\n            <a href=\"" ++
      a.html_url ++
      (if a.promoted then
        "\" class=\"article-list-link\">\n              " ++ starSvg ++ "\n              "
        else "\" class=\"article-list-link\">") ++
      a.title ++
      " </a>\n          </div>\n        " := by
  obtain ⟨title, url, promoted⟩ := a
  cases promoted
  all_goals
    simp only [articleHTML, articleTemplate, renderTemplate, List.map, Piece.render,
      string_join_cons, string_join_nil, string_append_empty, string_empty_append,
      string_append_assoc, Bool.false_eq_true, if_false, if_true]

set_option maxRecDepth 1000000 in
/-- C8. When every anchor has a card container, there is a response for every
anchor and every response's `count` is the length of its `articles`,
`insertAllArticles` ends normally and leaves each container holding the cards of
its response and nothing else, one card per article in the order of the list:
the markup of the container is the markup of the cards before the `k`-th, the
card of the `k`-th article, and the cards after it. The markup of a card is
the fixed text of its template with the article's `html_url` as the `href` of
both links, the title as the image's `alt` and as the text of the title link,
and, between the opening tag of the title link and the title, the star glyph
if the article is promoted and nothing otherwise. The glyph holds the class
`icon-star`; the text of the plain card holds it nowhere. -/
theorem insertAllArticles_cards (allArticlesElements : List SeeAllArticles)
    (allArticleObj : List SectionArticles)
    (hsibling : ∀ e ∈ allArticlesElements, e.previousElementSibling.isSome)
    (hlen : allArticlesElements.length ≤ allArticleObj.length)
    (hcount : ∀ o ∈ allArticleObj, o.count = o.articles.length) :
    (insertAllArticles allArticlesElements allArticleObj).completion = .normal ∧
    (insertAllArticles allArticlesElements allArticleObj).state =
      List.zipWith (fun e o => withCards e o.articles) allArticlesElements allArticleObj ∧
    (∀ (i : Nat) (e : SeeAllArticles) (o : SectionArticles),
      allArticlesElements[i]? = some e → allArticleObj[i]? = some o →
      (insertAllArticles allArticlesElements allArticleObj).state[i]? =
        some { href := e.href,
               previousElementSibling :=
                 some { innerHTML := String.join (o.articles.map articleHTML) } } ∧
      ∀ (k : Nat) (a : Article), o.articles[k]? = some a →
        String.join (o.articles.map articleHTML) =
          String.join ((o.articles.take k).map articleHTML) ++ articleHTML a ++
            String.join ((o.articles.drop (k + 1)).map articleHTML)) ∧
    (∀ a : Article,
      articleHTML a =
        (if a.promoted then
          "\n          <div class=\"category-card\">\n          \t<a href=\""
          else "\n          <div class=\"category-card\">\n            <a href=\"") ++
        a.html_url ++
        "\" class=\"article-image-link\">\n              <img src=\"https://phrozen3d.com.tw/cdn/shop/files/718KS_1400x1600_01_14b22783-8e9d-4df3-b044-7d390edcb3ec.png?v=1695112910&width=400\" alt=\"" ++
        a.title ++
        "\" class=\"category-article-image\">\n            </a>\n            <a href=\"" ++
        a.html_url ++
        (if a.promoted then
          "\" class=\"article-list-link\">\n              " ++ starSvg ++ "\n              "
          else "\" class=\"article-list-link\">") ++
        a.title ++
        " </a>\n          </div>\n        ") ∧
    includes starSvg "class=\"icon-star\"" = true ∧
    includes (articleHTML { title := "", html_url := "", promoted := true })
      "icon-star" = true ∧
    includes (articleHTML { title := "", html_url := "", promoted := false })
      "icon-star" = false := by
  have h := insertAllArticlesFrom_eq allArticleObj allArticlesElements 0 hsibling
    (by omega) hcount
  unfold insertAllArticles
  rw [h]
  refine ⟨rfl, rfl, ?_, articleHTML_eq, by decide, by decide, by decide⟩
  intro i e o he ho
  constructor
  · simp only [List.drop_zero]
    rw [List.getElem?_zipWith, he, ho]
    rfl
  · intro k a ha
    have hsplit : cardsMarkup o.articles =
        cardsMarkup (o.articles.take k ++ a :: o.articles.drop (k + 1)) :=
      congrArg cardsMarkup (list_split_at o.articles k a ha)
    show cardsMarkup o.articles =
      cardsMarkup (o.articles.take k) ++ articleHTML a ++ cardsMarkup (o.articles.drop (k + 1))
    rw [hsplit, cardsMarkup_append, cardsMarkup_cons, string_append_assoc]

set_option maxRecDepth 1000000 in
/-- C8 at the response with the articles "A" (not promoted) and "B"
(promoted): the container holds the card of "A", then the card of "B", each
written out, and only the card of "B" holds the star. -/
theorem insertAllArticles_cards_witness :
    (insertAllArticles [sampleAnchor] [{ count := 2, articles := [articleA, articleB] }]).completion
      = .normal ∧
    (insertAllArticles [sampleAnchor] [{ count := 2, articles := [articleA, articleB] }]).state
      = [{ href := sampleAnchor.href,
           previousElementSibling :=
             some { innerHTML := articleHTML articleA ++ articleHTML articleB } }] ∧
    articleHTML articleA =
      "\n          <div class=\"category-card\">\n            <a href=\"https://helpcenter.phrozen3d.com/hc/en-us/articles/1\" class=\"article-image-link\">\n              <img src=\"https://phrozen3d.com.tw/cdn/shop/files/718KS_1400x1600_01_14b22783-8e9d-4df3-b044-7d390edcb3ec.png?v=1695112910&width=400\" alt=\"A\" class=\"category-article-image\">\n            </a>\n            <a href=\"https://helpcenter.phrozen3d.com/hc/en-us/articles/1\" class=\"article-list-link\">A </a>\n          </div>\n        " ∧
    articleHTML articleB =
      "\n          <div class=\"category-card\">\n          \t<a href=\"https://helpcenter.phrozen3d.com/hc/en-us/articles/2\" class=\"article-image-link\">\n              <img src=\"https://phrozen3d.com.tw/cdn/shop/files/718KS_1400x1600_01_14b22783-8e9d-4df3-b044-7d390edcb3ec.png?v=1695112910&width=400\" alt=\"B\" class=\"category-article-image\">\n            </a>\n            <a href=\"https://helpcenter.phrozen3d.com/hc/en-us/articles/2\" class=\"article-list-link\">\n              " ++
        starSvg ++ "\n              B </a>\n          </div>\n        " ∧
    includes (articleHTML articleA) "icon-star" = false ∧
    includes (articleHTML articleB) "icon-star" = true := by
  have h := insertAllArticles_cards [sampleAnchor]
    [{ count := 2, articles := [articleA, articleB] }]
    (by decide) (by decide) (by decide)
  refine ⟨h.1, ?_, by decide, ?_, by decide, by decide⟩
  · rw [h.2.1]
    simp [withCards, cardsMarkup, string_join_cons, String.join, string_append_empty]
  · rw [h.2.2.2.1 articleB]
    decide

/-- C9, where the code departs from it: when `count` exceeds the number of
articles of the response (a paginated response), `insertAllArticles` clears the
container, appends one card per returned article and then raises a `TypeError`
on the missing article; the anchors after this one are not reached. -/
theorem insertAllArticles_count_exceeds (element : SeeAllArticles)
    (rest : List SeeAllArticles) (cardsSection : CardsSection)
    (obj : SectionArticles) (others : List SectionArticles)
    (hsibling : element.previousElementSibling = some cardsSection)
    (hcount : obj.articles.length < obj.count) :
    (insertAllArticles (element :: rest) (obj :: others)).completion = .throw .typeError ∧
    (insertAllArticles (element :: rest) (obj :: others)).state
      = withCards element obj.articles :: rest := by
  have hnot : ¬ obj.count ≤ obj.articles.length := by omega
  have htake : obj.articles.take obj.count = obj.articles :=
    List.take_of_length_le (by omega)
  simp [insertAllArticles, insertAllArticlesFrom, insertSectionArticles_eq element cardsSection
    obj hsibling, hnot, htake]

/-- C9 at a response with `count` 2 and one article: the card of the article is
written, then the loop raises, and the second anchor keeps its old cards. -/
theorem insertAllArticles_count_exceeds_witness :
    sampleAnchor.previousElementSibling
      = some { innerHTML := "<div class=\"category-card\"></div>" } ∧
    [articleA].length < 2 ∧
    (insertAllArticles [sampleAnchor, sampleAnchor]
      [{ count := 2, articles := [articleA] }, { count := 1, articles := [articleB] }]).completion
      = .throw .typeError ∧
    (insertAllArticles [sampleAnchor, sampleAnchor]
      [{ count := 2, articles := [articleA] }, { count := 1, articles := [articleB] }]).state
      = [withCards sampleAnchor [articleA], sampleAnchor] :=
  ⟨rfl, by decide,
    insertAllArticles_count_exceeds sampleAnchor [sampleAnchor] _
      { count := 2, articles := [articleA] } [{ count := 1, articles := [articleB] }]
      rfl (by decide)⟩

/-- C10, where the code departs from it: "constructor" is not a key of the
English image table, yet for a title link whose trimmed content is
"constructor" the `src` written is the member every object inherits under that
name, not the fallback URL. -/
theorem setCategoryCardImage_inherited_title :
    (articleCardImages.get (substr02 "en-US")).bind (getOwn "constructor") = none ∧
    (setCategoryCardImage "en-US" [{ src := .own placeholderImage }]
      [{ innerHTML := "constructor " }]).completion = .normal ∧
    (setCategoryCardImage "en-US" [{ src := .own placeholderImage }]
      [{ innerHTML := "constructor " }]).state = [{ src := .inherited "constructor" }] ∧
    (setCategoryCardImage "en-US" [{ src := .own placeholderImage }]
      [{ innerHTML := "constructor " }]).state ≠ [{ src := .own fallbackImage }] := by
  decide

/-! ## Thumbnail backfill -/

/-- No inherited member has a name as short as a language key, so a lookup by
language key finds own entries only. -/
theorem objectPrototypeKeys_long : ∀ k ∈ objectPrototypeKeys, 2 < k.data.length := by
  decide

/-- Every thumbnail URL of the table is a non-empty string. -/
theorem articleCardImages_truthy :
    ∀ table ∈ articleCardImages.en.toList ++ articleCardImages.zh.toList,
      ∀ e ∈ table, e.2 ≠ "" := by
  decide

theorem articleCardImages_get_truthy (currentLang : LangCode) (table : List (String × String))
    (htable : articleCardImages.get currentLang = some table) (key url : String)
    (hurl : getOwn key table = some url) : url ≠ "" := by
  have hmem : table ∈ articleCardImages.en.toList ++ articleCardImages.zh.toList := by
    unfold PerLang.get at htable
    split at htable
    · simp [htable]
    · split at htable
      · simp [htable]
      · simp at htable
  exact articleCardImages_truthy table hmem (key, url) (getOwn_mem key table url hurl)

/-- The loop from index `i` leaves the images before `i` alone. -/
theorem setCategoryCardImageFrom_before (currentLang : LangCode) (links : List TitleLink)
    (i : Nat) (images : List Img) (m : Nat) (hm : m < i) :
    (setCategoryCardImageFrom currentLang i links images).state[m]? = images[m]? := by
  induction links generalizing i images with
  | nil => simp [setCategoryCardImageFrom]
  | cons link rest ih =>
    unfold setCategoryCardImageFrom
    split
    · rw [ih (i + 1) _ (by omega), List.getElem?_set_ne (by omega)]
    · rfl

/-- The loop from index `i` writes, for the `k`-th link that is left, the image
at index `i + k`. -/
theorem setCategoryCardImageFrom_at (currentLang : LangCode) (table : List (String × String))
    (htable : articleCardImages.get currentLang = some table)
    (links : List TitleLink) (i : Nat) (images : List Img) (k : Nat) (link : TitleLink)
    (hlink : links[k]? = some link) (himage : i + k < images.length) :
    (setCategoryCardImageFrom currentLang i links images).state[i + k]? =
      some { src := (getProp table (trim link.innerHTML)).orElse fallbackImage } := by
  induction links generalizing i images k with
  | nil => simp at hlink
  | cons first rest ih =>
    have hi : i < images.length := by omega
    unfold setCategoryCardImageFrom
    simp only [htable, List.getElem?_eq_getElem hi]
    cases k with
    | zero =>
      simp only [List.getElem?_cons_zero, Option.some.injEq] at hlink
      subst hlink
      have hb := setCategoryCardImageFrom_before currentLang rest (i + 1)
        (images.set i { src := (getProp table (trim first.innerHTML)).orElse fallbackImage })
        i (by omega)
      simp only [Nat.add_zero]
      rw [hb]
      simp [hi]
    | succ k =>
      simp only [List.getElem?_cons_succ] at hlink
      have := ih (i + 1) (images.set i
        { src := (getProp table (trim first.innerHTML)).orElse fallbackImage }) k hlink
        (by simp only [List.length_set]; omega)
      rw [show i + (k + 1) = i + 1 + k by omega]
      exact this

/-- Thumbnail backfill, with the inherited members accounted for. On a page
whose language prefix selects a table of `articleCardImages` (en or zh), every
title link that has an image at its own index gets that image's `src` set: to
the table's URL when the link's trimmed content `t` is a key of the table, to
the fallback URL when `t` is neither a key nor the name of a member inherited
from `Object.prototype`, and to that inherited member otherwise. -/
theorem setCategoryCardImage_src (lang : String) (table : List (String × String))
    (categoryArticleImage : List Img) (articleListLinkContents : List TitleLink)
    (k : Nat) (link : TitleLink)
    (htable : articleCardImages.get (substr02 lang) = some table)
    (hlink : articleListLinkContents[k]? = some link)
    (himage : k < categoryArticleImage.length) :
    ∃ image,
      (setCategoryCardImage lang categoryArticleImage articleListLinkContents).state[k]?
        = some image ∧
      (∀ url, getOwn (trim link.innerHTML) table = some url → image.src = .own url) ∧
      (getOwn (trim link.innerHTML) table = none →
        trim link.innerHTML ∉ objectPrototypeKeys → image.src = .own fallbackImage) ∧
      (getOwn (trim link.innerHTML) table = none →
        trim link.innerHTML ∈ objectPrototypeKeys →
          image.src = .inherited (trim link.innerHTML)) := by
  have h := setCategoryCardImageFrom_at (substr02 lang) table htable articleListLinkContents 0
    categoryArticleImage k link hlink (by omega)
  rw [Nat.zero_add] at h
  refine ⟨_, h, ?_, ?_, ?_⟩
  · intro url hurl
    have hne := articleCardImages_get_truthy _ table htable _ url hurl
    simp [getProp, hurl, PropValue.orElse, PropValue.truthy, hne]
  · intro hnone hnot
    simp [getProp, hnone, hnot, PropValue.orElse, PropValue.truthy]
  · intro hnone hin
    simp [getProp, hnone, hin, PropValue.orElse, PropValue.truthy]

/-- The backfill on an English page with the cards of a listed article and of
an unlisted one: the table's URL and the fallback URL. -/
theorem setCategoryCardImage_src_witness :
    (setCategoryCardImage "en-US"
      [{ src := .own placeholderImage }, { src := .own placeholderImage }]
      [{ innerHTML := "[Sonic Mini] Replacing the LED " },
       { innerHTML := "Unlisted article " }]).state =
      [{ src := .own "https://helpcenter.phrozen3d.com/hc/article_attachments/29846520895769" },
       { src := .own fallbackImage }] ∧
    ∃ table, articleCardImages.get (substr02 "en-US") = some table ∧
      ∃ image,
        (setCategoryCardImage "en-US"
          [{ src := .own placeholderImage }, { src := .own placeholderImage }]
          [{ innerHTML := "[Sonic Mini] Replacing the LED " },
           { innerHTML := "Unlisted article " }]).state[1]? = some image ∧
        (∀ url, getOwn (trim "Unlisted article ") table = some url → image.src = .own url) ∧
        (getOwn (trim "Unlisted article ") table = none →
          trim "Unlisted article " ∉ objectPrototypeKeys → image.src = .own fallbackImage) ∧
        (getOwn (trim "Unlisted article ") table = none →
          trim "Unlisted article " ∈ objectPrototypeKeys →
            image.src = .inherited (trim "Unlisted article ")) :=
  ⟨by decide, _, rfl,
    setCategoryCardImage_src "en-US" _ _ _ 1 { innerHTML := "Unlisted article " } rfl rfl
      (by decide)⟩

/-- The cards one response leaves. For an anchor with a card container,
`insertAllArticles` clears the container and leaves the cards of the first
`count` articles of the response, that is `min count articles.length` cards in
list order; it ends normally when `count` is at most the number of articles and
raises a `TypeError` otherwise. -/
theorem insertAllArticles_card_count (element : SeeAllArticles) (cardsSection : CardsSection)
    (obj : SectionArticles)
    (hsibling : element.previousElementSibling = some cardsSection) :
    (insertAllArticles [element] [obj]).state = [withCards element (obj.articles.take obj.count)] ∧
    (obj.articles.take obj.count).length = min obj.count obj.articles.length ∧
    ((insertAllArticles [element] [obj]).completion = .normal ↔
      obj.count ≤ obj.articles.length) ∧
    ((insertAllArticles [element] [obj]).completion = .throw .typeError ↔
      obj.articles.length < obj.count) := by
  have h := insertSectionArticles_eq element cardsSection obj hsibling
  by_cases hc : obj.count ≤ obj.articles.length
  · have hlt : ¬ obj.articles.length < obj.count := by omega
    simp [insertAllArticles, insertAllArticlesFrom, h, hc, hlt]
  · have hlt : obj.articles.length < obj.count := by omega
    simp [insertAllArticles, insertAllArticlesFrom, h, hc, hlt]

/-- The cards of a response that reports fewer articles than it lists: with
`count` 1 and the articles "A" and "B", only the card of "A" is written. -/
theorem insertAllArticles_card_count_witness :
    sampleAnchor.previousElementSibling
      = some { innerHTML := "<div class=\"category-card\"></div>" } ∧
    (insertAllArticles [sampleAnchor] [{ count := 1, articles := [articleA, articleB] }]).state
      = [withCards sampleAnchor [articleA]] ∧
    (insertAllArticles [sampleAnchor]
      [{ count := 1, articles := [articleA, articleB] }]).completion = .normal :=
  ⟨rfl,
    (insertAllArticles_card_count sampleAnchor _
      { count := 1, articles := [articleA, articleB] } rfl).1,
    (insertAllArticles_card_count sampleAnchor _
      { count := 1, articles := [articleA, articleB] } rfl).2.2.1.mpr (by decide)⟩

theorem insertAllArticlesFrom_at (allArticleObj : List SectionArticles)
    (elements : List SeeAllArticles) (i k : Nat) (element : SeeAllArticles)
    (obj : SectionArticles)
    (helement : elements[k]? = some element) (hobj : allArticleObj[i + k]? = some obj)
    (hsibling : element.previousElementSibling.isSome)
    (hbefore : ∀ m < k, ∃ e o, elements[m]? = some e ∧ e.previousElementSibling.isSome ∧
      allArticleObj[i + m]? = some o ∧ o.count ≤ o.articles.length) :
    (insertAllArticlesFrom allArticleObj i elements).state[k]? =
      some (withCards element (obj.articles.take obj.count)) := by
  induction elements generalizing i k with
  | nil => simp at helement
  | cons first rest ih =>
    unfold insertAllArticlesFrom
    cases k with
    | zero =>
      simp only [List.getElem?_cons_zero, Option.some.injEq] at helement
      subst helement
      obtain ⟨c, hc⟩ := Option.isSome_iff_exists.mp hsibling
      rw [Nat.add_zero] at hobj
      simp only [hobj, insertSectionArticles_eq first c obj hc]
      split <;> simp
    | succ k =>
      obtain ⟨e0, o0, he0, hs0, ho0, hc0⟩ := hbefore 0 (Nat.succ_pos k)
      simp only [List.getElem?_cons_zero, Option.some.injEq] at he0
      subst he0
      obtain ⟨c, hc⟩ := Option.isSome_iff_exists.mp hs0
      rw [Nat.add_zero] at ho0
      rw [ho0, insertSectionArticles_eq first c o0 hc]
      simp only [hc0, if_true, List.getElem?_cons_succ]
      apply ih (i + 1) k
      · simpa using helement
      · rw [show i + 1 + k = i + (k + 1) by omega]; exact hobj
      · intro m hm
        obtain ⟨e, o, he, hs, ho, hcount⟩ := hbefore (m + 1) (by omega)
        refine ⟨e, o, by simpa using he, hs, ?_, hcount⟩
        rw [show i + 1 + m = i + (m + 1) by omega]; exact ho

/-- Cards of one anchor among several. When the rounds of the anchors before
the `k`-th end normally (each has a card container and a response whose `count`
is at most its number of articles), `insertAllArticles` leaves the container of
the `k`-th anchor holding the cards of the first `count` articles of the `k`-th
response, in list order, whatever happens at the anchors after it. -/
theorem insertAllArticles_at (allArticlesElements : List SeeAllArticles)
    (allArticleObj : List SectionArticles) (k : Nat) (element : SeeAllArticles)
    (obj : SectionArticles)
    (helement : allArticlesElements[k]? = some element) (hobj : allArticleObj[k]? = some obj)
    (hsibling : element.previousElementSibling.isSome)
    (hbefore : ∀ m < k, ∃ e o, allArticlesElements[m]? = some e ∧
      e.previousElementSibling.isSome ∧ allArticleObj[m]? = some o ∧
      o.count ≤ o.articles.length) :
    (insertAllArticles allArticlesElements allArticleObj).state[k]? =
      some (withCards element (obj.articles.take obj.count)) := by
  unfold insertAllArticles
  apply insertAllArticlesFrom_at allArticleObj allArticlesElements 0 k element obj helement
    (by rw [Nat.zero_add]; exact hobj) hsibling
  intro m hm
  obtain ⟨e, o, he, hs, ho, hc⟩ := hbefore m hm
  exact ⟨e, o, he, hs, by rw [Nat.zero_add]; exact ho, hc⟩

/-- The second of three anchors, where the third response is paginated: the
second container holds the card of "B". -/
theorem insertAllArticles_at_witness :
    (insertAllArticles [sampleAnchor, sampleAnchor, sampleAnchor]
      [{ count := 1, articles := [articleA] }, { count := 1, articles := [articleB] },
       { count := 5, articles := [articleA] }]).state[1]?
      = some (withCards sampleAnchor [articleB]) :=
  insertAllArticles_at [sampleAnchor, sampleAnchor, sampleAnchor]
    [{ count := 1, articles := [articleA] }, { count := 1, articles := [articleB] },
     { count := 5, articles := [articleA] }] 1 sampleAnchor
    { count := 1, articles := [articleB] } rfl rfl rfl
    (fun m hm => by
      have hm0 : m = 0 := by omega
      subst hm0
      exact ⟨sampleAnchor, { count := 1, articles := [articleA] }, rfl, rfl, rfl, by decide⟩)

/-! ## FAQ rendering -/

/-- C16. On a page with a `.machine-content` container, for every category
name that is a key of `FaqsContents[lang]`, where `lang` is the first two
characters of the page language, `renderFaqContent` ends normally, discards
whatever the container held and leaves it with exactly one child, a `div`
whose markup is `FaqsContents[lang][categoryName]`. -/
theorem renderFaqContent_spec (categoryName : String) (d : CategoryDocument)
    (old : List Child) (table : List (String × String)) (prose : String)
    (hcontainer : d.machineContent = some old)
    (htable : FaqsContents.get (substr02 d.page.lang) = some table)
    (hkey : getOwn categoryName table = some prose) :
    (renderFaqContent categoryName d).completion = .normal ∧
    (renderFaqContent categoryName d).state.machineContent
      = some [{ tagName := "div", innerHTML := .own prose }] ∧
    (renderFaqContent categoryName d).state.page = d.page := by
  simp [renderFaqContent, hcontainer, htable, getProp, hkey]

/-- C16 at the excluded category "Software" on an English page whose container
holds two children. -/
theorem renderFaqContent_spec_witness :
    "Software" ∈ excludedCategories ∧
    ∃ table prose, FaqsContents.get (substr02 "en-US") = some table ∧
      getOwn "Software" table = some prose ∧
      (renderFaqContent "Software"
        { page := categoryPage "en-US",
          machineContent := some [{ tagName := "h2", innerHTML := .own "Warranty" },
                                  { tagName := "ul", innerHTML := .own "" }] }).completion
        = .normal ∧
      (renderFaqContent "Software"
        { page := categoryPage "en-US",
          machineContent := some [{ tagName := "h2", innerHTML := .own "Warranty" },
                                  { tagName := "ul", innerHTML := .own "" }] }).state.machineContent
        = some [{ tagName := "div", innerHTML := .own prose }] ∧
      (renderFaqContent "Software"
        { page := categoryPage "en-US",
          machineContent := some [{ tagName := "h2", innerHTML := .own "Warranty" },
                                  { tagName := "ul", innerHTML := .own "" }] }).state.page
        = categoryPage "en-US" :=
  ⟨by decide, _, _, rfl, rfl,
    renderFaqContent_spec "Software"
      { page := categoryPage "en-US",
        machineContent := some [{ tagName := "h2", innerHTML := .own "Warranty" },
                                { tagName := "ul", innerHTML := .own "" }] }
      _ _ _ rfl rfl rfl⟩

/-! ## Shapes of the `resin` field -/

theorem categoryMachinesInfo_keys_nodup : (categoryMachinesInfo.map (fun e => e.1)).Nodup := by
  decide

theorem categoryMachinesInfo_resin_direct :
    ∀ e ∈ categoryMachinesInfo, e.1 ≠ "Transform_&amp;_Shuffle_Series" →
      e.2.resin.isDirect = true := by
  decide

/-- With a direct `resin` map `bindMachineLink` takes the one-link branch: no
resin link after the first is assigned. -/
theorem bindMachineLink_direct_rest (record : MachineRecord) (p : Page)
    (h : record.resin.isDirect = true) :
    (bindMachineLink (.own record) p).state.machineResinLinks.drop 1
      = p.machineResinLinks.drop 1 := by
  cases hr : record.resin with
  | variants t s => rw [hr] at h; simp [Resin.isDirect] at h
  | direct urls =>
    unfold bindMachineLink
    simp only [hr]
    repeat' split
    all_goals first | rfl | simp_all

/-- C20. Exactly one record of `categoryMachinesInfo` has two resin
sub-variants: the keys of the table are distinct, the record keyed
"Transform_&amp;_Shuffle_Series" is the only one whose `resin` has the
`Transform` and `Shuffle_Series` entries, each with en and zh URLs, and the
`resin` of every other record is a direct map with en and zh entries. So
`bindMachineLink` assigns a second resin link for that record (the
`Shuffle_Series` URL) and for no other record on any page. -/
theorem categoryMachinesInfo_resin_shapes :
    (categoryMachinesInfo.map (fun e => e.1)).Nodup ∧
    (categoryMachinesInfo.filter (fun e => e.2.resin.isTwoVariants)).map (fun e => e.1)
      = ["Transform_&amp;_Shuffle_Series"] ∧
    (∀ e ∈ categoryMachinesInfo, e.1 ≠ "Transform_&amp;_Shuffle_Series" →
      e.2.resin.isDirect = true ∧
      ∀ p : Page, (bindMachineLink (.own e.2) p).state.machineResinLinks.drop 1
        = p.machineResinLinks.drop 1) ∧
    (∀ e ∈ categoryMachinesInfo, e.1 = "Transform_&amp;_Shuffle_Series" →
      ∀ (p : Page) (manualLink first second : Link) (others : List Link),
        p.machineManualLink = some manualLink →
        p.machineResinLinks = first :: second :: others →
        ∃ transform shuffleSeries : PerLang String,
          e.2.resin = .variants (some transform) (some shuffleSeries) ∧
          (bindMachineLink (.own e.2) p).state.machineResinLinks =
            { href := transform.get (substr02 p.lang) } ::
              { href := shuffleSeries.get (substr02 p.lang) } :: others) := by
  refine ⟨categoryMachinesInfo_keys_nodup, by decide, ?_, ?_⟩
  · intro e he hne
    have hd := categoryMachinesInfo_resin_direct e he hne
    exact ⟨hd, fun p => bindMachineLink_direct_rest e.2 p hd⟩
  · intro e he hkey p manualLink first second others hmanual hlinks
    have hresin := categoryMachinesInfo_variants e he hkey
    refine ⟨_, _, hresin, ?_⟩
    simp [bindMachineLink, hmanual, hresin, hlinks]

/-- C20 on the sample pages: for the record keyed "Sonic_Mini_8K" the second
resin link keeps its `href`; for the record keyed
"Transform_&amp;_Shuffle_Series" it gets the Shuffle URL. -/
theorem categoryMachinesInfo_resin_shapes_witness :
    (∃ record, findMachineInfo categoryMachinesInfo "Sonic_Mini_8K" = .own record ∧
      (bindMachineLink (.own record) (categoryPage "en-US")).state.machineResinLinks.drop 1
        = [{ href := some "#" }]) ∧
    (∃ record,
      findMachineInfo categoryMachinesInfo "Transform_&amp;_Shuffle_Series" = .own record ∧
      (bindMachineLink (.own record) (categoryPage "en-US")).state.machineResinLinks.drop 1
        = [{ href := some "https://phrozen3d.com/pages/resin-shuffle-4k" }]) := by
  refine ⟨⟨_, rfl, ?_⟩, ⟨_, rfl, by decide⟩⟩
  exact (categoryMachinesInfo_resin_shapes.2.2.1 _
    (getProp_own_mem categoryMachinesInfo "Sonic_Mini_8K" _ rfl) (by decide)).2
    (categoryPage "en-US")

/-! ## The collapse toggles -/

theorem classListRemove_open (classes : List String) (h : "open" ∉ classes) :
    classListRemove "open" (classes ++ ["open"]) = classes := by
  unfold classListRemove
  rw [List.filter_append]
  have h1 : classes.filter (fun c => decide (c ≠ "open")) = classes := by
    apply List.filter_eq_self.mpr
    intro c hc
    have : c ≠ "open" := fun e => h (e ▸ hc)
    simpa using this
  rw [h1]
  simp

theorem clickWarrantyBtn_closed (p : Page) (label : String) (classes : List String) (h : Nat)
    (list : List Li) (hlist : p.warrantyList = some list) (hopen : "open" ∉ classes) :
    clickWarrantyBtn h (warrantyClosed p label [.warrantyToggle] classes)
      = warrantyOpen p h [.warrantyToggle] classes := by
  simp [clickWarrantyBtn, warrantyClosed, warrantyOpen, runClickListener, collapseClick,
    hopen, classListAdd, hlist]

theorem clickWarrantyBtn_open (p : Page) (classes : List String) (h0 h : Nat)
    (hopen : "open" ∉ classes) :
    clickWarrantyBtn h (warrantyOpen p h0 [.warrantyToggle] classes)
      = warrantyClosed p "+" [.warrantyToggle] classes := by
  simp [clickWarrantyBtn, warrantyClosed, warrantyOpen, runClickListener, collapseClick,
    classListRemove_open classes hopen]

/-- The state after a run of clicks, from a closed and from an open wrapper. -/
theorem clicksWarrantyBtn_eq (p : Page) (classes : List String) (list : List Li)
    (hlist : p.warrantyList = some list) (hopen : "open" ∉ classes) (hs : List Nat) :
    (∀ label, clicksWarrantyBtn hs (warrantyClosed p label [.warrantyToggle] classes) =
      if hs.length % 2 = 1 then warrantyOpen p (hs.getLastD 0) [.warrantyToggle] classes
      else warrantyClosed p (if hs = [] then label else "+") [.warrantyToggle] classes) ∧
    (∀ h0, clicksWarrantyBtn hs (warrantyOpen p h0 [.warrantyToggle] classes) =
      if hs.length % 2 = 1 then warrantyClosed p "+" [.warrantyToggle] classes
      else warrantyOpen p (hs.getLastD h0) [.warrantyToggle] classes) := by
  induction hs with
  | nil => simp [clicksWarrantyBtn]
  | cons h t ih =>
    constructor
    · intro label
      have e : clicksWarrantyBtn (h :: t) (warrantyClosed p label [.warrantyToggle] classes)
          = clicksWarrantyBtn t (warrantyOpen p h [.warrantyToggle] classes) := by
        simp [clicksWarrantyBtn, clickWarrantyBtn_closed p label classes h list hlist hopen]
      rw [e, ih.2 h]
      by_cases ht : t.length % 2 = 1
      · have hl : ¬ (h :: t).length % 2 = 1 := by
          simp only [List.length_cons]; omega
        have hne : ¬ (h :: t) = [] := by simp
        rw [if_pos ht, if_neg hl, if_neg hne]
      · have hl : (h :: t).length % 2 = 1 := by
          simp only [List.length_cons]; omega
        have hlast : (h :: t).getLastD 0 = t.getLastD h := by
          cases t <;> simp [List.getLastD]
        rw [if_neg ht, if_pos hl, hlast]
    · intro h0
      have e : clicksWarrantyBtn (h :: t) (warrantyOpen p h0 [.warrantyToggle] classes)
          = clicksWarrantyBtn t (warrantyClosed p "+" [.warrantyToggle] classes) := by
        simp [clicksWarrantyBtn, clickWarrantyBtn_open p classes h0 h hopen]
      rw [e, ih.1 "+"]
      by_cases ht : t.length % 2 = 1
      · have hl : ¬ (h :: t).length % 2 = 1 := by
          simp only [List.length_cons]; omega
        have hne : t ≠ [] := by intro e0; simp [e0] at ht
        have hlast : (h :: t).getLastD h0 = t.getLastD 0 := by
          cases t with
          | nil => exact absurd rfl hne
          | cons a u => simp [List.getLastD]
        rw [if_pos ht, if_neg hl, hlast]
      · have hl : (h :: t).length % 2 = 1 := by
          simp only [List.length_cons]; omega
        rw [if_neg ht, if_pos hl]
        simp

theorem machineWarrantyBtnCollapse_eq (machineObj : PropValue MachineRecord) (p : Page)
    (btn : Button) (wrapper : Wrapper)
    (hbtn : p.warrantyBtn = some btn) (hnone : btn.clickListeners = [])
    (hwrapper : p.warrantyWrapper = some wrapper) :
    machineWarrantyBtnCollapse machineObj p =
      ⟨warrantyClosed p btn.innerHTML [.warrantyToggle] wrapper.classList, .normal⟩ := by
  simp [machineWarrantyBtnCollapse, hbtn, hwrapper, hnone, warrantyClosed]

/-- The warranty toggle after a non-empty run of clicks, and after two more. -/
theorem warrantyToggle_clicks (machineObj : PropValue MachineRecord) (p : Page)
    (btn : Button) (wrapper : Wrapper) (hs : List Nat) (h1 h2 : Nat)
    (hbtn : p.warrantyBtn = some btn) (hnone : btn.clickListeners = [])
    (hwrapper : p.warrantyWrapper = some wrapper) (hclosed : wrapper.isOpen = false)
    (hlists : p.warrantyList.isSome) (hn : hs ≠ []) :
    ∃ b w b2 w2,
      (clicksWarrantyBtn hs (machineWarrantyBtnCollapse machineObj p).state).warrantyBtn
        = some b ∧
      (clicksWarrantyBtn hs (machineWarrantyBtnCollapse machineObj p).state).warrantyWrapper
        = some w ∧
      (w.isOpen = true ↔ hs.length % 2 = 1) ∧
      b.innerHTML = (if w.isOpen then "-" else "+") ∧
      w.height = (if w.isOpen then toString (hs.getLastD 0) ++ "px" else "0") ∧
      (clicksWarrantyBtn (hs ++ [h1, h2])
        (machineWarrantyBtnCollapse machineObj p).state).warrantyBtn = some b2 ∧
      (clicksWarrantyBtn (hs ++ [h1, h2])
        (machineWarrantyBtnCollapse machineObj p).state).warrantyWrapper = some w2 ∧
      b2 = b ∧ w2.isOpen = w.isOpen ∧ w2.classList = w.classList ∧
      (w.isOpen = false ∨ h2 = hs.getLastD 0 → w2 = w) := by
  have hopen : "open" ∉ wrapper.classList := by
    simpa [Wrapper.isOpen] using hclosed
  have hopen2 : "open" ∈ wrapper.classList ++ ["open"] := by simp
  rw [machineWarrantyBtnCollapse_eq machineObj p btn wrapper hbtn hnone hwrapper]
  simp only
  obtain ⟨list, hlist⟩ := Option.isSome_iff_exists.mp hlists
  rw [(clicksWarrantyBtn_eq p wrapper.classList list hlist hopen hs).1 btn.innerHTML,
    (clicksWarrantyBtn_eq p wrapper.classList list hlist hopen (hs ++ [h1, h2])).1 btn.innerHTML]
  have hne2 : ¬ (hs ++ [h1, h2]) = [] := by simp
  have hlen2 : (hs ++ [h1, h2]).length % 2 = hs.length % 2 := by
    simp only [List.length_append, List.length_cons, List.length_nil]; omega
  have hlast2 : (hs ++ [h1, h2]).getLastD 0 = h2 := by
    rw [List.getLastD_eq_getLast?]
    simp
  rw [hlen2, hlast2, if_neg hn, if_neg hne2]
  by_cases hodd : hs.length % 2 = 1
  · rw [if_pos hodd, if_pos hodd]
    refine ⟨_, _, _, _, rfl, rfl, ?_, ?_, ?_, rfl, rfl, rfl, ?_, ?_, ?_⟩
    · simp [Wrapper.isOpen, hodd]
    · simp [Wrapper.isOpen]
    · simp [Wrapper.isOpen]
    · simp [Wrapper.isOpen]
    · rfl
    · intro h
      rcases h with h | h
      · simp [Wrapper.isOpen] at h
      · rw [h]
  · rw [if_neg hodd, if_neg hodd]
    refine ⟨_, _, _, _, rfl, rfl, ?_, ?_, ?_, rfl, rfl, rfl, ?_, ?_, ?_⟩
    · simp [Wrapper.isOpen, hopen, hodd]
    · simp [Wrapper.isOpen, hopen]
    · simp [Wrapper.isOpen, hopen]
    · rfl
    · rfl
    · intro _; rfl

theorem clickSpecsBtn_closed (p : Page) (label : String) (classes : List String) (h : Nat)
    (list : List Li) (hlist : p.specsList = some list) (hopen : "open" ∉ classes) :
    clickSpecsBtn h (specsClosed p label [.specsToggle] classes)
      = specsOpen p h [.specsToggle] classes := by
  simp [clickSpecsBtn, specsClosed, specsOpen, runClickListener, collapseClick,
    hopen, classListAdd, hlist]

theorem clickSpecsBtn_open (p : Page) (classes : List String) (h0 h : Nat)
    (hopen : "open" ∉ classes) :
    clickSpecsBtn h (specsOpen p h0 [.specsToggle] classes)
      = specsClosed p "+" [.specsToggle] classes := by
  simp [clickSpecsBtn, specsClosed, specsOpen, runClickListener, collapseClick,
    classListRemove_open classes hopen]

/-- The state after a run of clicks, from a closed and from an open wrapper. -/
theorem clicksSpecsBtn_eq (p : Page) (classes : List String) (list : List Li)
    (hlist : p.specsList = some list) (hopen : "open" ∉ classes) (hs : List Nat) :
    (∀ label, clicksSpecsBtn hs (specsClosed p label [.specsToggle] classes) =
      if hs.length % 2 = 1 then specsOpen p (hs.getLastD 0) [.specsToggle] classes
      else specsClosed p (if hs = [] then label else "+") [.specsToggle] classes) ∧
    (∀ h0, clicksSpecsBtn hs (specsOpen p h0 [.specsToggle] classes) =
      if hs.length % 2 = 1 then specsClosed p "+" [.specsToggle] classes
      else specsOpen p (hs.getLastD h0) [.specsToggle] classes) := by
  induction hs with
  | nil => simp [clicksSpecsBtn]
  | cons h t ih =>
    constructor
    · intro label
      have e : clicksSpecsBtn (h :: t) (specsClosed p label [.specsToggle] classes)
          = clicksSpecsBtn t (specsOpen p h [.specsToggle] classes) := by
        simp [clicksSpecsBtn, clickSpecsBtn_closed p label classes h list hlist hopen]
      rw [e, ih.2 h]
      by_cases ht : t.length % 2 = 1
      · have hl : ¬ (h :: t).length % 2 = 1 := by
          simp only [List.length_cons]; omega
        have hne : ¬ (h :: t) = [] := by simp
        rw [if_pos ht, if_neg hl, if_neg hne]
      · have hl : (h :: t).length % 2 = 1 := by
          simp only [List.length_cons]; omega
        have hlast : (h :: t).getLastD 0 = t.getLastD h := by
          cases t <;> simp [List.getLastD]
        rw [if_neg ht, if_pos hl, hlast]
    · intro h0
      have e : clicksSpecsBtn (h :: t) (specsOpen p h0 [.specsToggle] classes)
          = clicksSpecsBtn t (specsClosed p "+" [.specsToggle] classes) := by
        simp [clicksSpecsBtn, clickSpecsBtn_open p classes h0 h hopen]
      rw [e, ih.1 "+"]
      by_cases ht : t.length % 2 = 1
      · have hl : ¬ (h :: t).length % 2 = 1 := by
          simp only [List.length_cons]; omega
        have hne : t ≠ [] := by intro e0; simp [e0] at ht
        have hlast : (h :: t).getLastD h0 = t.getLastD 0 := by
          cases t with
          | nil => exact absurd rfl hne
          | cons a u => simp [List.getLastD]
        rw [if_pos ht, if_neg hl, hlast]
      · have hl : (h :: t).length % 2 = 1 := by
          simp only [List.length_cons]; omega
        rw [if_neg ht, if_pos hl]
        simp

theorem machineSpecsBtnCollapse_eq (machineObj : PropValue MachineRecord) (p : Page)
    (btn : Button) (wrapper : Wrapper)
    (hbtn : p.specsBtn = some btn) (hnone : btn.clickListeners = [])
    (hwrapper : p.specsWrapper = some wrapper) :
    machineSpecsBtnCollapse machineObj p =
      ⟨specsClosed p btn.innerHTML [.specsToggle] wrapper.classList, .normal⟩ := by
  simp [machineSpecsBtnCollapse, hbtn, hwrapper, hnone, specsClosed]

/-- The specs toggle after a non-empty run of clicks, and after two more. -/
theorem specsToggle_clicks (machineObj : PropValue MachineRecord) (p : Page)
    (btn : Button) (wrapper : Wrapper) (hs : List Nat) (h1 h2 : Nat)
    (hbtn : p.specsBtn = some btn) (hnone : btn.clickListeners = [])
    (hwrapper : p.specsWrapper = some wrapper) (hclosed : wrapper.isOpen = false)
    (hlists : p.specsList.isSome) (hn : hs ≠ []) :
    ∃ b w b2 w2,
      (clicksSpecsBtn hs (machineSpecsBtnCollapse machineObj p).state).specsBtn
        = some b ∧
      (clicksSpecsBtn hs (machineSpecsBtnCollapse machineObj p).state).specsWrapper
        = some w ∧
      (w.isOpen = true ↔ hs.length % 2 = 1) ∧
      b.innerHTML = (if w.isOpen then "-" else "+") ∧
      w.height = (if w.isOpen then toString (hs.getLastD 0) ++ "px" else "0") ∧
      (clicksSpecsBtn (hs ++ [h1, h2])
        (machineSpecsBtnCollapse machineObj p).state).specsBtn = some b2 ∧
      (clicksSpecsBtn (hs ++ [h1, h2])
        (machineSpecsBtnCollapse machineObj p).state).specsWrapper = some w2 ∧
      b2 = b ∧ w2.isOpen = w.isOpen ∧ w2.classList = w.classList ∧
      (w.isOpen = false ∨ h2 = hs.getLastD 0 → w2 = w) := by
  have hopen : "open" ∉ wrapper.classList := by
    simpa [Wrapper.isOpen] using hclosed
  have hopen2 : "open" ∈ wrapper.classList ++ ["open"] := by simp
  rw [machineSpecsBtnCollapse_eq machineObj p btn wrapper hbtn hnone hwrapper]
  simp only
  obtain ⟨list, hlist⟩ := Option.isSome_iff_exists.mp hlists
  rw [(clicksSpecsBtn_eq p wrapper.classList list hlist hopen hs).1 btn.innerHTML,
    (clicksSpecsBtn_eq p wrapper.classList list hlist hopen (hs ++ [h1, h2])).1 btn.innerHTML]
  have hne2 : ¬ (hs ++ [h1, h2]) = [] := by simp
  have hlen2 : (hs ++ [h1, h2]).length % 2 = hs.length % 2 := by
    simp only [List.length_append, List.length_cons, List.length_nil]; omega
  have hlast2 : (hs ++ [h1, h2]).getLastD 0 = h2 := by
    rw [List.getLastD_eq_getLast?]
    simp
  rw [hlen2, hlast2, if_neg hn, if_neg hne2]
  by_cases hodd : hs.length % 2 = 1
  · rw [if_pos hodd, if_pos hodd]
    refine ⟨_, _, _, _, rfl, rfl, ?_, ?_, ?_, rfl, rfl, rfl, ?_, ?_, ?_⟩
    · simp [Wrapper.isOpen, hodd]
    · simp [Wrapper.isOpen]
    · simp [Wrapper.isOpen]
    · simp [Wrapper.isOpen]
    · rfl
    · intro h
      rcases h with h | h
      · simp [Wrapper.isOpen] at h
      · rw [h]
  · rw [if_neg hodd, if_neg hodd]
    refine ⟨_, _, _, _, rfl, rfl, ?_, ?_, ?_, rfl, rfl, rfl, ?_, ?_, ?_⟩
    · simp [Wrapper.isOpen, hopen, hodd]
    · simp [Wrapper.isOpen, hopen]
    · simp [Wrapper.isOpen, hopen]
    · rfl
    · rfl
    · intro _; rfl

/-- C19, as stated, fails: the height is measured anew at every opening. On
the sample page one click at the measured height 100 leaves the warranty
wrapper open and `100px` high; two more clicks, the list measuring 200 at the
second, leave it open with the label `-` and `200px` high, so two consecutive
clicks restore the open flag and the label and not the height. The same holds
for the specs wrapper. -/
theorem collapse_height_remeasured :
    (clicksWarrantyBtn [100]
      (machineWarrantyBtnCollapse .undefined (categoryPage "en-US")).state).warrantyWrapper
      = some { height := "100px", classList := ["open"] } ∧
    (clicksWarrantyBtn [100, 100, 200]
      (machineWarrantyBtnCollapse .undefined (categoryPage "en-US")).state).warrantyWrapper
      = some { height := "200px", classList := ["open"] } ∧
    (clicksWarrantyBtn [100]
      (machineWarrantyBtnCollapse .undefined (categoryPage "en-US")).state).warrantyBtn
      = (clicksWarrantyBtn [100, 100, 200]
        (machineWarrantyBtnCollapse .undefined (categoryPage "en-US")).state).warrantyBtn ∧
    (clicksSpecsBtn [100]
      (machineSpecsBtnCollapse .undefined (categoryPage "en-US")).state).specsWrapper
      = some { height := "100px", classList := ["open"] } ∧
    (clicksSpecsBtn [100, 100, 200]
      (machineSpecsBtnCollapse .undefined (categoryPage "en-US")).state).specsWrapper
      = some { height := "200px", classList := ["open"] } := by
  decide

/-- The listener on a page without the list: the first click writes the label
`-` and the class `open`, then reading `scrollHeight` raises and the height
stays `0`; the second click closes the wrapper again. -/
theorem collapse_click_without_list :
    (runClickListener 100 .warrantyToggle
      (machineWarrantyBtnCollapse .undefined
        { categoryPage "en-US" with warrantyList := none }).state).completion
      = .throw .typeError ∧
    (clicksWarrantyBtn [100]
      (machineWarrantyBtnCollapse .undefined
        { categoryPage "en-US" with warrantyList := none }).state).warrantyWrapper
      = some { height := "0", classList := ["open"] } ∧
    (clicksWarrantyBtn [100]
      (machineWarrantyBtnCollapse .undefined
        { categoryPage "en-US" with warrantyList := none }).state).warrantyBtn
      = some { innerHTML := "-", clickListeners := [.warrantyToggle] } ∧
    (clicksWarrantyBtn [100, 100]
      (machineWarrantyBtnCollapse .undefined
        { categoryPage "en-US" with warrantyList := none }).state).warrantyWrapper
      = some { height := "0", classList := [] } ∧
    (runClickListener 100 .specsToggle
      (machineSpecsBtnCollapse .undefined
        { categoryPage "en-US" with specsList := none }).state).completion
      = .throw .typeError ∧
    (clicksSpecsBtn [100]
      (machineSpecsBtnCollapse .undefined
        { categoryPage "en-US" with specsList := none }).state).specsWrapper
      = some { height := "0", classList := ["open"] } := by
  decide

/-- C19, amended. The warranty and specs collapse controls are two-state
toggles. On a page with the lists, starting from the state
`machineWarrantyBtnCollapse` (`machineSpecsBtnCollapse`) sets up when the
button has no listener yet and the wrapper lacks the class `open`, after a run
of `n >= 1` clicks on the button the wrapper has the class `open` if and only
if `n` is odd, the label is `-` when the wrapper is open and `+` otherwise, and
the height is the scroll height the list measured at the last click, in `px`,
when open and `0` when closed. Two more clicks restore the label, the open flag
and the class list; they restore the height when the wrapper was closed or the
height measured at the second of them is the one measured before. -/
theorem collapse_toggles (machineObj : PropValue MachineRecord) (p : Page)
    (warrantyBtn specsBtn : Button) (warrantyWrapper specsWrapper : Wrapper)
    (hs : List Nat) (h1 h2 : Nat)
    (hwbtn : p.warrantyBtn = some warrantyBtn) (hwnone : warrantyBtn.clickListeners = [])
    (hwwrapper : p.warrantyWrapper = some warrantyWrapper)
    (hwclosed : warrantyWrapper.isOpen = false) (hwlist : p.warrantyList.isSome)
    (hsbtn : p.specsBtn = some specsBtn) (hsnone : specsBtn.clickListeners = [])
    (hswrapper : p.specsWrapper = some specsWrapper)
    (hsclosed : specsWrapper.isOpen = false) (hslist : p.specsList.isSome)
    (hn : hs ≠ []) :
    (∃ b w b2 w2,
      (clicksWarrantyBtn hs (machineWarrantyBtnCollapse machineObj p).state).warrantyBtn
        = some b ∧
      (clicksWarrantyBtn hs (machineWarrantyBtnCollapse machineObj p).state).warrantyWrapper
        = some w ∧
      (w.isOpen = true ↔ hs.length % 2 = 1) ∧
      b.innerHTML = (if w.isOpen then "-" else "+") ∧
      w.height = (if w.isOpen then toString (hs.getLastD 0) ++ "px" else "0") ∧
      (clicksWarrantyBtn (hs ++ [h1, h2])
        (machineWarrantyBtnCollapse machineObj p).state).warrantyBtn = some b2 ∧
      (clicksWarrantyBtn (hs ++ [h1, h2])
        (machineWarrantyBtnCollapse machineObj p).state).warrantyWrapper = some w2 ∧
      b2 = b ∧ w2.isOpen = w.isOpen ∧ w2.classList = w.classList ∧
      (w.isOpen = false ∨ h2 = hs.getLastD 0 → w2 = w)) ∧
    (∃ b w b2 w2,
      (clicksSpecsBtn hs (machineSpecsBtnCollapse machineObj p).state).specsBtn
        = some b ∧
      (clicksSpecsBtn hs (machineSpecsBtnCollapse machineObj p).state).specsWrapper
        = some w ∧
      (w.isOpen = true ↔ hs.length % 2 = 1) ∧
      b.innerHTML = (if w.isOpen then "-" else "+") ∧
      w.height = (if w.isOpen then toString (hs.getLastD 0) ++ "px" else "0") ∧
      (clicksSpecsBtn (hs ++ [h1, h2])
        (machineSpecsBtnCollapse machineObj p).state).specsBtn = some b2 ∧
      (clicksSpecsBtn (hs ++ [h1, h2])
        (machineSpecsBtnCollapse machineObj p).state).specsWrapper = some w2 ∧
      b2 = b ∧ w2.isOpen = w.isOpen ∧ w2.classList = w.classList ∧
      (w.isOpen = false ∨ h2 = hs.getLastD 0 → w2 = w)) :=
  ⟨warrantyToggle_clicks machineObj p warrantyBtn warrantyWrapper hs h1 h2
      hwbtn hwnone hwwrapper hwclosed hwlist hn,
    specsToggle_clicks machineObj p specsBtn specsWrapper hs h1 h2
      hsbtn hsnone hswrapper hsclosed hslist hn⟩

/-- C19 on the sample page after three clicks at the measured height 120: the
wrapper is open, 120px high, the label is `-`; a fourth click closes it. -/
theorem collapse_toggles_witness :
    (clicksWarrantyBtn [120, 120, 120]
      (machineWarrantyBtnCollapse .undefined (categoryPage "en-US")).state).warrantyWrapper
      = some { height := "120px", classList := ["open"] } ∧
    (clicksWarrantyBtn [120, 120, 120]
      (machineWarrantyBtnCollapse .undefined (categoryPage "en-US")).state).warrantyBtn
      = some { innerHTML := "-", clickListeners := [.warrantyToggle] } ∧
    (clicksWarrantyBtn [120, 120, 120, 120]
      (machineWarrantyBtnCollapse .undefined (categoryPage "en-US")).state).warrantyWrapper
      = some { height := "0", classList := [] } ∧
    ∃ b w b2 w2,
      (clicksSpecsBtn [120] (machineSpecsBtnCollapse .undefined
        (categoryPage "en-US")).state).specsBtn = some b ∧
      (clicksSpecsBtn [120] (machineSpecsBtnCollapse .undefined
        (categoryPage "en-US")).state).specsWrapper = some w ∧
      (w.isOpen = true ↔ [120].length % 2 = 1) ∧
      b.innerHTML = (if w.isOpen then "-" else "+") ∧
      w.height = (if w.isOpen then toString ([120].getLastD 0) ++ "px" else "0") ∧
      (clicksSpecsBtn ([120] ++ [120, 120])
        (machineSpecsBtnCollapse .undefined (categoryPage "en-US")).state).specsBtn = some b2 ∧
      (clicksSpecsBtn ([120] ++ [120, 120])
        (machineSpecsBtnCollapse .undefined (categoryPage "en-US")).state).specsWrapper
        = some w2 ∧
      b2 = b ∧ w2.isOpen = w.isOpen ∧ w2.classList = w.classList ∧
      (w.isOpen = false ∨ 120 = [120].getLastD 0 → w2 = w) :=
  ⟨by decide, by decide, by decide,
    (collapse_toggles .undefined (categoryPage "en-US") _ _ _ _ [120] 120 120
      rfl rfl rfl rfl rfl rfl rfl rfl rfl rfl (by decide)).2⟩

/-! ## The request URL -/

theorem lookup_mem {α β : Type} [BEq α] [LawfulBEq α] (a : α) (b : β) (l : List (α × β))
    (h : l.lookup a = some b) : (a, b) ∈ l := by
  induction l with
  | nil => simp at h
  | cons e rest ih =>
    obtain ⟨k, v⟩ := e
    by_cases hk : a == k
    · simp [List.lookup, hk] at h
      have hak : a = k := by simpa using hk
      simp [hak, h]
    · simp [List.lookup, hk] at h
      exact List.mem_cons_of_mem _ (ih h)

/-- A decimal digit is neither white space nor a sign. -/
theorem digitTable_decimal :
    ∀ e ∈ digitTable, e.2 < 10 →
      isWhiteSpace e.1 = false ∧ e.1 ≠ '+' ∧ e.1 ≠ '-' ∧ e.1 ≠ '/' := by
  decide

theorem roundToDouble_safe (n : Nat) (h : n < 2 ^ 53) : roundToDouble n = some n := by
  unfold roundToDouble
  rw [if_pos h]

theorem numberToString_safe (n : Nat) (h : n < 2 ^ 53) :
    numberToString (.finite false n) = toString n := by
  unfold numberToString
  by_cases h0 : n = 0
  · subst h0; rfl
  · simp only [h0, if_false]
    unfold integerToString
    rw [if_pos h]
    rfl

/-- A text that starts with a decimal digit and not with `0x` or `0X` is read by
`parseInt` as the integer its leading decimal digits denote, rounded to a
double. -/
theorem parseInt_decimal (s : String)
    (hdigits : leadingDigits 10 s.data ≠ [])
    (hhex : hexPrefixed s.data = false) :
    parseInt s =
      match roundToDouble (digitsToNat 10 (leadingDigits 10 s.data)) with
      | some v => .finite false v
      | none => .infinity false := by
  cases hs : s.data with
  | nil => rw [hs] at hdigits; simp [leadingDigits] at hdigits
  | cons c cs =>
    rw [hs] at hdigits hhex
    cases hv : digitValue c with
    | none => simp [leadingDigits, hv] at hdigits
    | some v =>
      have hlt : v < 10 := by
        by_contra hge
        simp [leadingDigits, hv, hge] at hdigits
      obtain ⟨hws, hplus, hminus, _⟩ := digitTable_decimal (c, v) (lookup_mem c v _ hv) hlt
      have htrim : trimStartChars (c :: cs) = c :: cs := by
        simp [trimStartChars, List.dropWhile, hws]
      have hsign : stripSign (c :: cs) = c :: cs := by
        simp [stripSign, hplus, hminus]
      have hneg : (decide ((c :: cs).head? = some '-')) = false := by
        simp [hminus]
      simp only [parseInt, hs, htrim, hsign, hhex, hneg]
      simp [hdigits]

/-! ## Fetching the articles -/

/-- The loop of `getAllArticles`: the bodies of the requests that succeeded are
appended in anchor order, and each anchor contributes the steps of its one
request. -/
theorem getAllArticlesFrom_eq (network : Network) (lang : String)
    (elements : List SeeAllArticles) (i : Nat) (acc : List SectionArticles) :
    (getAllArticlesFrom network lang i elements acc).allArticlesArray =
      acc ++ (elements.enumFrom i).filterMap
        (fun p => (network p.1 (allArticlesUrl lang p.2.href)).body?) ∧
    (getAllArticlesFrom network lang i elements acc).events =
      (elements.enumFrom i).flatMap
        (fun p => fetchSteps p.1 (allArticlesUrl lang p.2.href)
          (network p.1 (allArticlesUrl lang p.2.href))) := by
  induction elements generalizing i acc with
  | nil => simp [getAllArticlesFrom]
  | cons element rest ih =>
    cases hnet : network i (allArticlesUrl lang element.href) <;>
      simp [getAllArticlesFrom, hnet, List.enumFrom_cons, ih, fetchSteps, FetchOutcome.body?]

theorem fetchSteps_requests (i : Nat) (url : String) (outcome : FetchOutcome) :
    (fetchSteps i url outcome).filterMap Event.request? = [(i, url)] := by
  cases outcome <;> rfl

theorem fetchSteps_isFetch (i : Nat) (url : String) (outcome : FetchOutcome) :
    ∀ e ∈ fetchSteps i url outcome, e.isFetch = true := by
  cases outcome <;> simp [fetchSteps, Event.isFetch]

theorem flatMap_requests (network : Network) (lang : String)
    (entries : List (Nat × SeeAllArticles)) :
    (entries.flatMap (fun p => fetchSteps p.1 (allArticlesUrl lang p.2.href)
        (network p.1 (allArticlesUrl lang p.2.href)))).filterMap Event.request? =
      entries.map (fun p => (p.1, allArticlesUrl lang p.2.href)) := by
  induction entries with
  | nil => rfl
  | cons p rest ih =>
    simp only [List.flatMap_cons, List.filterMap_append, fetchSteps_requests, ih, List.map_cons]
    rfl

theorem flatMap_isFetch (network : Network) (lang : String)
    (entries : List (Nat × SeeAllArticles)) :
    ∀ e ∈ entries.flatMap (fun p => fetchSteps p.1 (allArticlesUrl lang p.2.href)
        (network p.1 (allArticlesUrl lang p.2.href))), e.isFetch = true := by
  intro e he
  obtain ⟨p, _, hp⟩ := List.mem_flatMap.mp he
  exact fetchSteps_isFetch _ _ _ e hp

/-- C13. `getAllArticles` issues exactly one request per anchor, in page order,
to the URL of the anchor; a request that fails (network error, response not
ok, unreadable body) is logged, adds nothing and does not stop the later
requests. The list returned holds the parsed bodies of the requests that
succeeded, in anchor order, and is as long as the number of those requests. -/
theorem getAllArticles_spec (network : Network) (lang : String)
    (allArticlesElements : List SeeAllArticles) :
    (getAllArticles network lang allArticlesElements).events.filterMap Event.request? =
      allArticlesElements.enum.map (fun p => (p.1, allArticlesUrl lang p.2.href)) ∧
    ((getAllArticles network lang allArticlesElements).events.filterMap
      Event.request?).length = allArticlesElements.length ∧
    (getAllArticles network lang allArticlesElements).events =
      allArticlesElements.enum.flatMap
        (fun p => fetchSteps p.1 (allArticlesUrl lang p.2.href)
          (network p.1 (allArticlesUrl lang p.2.href))) ∧
    (getAllArticles network lang allArticlesElements).allArticlesArray =
      allArticlesElements.enum.filterMap
        (fun p => (network p.1 (allArticlesUrl lang p.2.href)).body?) ∧
    (getAllArticles network lang allArticlesElements).allArticlesArray.length =
      (allArticlesElements.enum.filter
        (fun p => (network p.1 (allArticlesUrl lang p.2.href)).body?.isSome)).length := by
  have h := getAllArticlesFrom_eq network lang allArticlesElements 0 []
  have hreq := flatMap_requests network lang allArticlesElements.enum
  unfold getAllArticles
  rw [h.1, h.2]
  refine ⟨hreq, ?_, rfl, by simp [List.enum], ?_⟩
  · rw [show List.enumFrom 0 allArticlesElements = allArticlesElements.enum from rfl, hreq]
    simp [List.enum]
  · simp only [List.nil_append, List.enum]
    generalize List.enumFrom 0 allArticlesElements = entries
    induction entries with
    | nil => rfl
    | cons p rest ih =>
      cases hb : (network p.1 (allArticlesUrl lang p.2.href)).body? <;>
        simp [List.filterMap_cons, List.filter_cons, hb, ih]

theorem allArticlesUrl_decimal (lang href : String)
    (hdigits : leadingDigits 10 (lastSegment href).data ≠ [])
    (hhex : hexPrefixed (lastSegment href).data = false)
    (hsafe : digitsToNat 10 (leadingDigits 10 (lastSegment href).data) < 2 ^ 53) :
    allArticlesUrl lang href =
      "https://helpcenter.phrozen3d.com/" ++ "/api/v2/help_center/" ++ toLowerCase lang ++
        "/sections/" ++ toString (digitsToNat 10 (leadingDigits 10 (lastSegment href).data)) ++
        "/articles.json" := by
  unfold allArticlesUrl
  rw [parseInt_decimal _ hdigits hhex, roundToDouble_safe _ hsafe]
  simp only
  rw [numberToString_safe _ hsafe]

/-- C14, as stated, fails: a last segment that starts with the decimal digit
`0` followed by `x` is read in radix 16, so `0x10` is requested as section 16
and not as section 0; and the digits of an integer from `2^53` on are those of
the double it is rounded to. -/
theorem allArticlesUrl_hex_segment :
    leadingDigits 10 (lastSegment "https://helpcenter.phrozen3d.com/hc/en-us/sections/0x10").data
      = [0] ∧
    allArticlesUrl "en-US" "https://helpcenter.phrozen3d.com/hc/en-us/sections/0x10" =
      "https://helpcenter.phrozen3d.com//api/v2/help_center/en-us/sections/16/articles.json" ∧
    allArticlesUrl "en-US" "https://helpcenter.phrozen3d.com/hc/en-us/sections/0x10" ≠
      "https://helpcenter.phrozen3d.com//api/v2/help_center/en-us/sections/0/articles.json" ∧
    allArticlesUrl "en-US"
      "https://helpcenter.phrozen3d.com/hc/en-us/sections/9007199254740993-Title" =
      "https://helpcenter.phrozen3d.com//api/v2/help_center/en-us/sections/9007199254740992/articles.json" := by
  decide

/-- C14, amended. For every anchor whose `href` has a last `/`-separated
segment that starts with decimal digits, does not start with `0x` or `0X`, and
whose leading digits denote an integer below `2^53`, the URL `getAllArticles`
requests for it is the constant `https://helpcenter.phrozen3d.com/` followed by
`/api/v2/help_center/`, the page's full language tag lower-cased (not cut to
two letters), `/sections/`, the decimal digits of that integer, and
`/articles.json`. -/
theorem getAllArticles_url (network : Network) (lang : String)
    (allArticlesElements : List SeeAllArticles) (i : Nat) (element : SeeAllArticles)
    (helement : allArticlesElements[i]? = some element)
    (hdigits : leadingDigits 10 (lastSegment element.href).data ≠ [])
    (hhex : hexPrefixed (lastSegment element.href).data = false)
    (hsafe : digitsToNat 10 (leadingDigits 10 (lastSegment element.href).data) < 2 ^ 53) :
    ((getAllArticles network lang allArticlesElements).events.filterMap Event.request?)[i]? =
      some (i, "https://helpcenter.phrozen3d.com/" ++ "/api/v2/help_center/" ++
        toLowerCase lang ++ "/sections/" ++
        toString (digitsToNat 10 (leadingDigits 10 (lastSegment element.href).data)) ++
        "/articles.json") ∧
    toLowerCase "en-US" = "en-us" := by
  have h := getAllArticlesFrom_eq network lang allArticlesElements 0 []
  have hreq := flatMap_requests network lang allArticlesElements.enum
  unfold getAllArticles
  rw [h.2, show List.enumFrom 0 allArticlesElements = allArticlesElements.enum from rfl, hreq]
  refine ⟨?_, by decide⟩
  rw [List.getElem?_map, List.enum, List.getElem?_enumFrom, helement]
  simp [allArticlesUrl_decimal lang element.href hdigits hhex hsafe]

/-- C14 at a section anchor of the help center. -/
theorem getAllArticles_url_witness :
    [sampleAnchor][0]? = some sampleAnchor ∧
    leadingDigits 10 (lastSegment sampleAnchor.href).data = [3, 6, 0, 0, 0, 1] ∧
    hexPrefixed (lastSegment sampleAnchor.href).data = false ∧
    digitsToNat 10 (leadingDigits 10 (lastSegment sampleAnchor.href).data) = 360001 ∧
    ((getAllArticles (fun _ _ => .notOk) "en-US" [sampleAnchor]).events.filterMap
      Event.request?)[0]? =
      some (0, "https://helpcenter.phrozen3d.com/" ++ "/api/v2/help_center/" ++
        toLowerCase "en-US" ++ "/sections/" ++
        toString (digitsToNat 10 (leadingDigits 10 (lastSegment sampleAnchor.href).data)) ++
        "/articles.json") :=
  ⟨rfl, by decide, by decide, by decide,
    (getAllArticles_url (fun _ _ => .notOk) "en-US" [sampleAnchor] 0 sampleAnchor rfl
      (by decide) (by decide) (by decide)).1⟩

/-! ### The run of `setAllArticles` -/

theorem setAllArticles_events (network : Network) (lang : String)
    (elements : List SeeAllArticles) :
    (setAllArticles network lang elements).state.events =
      (getAllArticles network lang elements).events ++
      (insertRoundsFrom (getAllArticles network lang elements).allArticlesArray 0 elements).map
        Event.insert ++
      afterInsert
        (insertAllArticles elements (getAllArticles network lang elements).allArticlesArray).completion
        (setCategoryCardImage lang
          (cardImages (insertAllArticles elements
            (getAllArticles network lang elements).allArticlesArray).state)
          (cardTitleLinks (insertAllArticles elements
            (getAllArticles network lang elements).allArticlesArray).state)).completion := by
  unfold setAllArticles tryCatch setAllArticlesBody
  simp only
  cases h : (insertAllArticles elements
      (getAllArticles network lang elements).allArticlesArray).completion with
  | throw e => simp [afterInsert]
  | normal =>
    simp only
    cases h2 : (setCategoryCardImage lang
        (cardImages (insertAllArticles elements
          (getAllArticles network lang elements).allArticlesArray).state)
        (cardTitleLinks (insertAllArticles elements
          (getAllArticles network lang elements).allArticlesArray).state)).completion with
    | normal => simp [afterInsert]
    | throw e => simp [afterInsert]

theorem setAllArticles_completion (network : Network) (lang : String)
    (elements : List SeeAllArticles) :
    (setAllArticles network lang elements).completion = .normal := by
  unfold setAllArticles tryCatch
  split
  · assumption
  · rfl

theorem setAllArticles_images_none (network : Network) (lang : String)
    (elements : List SeeAllArticles) (e : JsError)
    (h : (insertAllArticles elements
      (getAllArticles network lang elements).allArticlesArray).completion = .throw e) :
    (setAllArticles network lang elements).state.images = none := by
  unfold setAllArticles tryCatch setAllArticlesBody
  simp only [h]

theorem insertRoundsFrom_prefix (allArticleObj : List SectionArticles)
    (elements : List SeeAllArticles) (i : Nat) :
    ∃ m, m ≤ elements.length ∧
      insertRoundsFrom allArticleObj i elements = List.range' i m ∧
      ((insertAllArticlesFrom allArticleObj i elements).completion = .normal →
        m = elements.length) := by
  induction elements generalizing i with
  | nil => exact ⟨0, Nat.le_refl _, rfl, fun _ => rfl⟩
  | cons e rest ih =>
    unfold insertRoundsFrom insertAllArticlesFrom
    cases h : (insertSectionArticles e allArticleObj[i]?).completion with
    | normal =>
      obtain ⟨m, hm, hr, hn⟩ := ih (i + 1)
      refine ⟨m + 1, by simp only [List.length_cons]; omega, ?_, ?_⟩
      · simp only [hr, List.range']
      · intro hnormal
        simp only [h] at hnormal
        simp only [List.length_cons, hn hnormal]
    | throw err =>
      refine ⟨1, by simp only [List.length_cons]; omega, ?_, ?_⟩
      · simp only [List.range']
      · intro hnormal
        simp only [h] at hnormal
        cases hnormal

theorem precedes_no_second (first second : Event → Bool) (events : List Event)
    (h : ∀ e ∈ events, second e = false) : precedes first second events = false := by
  induction events with
  | nil => rfl
  | cons a rest ih =>
    have hrest : ∀ e ∈ rest, second e = false := fun e he => h e (List.mem_cons_of_mem _ he)
    have hany : rest.any second = false := by
      rw [List.any_eq_false]
      intro e he
      simp [hrest e he]
    simp only [precedes, hany, Bool.and_false, Bool.false_or]
    exact ih hrest

theorem precedes_append_false (first second : Event → Bool) (front back : List Event)
    (hfront : ∀ e ∈ front, first e = false) (hback : ∀ e ∈ back, second e = false) :
    precedes first second (front ++ back) = false := by
  induction front with
  | nil => exact precedes_no_second first second back hback
  | cons a rest ih =>
    have ha := hfront a (List.mem_cons_self _ _)
    simp only [List.cons_append, precedes, ha, Bool.false_and, Bool.false_or]
    exact ih (fun e he => hfront e (List.mem_cons_of_mem _ he))

theorem afterInsert_not_fetch (inserted backfilled : Completion) :
    ∀ e ∈ afterInsert inserted backfilled, e = .backfill ∨ e = .errorLogged := by
  intro e he
  cases inserted <;> cases backfilled <;> simp [afterInsert] at he <;> simp [he]

theorem getAllArticles_events (network : Network) (lang : String)
    (elements : List SeeAllArticles) :
    (getAllArticles network lang elements).events =
      elements.enum.flatMap (fun p => fetchSteps p.1 (allArticlesUrl lang p.2.href)
        (network p.1 (allArticlesUrl lang p.2.href))) :=
  (getAllArticlesFrom_eq network lang elements 0 []).2

theorem getAllArticles_isFetch (network : Network) (lang : String)
    (elements : List SeeAllArticles) :
    ∀ e ∈ (getAllArticles network lang elements).events, e.isFetch = true := by
  rw [getAllArticles_events]
  exact flatMap_isFetch network lang elements.enum

theorem flatMap_fetchEnds (network : Network) (lang : String)
    (entries : List (Nat × SeeAllArticles)) :
    ((entries.flatMap (fun p => fetchSteps p.1 (allArticlesUrl lang p.2.href)
        (network p.1 (allArticlesUrl lang p.2.href)))).filter Event.isFetchEnd).length =
      entries.length := by
  induction entries with
  | nil => rfl
  | cons p rest ih =>
    have h1 : ((fetchSteps p.1 (allArticlesUrl lang p.2.href)
        (network p.1 (allArticlesUrl lang p.2.href))).filter Event.isFetchEnd).length = 1 := by
      cases network p.1 (allArticlesUrl lang p.2.href) <;> rfl
    simp only [List.flatMap_cons, List.filter_append, List.length_append, h1, ih,
      List.length_cons]
    omega

theorem rest_not_fetch (rounds : List Nat) (inserted backfilled : Completion) :
    ∀ e ∈ rounds.map Event.insert ++ afterInsert inserted backfilled, e.isFetch = false := by
  intro e he
  rcases List.mem_append.mp he with h | h
  · obtain ⟨i, _, hi⟩ := List.mem_map.mp h
    rw [← hi]; rfl
  · rcases afterInsert_not_fetch inserted backfilled e h with h | h <;> rw [h] <;> rfl

theorem count_backfill_fetch (events : List Event)
    (h : ∀ e ∈ events, e.isFetch = true) : events.count .backfill = 0 := by
  rw [List.count_eq_zero]
  intro hmem
  have := h _ hmem
  simp [Event.isFetch] at this

theorem count_backfill_insert (rounds : List Nat) :
    (rounds.map Event.insert).count .backfill = 0 := by
  rw [List.count_eq_zero]
  intro hmem
  obtain ⟨i, _, hi⟩ := List.mem_map.mp hmem
  cases hi

theorem filterMap_length_lt {α β : Type} (f : α → Option β) (l : List α) (a : α)
    (ha : a ∈ l) (hf : f a = none) : (l.filterMap f).length < l.length := by
  induction l with
  | nil => cases ha
  | cons b rest ih =>
    have hle : (rest.filterMap f).length ≤ rest.length := List.length_filterMap_le f rest
    rcases List.mem_cons.mp ha with h | h
    · subst h
      rw [List.filterMap_cons_none hf, List.length_cons]
      omega
    · have := ih h
      cases hb : f b with
      | none => rw [List.filterMap_cons_none hb, List.length_cons]; omega
      | some v => rw [List.filterMap_cons_some hb, List.length_cons, List.length_cons]; omega

theorem insertAllArticlesFrom_short (allArticleObj : List SectionArticles)
    (elements : List SeeAllArticles) (i : Nat) (hne : elements ≠ [])
    (hshort : allArticleObj.length < i + elements.length) :
    (insertAllArticlesFrom allArticleObj i elements).completion ≠ .normal := by
  induction elements generalizing i with
  | nil => exact absurd rfl hne
  | cons e rest ih =>
    unfold insertAllArticlesFrom
    cases h : (insertSectionArticles e allArticleObj[i]?).completion with
    | throw err =>
      simp only [h]
      intro hc
      cases hc
    | normal =>
      simp only [h]
      cases rest with
      | nil =>
        exfalso
        have hi : allArticleObj[i]? = none := by
          rw [List.getElem?_eq_none_iff]
          simp only [List.length_cons, List.length_nil] at hshort
          omega
        rw [hi] at h
        unfold insertSectionArticles at h
        cases hs : e.previousElementSibling <;> simp [hs] at h
      | cons e2 rest2 =>
        have hlen : allArticleObj.length < (i + 1) + (e2 :: rest2).length := by
          simp only [List.length_cons] at hshort ⊢
          omega
        exact ih (i + 1) (List.cons_ne_nil _ _) hlen

set_option maxRecDepth 1000000 in
/-- C15, as stated, fails: in the run over two anchors whose requests both
succeed, the request of the second anchor starts and settles before anything
is inserted for the first; no insertion for anchor 0 precedes the start of the
request of anchor 1. -/
theorem setAllArticles_fetches_before_inserts :
    (setAllArticles (networkOk sampleSection) "en-US" [sampleAnchor, secondAnchor]).state.events =
      [ .fetchStart 0
          "https://helpcenter.phrozen3d.com//api/v2/help_center/en-us/sections/360001/articles.json",
        .fetchEnd 0 true,
        .fetchStart 1
          "https://helpcenter.phrozen3d.com//api/v2/help_center/en-us/sections/360002/articles.json",
        .fetchEnd 1 true,
        .insert 0, .insert 1, .backfill ] ∧
    precedes (fun e => e == .insert 0) (Event.isFetchStartOf 1)
      (setAllArticles (networkOk sampleSection) "en-US"
        [sampleAnchor, secondAnchor]).state.events = false ∧
    precedes (Event.isFetchStartOf 1) (fun e => e == .insert 0)
      (setAllArticles (networkOk sampleSection) "en-US"
        [sampleAnchor, secondAnchor]).state.events = true := by
  decide

/-- C15, amended. In every run of `setAllArticles` over `n` anchors all the
requests come first, anchor by anchor in document order, each one settled (and
its failure logged) before the next one starts; the events after them are no
fetch events, so nothing is inserted before the last request has settled; and
the rounds of insertion that follow begin for the anchors `0, 1, ..., m-1` in
this order, for some `m ≤ n`. -/
theorem setAllArticles_order (network : Network) (lang : String)
    (elements : List SeeAllArticles) :
    (setAllArticles network lang elements).state.events.filter Event.isFetch =
      elements.enum.flatMap (fun p => fetchSteps p.1 (allArticlesUrl lang p.2.href)
        (network p.1 (allArticlesUrl lang p.2.href))) ∧
    (setAllArticles network lang elements).state.events =
      (setAllArticles network lang elements).state.events.filter Event.isFetch ++
      (setAllArticles network lang elements).state.events.filter (fun e => !e.isFetch) ∧
    precedes (fun e => !e.isFetch) Event.isFetch
      (setAllArticles network lang elements).state.events = false ∧
    ∃ m, m ≤ elements.length ∧
      (setAllArticles network lang elements).state.events.filter Event.isInsert =
        (List.range m).map Event.insert := by
  have hev := setAllArticles_events network lang elements
  rw [List.append_assoc] at hev
  have hF := getAllArticles_isFetch network lang elements
  have hR := rest_not_fetch
    (insertRoundsFrom (getAllArticles network lang elements).allArticlesArray 0 elements)
    (insertAllArticles elements (getAllArticles network lang elements).allArticlesArray).completion
    (setCategoryCardImage lang
      (cardImages (insertAllArticles elements
        (getAllArticles network lang elements).allArticlesArray).state)
      (cardTitleLinks (insertAllArticles elements
        (getAllArticles network lang elements).allArticlesArray).state)).completion
  have hfilterF : (setAllArticles network lang elements).state.events.filter Event.isFetch =
      (getAllArticles network lang elements).events := by
    rw [hev, List.filter_append, List.filter_eq_self.mpr hF]
    rw [List.filter_eq_nil_iff.mpr (fun e he => by simp [hR e he]), List.append_nil]
  have hfilterR : (setAllArticles network lang elements).state.events.filter
      (fun e => !e.isFetch) =
      (insertRoundsFrom (getAllArticles network lang elements).allArticlesArray 0 elements).map
        Event.insert ++ afterInsert
        (insertAllArticles elements
          (getAllArticles network lang elements).allArticlesArray).completion
        (setCategoryCardImage lang
          (cardImages (insertAllArticles elements
            (getAllArticles network lang elements).allArticlesArray).state)
          (cardTitleLinks (insertAllArticles elements
            (getAllArticles network lang elements).allArticlesArray).state)).completion := by
    rw [hev, List.filter_append, List.filter_eq_nil_iff.mpr (fun e he => by simp [hF e he]),
      List.nil_append, List.filter_eq_self.mpr (fun e he => by simp [hR e he])]
  refine ⟨?_, ?_, ?_, ?_⟩
  · rw [hfilterF, getAllArticles_events]
  · rw [hfilterF, hfilterR]; exact hev
  · rw [hev]
    exact precedes_append_false _ _ _ _ (fun e he => by simp [hF e he]) hR
  · obtain ⟨m, hm, hrounds, _⟩ := insertRoundsFrom_prefix
      (getAllArticles network lang elements).allArticlesArray elements 0
    refine ⟨m, hm, ?_⟩
    rw [hev, hrounds, List.filter_append, List.filter_append,
      List.filter_eq_nil_iff.mpr (fun e he => by
        have := hF e he
        cases e <;> simp_all [Event.isFetch, Event.isInsert]),
      List.nil_append, List.range_eq_range']
    rw [List.filter_eq_self.mpr (fun e he => by
        obtain ⟨i, _, hi⟩ := List.mem_map.mp he
        rw [← hi]; rfl)]
    rw [List.filter_eq_nil_iff.mpr (fun e he => by
        rcases afterInsert_not_fetch _ _ e he with h | h <;> rw [h] <;> simp [Event.isInsert]),
      List.append_nil]

/-- C18. In every run of `setAllArticles` over `n` anchors: nothing is raised
to the caller; `setCategoryCardImage` is invoked at most once; the run begins
with the steps of `getAllArticles`, in which all `n` requests settle; when
`insertAllArticles` returns normally, the rounds of all `n` anchors follow in
order, then the one backfill, and after it only the log entry of a backfill
that raised; when `insertAllArticles` raises, the error is logged as the last
step, the backfill is not run and no image is written. -/
theorem setAllArticles_backfill (network : Network) (lang : String)
    (elements : List SeeAllArticles) :
    (setAllArticles network lang elements).completion = .normal ∧
    (setAllArticles network lang elements).state.events.count .backfill ≤ 1 ∧
    ((getAllArticles network lang elements).events.filter Event.isFetchEnd).length =
      elements.length ∧
    match (insertAllArticles elements
      (getAllArticles network lang elements).allArticlesArray).completion with
    | .normal =>
      ∃ tail, (tail = [] ∨ tail = [.errorLogged]) ∧
        (setAllArticles network lang elements).state.events =
          (getAllArticles network lang elements).events ++
          (List.range elements.length).map Event.insert ++ .backfill :: tail
    | .throw _ =>
      ∃ m, m ≤ elements.length ∧
        (setAllArticles network lang elements).state.events =
          (getAllArticles network lang elements).events ++
          (List.range m).map Event.insert ++ [.errorLogged] ∧
        .backfill ∉ (setAllArticles network lang elements).state.events ∧
        (setAllArticles network lang elements).state.images = none := by
  have hev := setAllArticles_events network lang elements
  have hF := getAllArticles_isFetch network lang elements
  obtain ⟨m, hm, hrounds, hall⟩ := insertRoundsFrom_prefix
    (getAllArticles network lang elements).allArticlesArray elements 0
  rw [hrounds, ← List.range_eq_range'] at hev
  refine ⟨setAllArticles_completion network lang elements, ?_, ?_, ?_⟩
  · rw [hev, List.count_append, List.count_append, count_backfill_fetch _ hF,
      count_backfill_insert]
    cases (insertAllArticles elements
        (getAllArticles network lang elements).allArticlesArray).completion <;>
      cases (setCategoryCardImage lang
        (cardImages (insertAllArticles elements
          (getAllArticles network lang elements).allArticlesArray).state)
        (cardTitleLinks (insertAllArticles elements
          (getAllArticles network lang elements).allArticlesArray).state)).completion <;>
      simp [afterInsert]
  · rw [getAllArticles_events, flatMap_fetchEnds, List.enum_length]
  · cases hins : (insertAllArticles elements
        (getAllArticles network lang elements).allArticlesArray).completion with
    | normal =>
      simp only
      have hmn : m = elements.length := hall hins
      rw [hins, hmn] at hev
      cases hfill : (setCategoryCardImage lang
        (cardImages (insertAllArticles elements
          (getAllArticles network lang elements).allArticlesArray).state)
        (cardTitleLinks (insertAllArticles elements
          (getAllArticles network lang elements).allArticlesArray).state)).completion with
      | normal =>
        rw [hfill] at hev
        exact ⟨[], Or.inl rfl, hev⟩
      | throw e =>
        rw [hfill] at hev
        exact ⟨[.errorLogged], Or.inr rfl, hev⟩
    | throw e =>
      simp only
      rw [hins] at hev
      have hev2 : (setAllArticles network lang elements).state.events =
          (getAllArticles network lang elements).events ++
          (List.range m).map Event.insert ++ [.errorLogged] := hev
      refine ⟨m, hm, hev2, ?_, setAllArticles_images_none network lang elements e hins⟩
      rw [hev2]
      intro hmem
      rcases List.mem_append.mp hmem with h | h
      · rcases List.mem_append.mp h with h | h
        · have := hF _ h
          simp [Event.isFetch] at this
        · obtain ⟨i, _, hi⟩ := List.mem_map.mp h
          cases hi
      · simp at h

set_option maxRecDepth 1000000 in
/-- C11 fails for promoted articles. The title `[Sonic Mini 8K] First Test
Print` is a key of the English image table. On an `en-US` page with one anchor
whose section holds that one article, the run of `setAllArticles` leaves the
card image with the table's URL when the article is not promoted, and with the
fallback URL when it is promoted: the `innerHTML` of the promoted title link
holds the star glyph before the title, so its trimmed text is not the title. -/
theorem promoted_card_image :
    (articleCardImages.get (substr02 "en-US")).map (getProp · (testPrint true).title) =
      some (.own "https://helpcenter.phrozen3d.com/hc/article_attachments/31869880369817") ∧
    (setAllArticles (networkOk fun _ => oneArticle (testPrint false)) "en-US"
      [sampleAnchor]).state.images =
      some [{ src := .own "https://helpcenter.phrozen3d.com/hc/article_attachments/31869880369817" }] ∧
    (setAllArticles (networkOk fun _ => oneArticle (testPrint true)) "en-US"
      [sampleAnchor]).state.images = some [{ src := .own fallbackImage }] ∧
    (cardTitleLinks [withCards sampleAnchor [testPrint true]]).map
        (fun link => trim link.innerHTML == (testPrint true).title) = [false] ∧
    (setAllArticles (networkOk fun _ => oneArticle (testPrint true)) "en-US"
      [sampleAnchor]).state.events.getLast? = some .backfill := by
  decide

set_option maxRecDepth 1000000 in
/-- C12 fails when a request fails. On a page with two anchors whose first
request is answered not ok and whose second request succeeds with the article
`articleB`, `getAllArticles` returns the one body of the second section at
index 0. The run of `setAllArticles` then fills the container of the first
anchor, whose request failed, with the card of `articleB`; clears the
container of the second anchor and raises there, as `allArticleObj[1]` is
undefined; logs the error; and does not run the backfill. Nothing is raised to
the caller. -/
theorem failed_section_shifts :
    (getAllArticles (networkFailingAt 0 sampleSection) "en-US"
      [sampleAnchor, secondAnchor]).allArticlesArray = [oneArticle articleB] ∧
    (setAllArticles (networkFailingAt 0 sampleSection) "en-US"
      [sampleAnchor, secondAnchor]).state.elements =
      [withCards sampleAnchor [articleB], withCards secondAnchor []] ∧
    (setAllArticles (networkFailingAt 0 sampleSection) "en-US"
      [sampleAnchor, secondAnchor]).state.events =
      [ .fetchStart 0
          "https://helpcenter.phrozen3d.com//api/v2/help_center/en-us/sections/360001/articles.json",
        .fetchEnd 0 false,
        .fetchErrorLogged 0,
        .fetchStart 1
          "https://helpcenter.phrozen3d.com//api/v2/help_center/en-us/sections/360002/articles.json",
        .fetchEnd 1 true,
        .insert 0, .insert 1, .errorLogged ] ∧
    (setAllArticles (networkFailingAt 0 sampleSection) "en-US"
      [sampleAnchor, secondAnchor]).state.images = none ∧
    (setAllArticles (networkFailingAt 0 sampleSection) "en-US"
      [sampleAnchor, secondAnchor]).completion = .normal := by
  decide

/-- Whenever the request of some anchor fails, in any way, `getAllArticles`
returns fewer bodies than there are anchors, `insertAllArticles` raises, and
the run of `setAllArticles` ends with the error logged: the backfill is not
run and no image is written. -/
theorem setAllArticles_failed_request (network : Network) (lang : String)
    (elements : List SeeAllArticles) (k : Nat) (element : SeeAllArticles)
    (helement : elements[k]? = some element)
    (hfail : (network k (allArticlesUrl lang element.href)).body? = none) :
    (getAllArticles network lang elements).allArticlesArray.length < elements.length ∧
    (insertAllArticles elements
      (getAllArticles network lang elements).allArticlesArray).completion ≠ .normal ∧
    Event.backfill ∉ (setAllArticles network lang elements).state.events ∧
    (setAllArticles network lang elements).state.events.getLast? = some .errorLogged ∧
    (setAllArticles network lang elements).state.images = none ∧
    (setAllArticles network lang elements).completion = .normal := by
  have hmem : (k, element) ∈ elements.enum := List.mk_mem_enum_iff_getElem?.mpr helement
  have hlen : (getAllArticles network lang elements).allArticlesArray.length <
      elements.length := by
    unfold getAllArticles
    rw [(getAllArticlesFrom_eq network lang elements 0 []).1, List.nil_append]
    have := filterMap_length_lt
      (fun p : Nat × SeeAllArticles => (network p.1 (allArticlesUrl lang p.2.href)).body?)
      elements.enum (k, element) hmem hfail
    rw [List.enum_length] at this
    exact this
  have hne : elements ≠ [] := by
    intro h
    rw [h] at helement
    cases helement
  have hins : (insertAllArticles elements
      (getAllArticles network lang elements).allArticlesArray).completion ≠ .normal :=
    insertAllArticlesFrom_short _ elements 0 hne (by omega)
  have hev := setAllArticles_events network lang elements
  have hF := getAllArticles_isFetch network lang elements
  cases hc : (insertAllArticles elements
      (getAllArticles network lang elements).allArticlesArray).completion with
  | normal => exact absurd hc hins
  | throw e =>
    rw [hc] at hev
    refine ⟨hlen, by simp, ?_, ?_, setAllArticles_images_none network lang elements e hc,
      setAllArticles_completion network lang elements⟩
    · rw [hev]
      intro hmem
      rcases List.mem_append.mp hmem with h | h
      · rcases List.mem_append.mp h with h | h
        · have := hF _ h
          simp [Event.isFetch] at this
        · obtain ⟨i, _, hi⟩ := List.mem_map.mp h
          cases hi
      · simp [afterInsert] at h
    · rw [hev]
      simp [afterInsert]

/-- The failed request of the first of two anchors. -/
theorem setAllArticles_failed_request_witness :
    [sampleAnchor, secondAnchor][0]? = some sampleAnchor ∧
    (networkFailingAt 0 sampleSection 0 (allArticlesUrl "en-US" sampleAnchor.href)).body? =
      none ∧
    Event.backfill ∉ (setAllArticles (networkFailingAt 0 sampleSection) "en-US"
      [sampleAnchor, secondAnchor]).state.events :=
  ⟨rfl, rfl,
    (setAllArticles_failed_request (networkFailingAt 0 sampleSection) "en-US"
      [sampleAnchor, secondAnchor] 0 sampleAnchor rfl rfl).2.2.1⟩

/-- C17, as stated, fails: the category text `constructor` is not excluded and
its key is not a key of `categoryMachinesInfo`, yet `findMachineInfo` does not
return `undefined` for it but the member the object literal inherits under
that name. -/
theorem findMachineInfo_constructor :
    excludedCategories.contains "constructor" = false ∧
    getOwn (categoryNameRemoveBlank "constructor") categoryMachinesInfo = none ∧
    findMachineInfo categoryMachinesInfo (categoryNameRemoveBlank "constructor") =
      .inherited "constructor" ∧
    findMachineInfo categoryMachinesInfo (categoryNameRemoveBlank "constructor") ≠
      .undefined := by
  decide

/-- C17, amended. If the category text is not excluded and its normalized key
is not a key of `categoryMachinesInfo`, `findMachineInfo` returns `undefined`,
or, when the key names a member inherited from `Object.prototype`, that
member; there is no fallback. In both cases `renderMachineContent` raises a
`TypeError` before it writes anything, the page-load handler hands that one
exception to `logMyErrors` and makes no further call: `setAllArticles` is not
called, `getCheckedCategory` is not run and no `change` listener is added. The
document is left as it was. -/
theorem categoryInit_unknown_category (innerHTML : String) (getCheckedCategoryEnds : Completion)
    (d : CategoryDocument)
    (hexcluded : innerHTML ∉ excludedCategories)
    (hkey : getOwn (categoryNameRemoveBlank innerHTML) categoryMachinesInfo = none) :
    findMachineInfo categoryMachinesInfo (categoryNameRemoveBlank innerHTML) =
      (if categoryNameRemoveBlank innerHTML ∈ objectPrototypeKeys then
        .inherited (categoryNameRemoveBlank innerHTML) else .undefined) ∧
    renderMachineContent
        (findMachineInfo categoryMachinesInfo (categoryNameRemoveBlank innerHTML)) d.page =
      ⟨d.page, .throw .typeError⟩ ∧
    (categoryInit (some innerHTML) getCheckedCategoryEnds d).calls =
      [ .renderMachineContent
          (findMachineInfo categoryMachinesInfo (categoryNameRemoveBlank innerHTML)),
        .logMyErrors .typeError ] ∧
    (categoryInit (some innerHTML) getCheckedCategoryEnds d).document = d ∧
    InitCall.setAllArticles ∉ (categoryInit (some innerHTML) getCheckedCategoryEnds d).calls ∧
    InitCall.getCheckedCategory ∉
      (categoryInit (some innerHTML) getCheckedCategoryEnds d).calls ∧
    InitCall.addChangeListeners ∉
      (categoryInit (some innerHTML) getCheckedCategoryEnds d).calls := by
  have hfind : findMachineInfo categoryMachinesInfo (categoryNameRemoveBlank innerHTML) =
      (if categoryNameRemoveBlank innerHTML ∈ objectPrototypeKeys then
        .inherited (categoryNameRemoveBlank innerHTML) else .undefined) := by
    unfold findMachineInfo getProp
    rw [hkey]
  have hrender : renderMachineContent
        (findMachineInfo categoryMachinesInfo (categoryNameRemoveBlank innerHTML)) d.page =
      ⟨d.page, .throw .typeError⟩ := by
    rw [hfind]
    by_cases hproto : categoryNameRemoveBlank innerHTML ∈ objectPrototypeKeys
    · rw [if_pos hproto]; rfl
    · rw [if_neg hproto]; rfl
  have hcontains : excludedCategories.contains innerHTML = false := by
    simpa using hexcluded
  have hinit : categoryInit (some innerHTML) getCheckedCategoryEnds d =
      ⟨d, [ .renderMachineContent
          (findMachineInfo categoryMachinesInfo (categoryNameRemoveBlank innerHTML)),
        .logMyErrors .typeError ]⟩ := by
    unfold categoryInit renderCategory categoryRender
    simp only [hcontains, Bool.not_false, if_true, hrender]
  refine ⟨hfind, hrender, ?_, ?_, ?_, ?_, ?_⟩ <;> rw [hinit] <;> simp

/-- C17 at the category text `Sonic Mini 9K`, which names no machine of the
table. -/
theorem categoryInit_unknown_category_witness :
    "Sonic Mini 9K" ∉ excludedCategories ∧
    getOwn (categoryNameRemoveBlank "Sonic Mini 9K") categoryMachinesInfo = none ∧
    (categoryInit (some "Sonic Mini 9K") .normal ⟨categoryPage "en-US", some []⟩).calls =
      [ .renderMachineContent .undefined, .logMyErrors .typeError ] :=
  ⟨by decide, by decide,
    (categoryInit_unknown_category "Sonic Mini 9K" .normal ⟨categoryPage "en-US", some []⟩
      (by decide) (by decide)).2.2.1⟩

/-! ## Verbatim insertion -/

/-- C21. Titles and URLs are inserted as they are. For an anchor with a card
container and a response, the markup `insertAllArticles` writes to the
container is the cards of the articles before the `k`-th, the card of the
`k`-th article, and the cards of the articles after it up to `count`; and the
card of an article is the fixed text of its template with the `html_url`
string standing unchanged in the `href` of the image link and of the title
link, and the `title` string standing unchanged in the `alt` of the image and
before the closing tag of the title link. -/
theorem insertAllArticles_verbatim (element : SeeAllArticles) (cardsSection : CardsSection)
    (obj : SectionArticles) (k : Nat) (a : Article)
    (hsibling : element.previousElementSibling = some cardsSection)
    (hk : k < obj.count) (ha : obj.articles[k]? = some a) :
    (insertSectionArticles element (some obj)).state.previousElementSibling =
      some { innerHTML := cardsMarkup (obj.articles.take k) ++ articleHTML a ++
        cardsMarkup ((obj.articles.take obj.count).drop (k + 1)) } ∧
    articleHTML a =
      (if a.promoted then "\n          <div class=\"category-card\">\n          \t<a href=\""
        else "\n          <div class=\"category-card\">\n            <a href=\"") ++
      a.html_url ++
      "\" class=\"article-image-link\">\n              <img src=\"https://phrozen3d.com.tw/cdn/shop/files/718KS_1400x1600_01_14b22783-8e9d-4df3-b044-7d390edcb3ec.png?v=1695112910&width=400\" alt=\"" ++
      a.title ++
      "\" class=\"category-article-image\">\n            </a>\n            <a href=\"" ++
      a.html_url ++
      (if a.promoted then
        "\" class=\"article-list-link\">\n              " ++ starSvg ++ "\n              "
        else "\" class=\"article-list-link\">") ++
      a.title ++
      " </a>\n          </div>\n        " := by
  constructor
  · rw [insertSectionArticles_eq element cardsSection obj hsibling]
    have htake : (obj.articles.take obj.count)[k]? = some a := by
      rw [List.getElem?_take_of_lt hk]; exact ha
    have hsplit := list_split_at (obj.articles.take obj.count) k a htake
    have hmin : min k obj.count = k := by omega
    rw [List.take_take, hmin] at hsplit
    simp only [withCards]
    rw [hsplit, cardsMarkup_append, cardsMarkup_cons, ← hsplit, string_append_assoc]
  · obtain ⟨title, url, promoted⟩ := a
    cases promoted
    all_goals
      simp only [articleHTML, articleTemplate, renderTemplate, List.map, Piece.render,
        string_join_cons, string_join_nil, string_append_empty, string_empty_append,
        string_append_assoc, Bool.false_eq_true, if_false, if_true]

/-- C21 for the second of two articles, whose title and URL hold markup
characters. -/
theorem insertAllArticles_verbatim_witness :
    (insertSectionArticles sampleAnchor
      (some { count := 2,
              articles := [articleA,
                { title := "<b>\"R&D\"</b>", html_url := "javascript:alert(\x271\x27)",
                  promoted := true }] })).state.previousElementSibling =
      some { innerHTML := cardsMarkup [articleA] ++
        articleHTML { title := "<b>\"R&D\"</b>", html_url := "javascript:alert(\x271\x27)",
                      promoted := true } ++ cardsMarkup [] } :=
  (insertAllArticles_verbatim sampleAnchor _
    { count := 2,
      articles := [articleA,
        { title := "<b>\"R&D\"</b>", html_url := "javascript:alert(\x271\x27)",
          promoted := true }] } 1 _ rfl (by decide) rfl).1

/-! ## Completeness of the tables -/

theorem categoryMachinesInfo_nonempty :
    ∀ e ∈ categoryMachinesInfo,
      (e.2.warranty.en ≠ none ∧ e.2.warranty.en ≠ some []) ∧
      (e.2.warranty.zh ≠ none ∧ e.2.warranty.zh ≠ some []) ∧
      (e.2.specs.en ≠ none ∧ e.2.specs.en ≠ some []) ∧
      (e.2.specs.zh ≠ none ∧ e.2.specs.zh ≠ some []) ∧
      (e.2.manual.en ≠ none ∧ e.2.manual.en ≠ some "") ∧
      (e.2.manual.zh ≠ none ∧ e.2.manual.zh ≠ some "") := by
  decide

theorem perLang_get_ne {α : Type} (obj : PerLang α) (bad : α) (currentLang : LangCode)
    (hen : obj.en ≠ none ∧ obj.en ≠ some bad) (hzh : obj.zh ≠ none ∧ obj.zh ≠ some bad)
    (hlang : currentLang.text = "en" ∨ currentLang.text = "zh") :
    ∃ v, obj.get currentLang = some v ∧ v ≠ bad := by
  unfold PerLang.get
  rcases hlang with h | h
  · rw [if_pos h]
    cases hv : obj.en with
    | none => exact absurd hv hen.1
    | some v => exact ⟨v, rfl, fun hb => hen.2 (by rw [hv, hb])⟩
  · have hne : currentLang.text ≠ "en" := by rw [h]; decide
    rw [if_neg hne, if_pos h]
    cases hv : obj.zh with
    | none => exact absurd hv hzh.1
    | some v => exact ⟨v, rfl, fun hb => hzh.2 (by rw [hv, hb])⟩

theorem forEach_appendWarrantyItem_normal (items : List String) (p : Page)
    (children : List Li) (h : p.warrantyList = some children) :
    (forEach items appendWarrantyItem p).completion = .normal := by
  rw [forEach_appendWarrantyItem items p children h]

theorem forEach_appendSpecsItem_normal (items : List String) (p : Page)
    (children : List Li) (h : p.specsList = some children) :
    (forEach items appendSpecsItem p).completion = .normal := by
  rw [forEach_appendSpecsItem items p children h]

theorem bindMachineLink_manual (record : MachineRecord) (p : Page) (manualLink : Link)
    (h : p.machineManualLink = some manualLink) :
    (bindMachineLink (.own record) p).state.machineManualLink =
      some { href := record.manual.get (substr02 p.lang) } := by
  unfold bindMachineLink
  simp only [h]
  repeat' split
  all_goals rfl

/-- C22. The machine table is complete for both languages. For every key of
`categoryMachinesInfo` and a page language that starts with `en` or `zh`, the
record has a warranty list, a specs list and a manual URL for the language,
none of them empty; so on a page with the lists `renderWarrantyContent` and
`renderSpecsContent` end normally, and on a page with the manual link
`bindMachineLink` assigns that URL to it. -/
theorem categoryMachinesInfo_complete (key : String) (record : MachineRecord) (p : Page)
    (hkey : getOwn key categoryMachinesInfo = some record)
    (hlang : (substr02 p.lang).text = "en" ∨ (substr02 p.lang).text = "zh") :
    ∃ warranty specs manual,
      record.warranty.get (substr02 p.lang) = some warranty ∧ warranty ≠ [] ∧
      record.specs.get (substr02 p.lang) = some specs ∧ specs ≠ [] ∧
      record.manual.get (substr02 p.lang) = some manual ∧ manual ≠ "" ∧
      (p.warrantyList.isSome →
        (renderWarrantyContent (.own record) p).completion = .normal) ∧
      (p.specsList.isSome →
        (renderSpecsContent (.own record) p).completion = .normal) ∧
      (p.machineManualLink.isSome →
        (bindMachineLink (.own record) p).state.machineManualLink =
          some { href := some manual }) := by
  obtain ⟨hw1, hw2, hs1, hs2, hm1, hm2⟩ :=
    categoryMachinesInfo_nonempty _ (getOwn_mem key categoryMachinesInfo record hkey)
  obtain ⟨warranty, hw, hwne⟩ := perLang_get_ne record.warranty [] _ hw1 hw2 hlang
  obtain ⟨specs, hs, hsne⟩ := perLang_get_ne record.specs [] _ hs1 hs2 hlang
  obtain ⟨manual, hm, hmne⟩ := perLang_get_ne record.manual "" _ hm1 hm2 hlang
  refine ⟨warranty, specs, manual, hw, hwne, hs, hsne, hm, hmne, ?_, ?_, ?_⟩
  · intro hlist
    obtain ⟨children, hc⟩ := Option.isSome_iff_exists.mp hlist
    simp only [renderWarrantyContent, hw]
    exact forEach_appendWarrantyItem_normal warranty p children hc
  · intro hlist
    obtain ⟨children, hc⟩ := Option.isSome_iff_exists.mp hlist
    simp only [renderSpecsContent, hs]
    exact forEach_appendSpecsItem_normal specs p children hc
  · intro hlink
    obtain ⟨manualLink, hl⟩ := Option.isSome_iff_exists.mp hlink
    rw [bindMachineLink_manual record p manualLink hl, hm]

/-- C22 for the record keyed "Sonic_Mini_8K" on the Chinese sample page. -/
theorem categoryMachinesInfo_complete_witness :
    ∃ record, getOwn "Sonic_Mini_8K" categoryMachinesInfo = some record ∧
      ∃ warranty specs manual,
        record.warranty.get (substr02 (categoryPage "zh-TW").lang) = some warranty ∧
        warranty ≠ [] ∧
        record.specs.get (substr02 (categoryPage "zh-TW").lang) = some specs ∧ specs ≠ [] ∧
        record.manual.get (substr02 (categoryPage "zh-TW").lang) = some manual ∧
        manual ≠ "" ∧
        ((categoryPage "zh-TW").warrantyList.isSome →
          (renderWarrantyContent (.own record) (categoryPage "zh-TW")).completion = .normal) ∧
        ((categoryPage "zh-TW").specsList.isSome →
          (renderSpecsContent (.own record) (categoryPage "zh-TW")).completion = .normal) ∧
        ((categoryPage "zh-TW").machineManualLink.isSome →
          (bindMachineLink (.own record) (categoryPage "zh-TW")).state.machineManualLink =
            some { href := some manual }) :=
  ⟨_, rfl, categoryMachinesInfo_complete "Sonic_Mini_8K" _ (categoryPage "zh-TW") rfl
    (Or.inr (by decide))⟩

/-- C23. The exclusion set and the FAQ table agree. `FaqsContents` has an
English and a Chinese table; each of the twelve entries of
`excludedCategories` is a key of exactly one of them; every key of either
table is an entry of `excludedCategories`; no key is written twice; and the
prose under every key is not empty. So every category text the page-load
handler routes to `renderFaqContent` has prose in one of the two languages. -/
theorem excludedCategories_faqs :
    ∃ en zh, FaqsContents.en = some en ∧ FaqsContents.zh = some zh ∧
      excludedCategories.length = 12 ∧
      (∀ c ∈ excludedCategories,
        categoryRender c = .renderFaqContent c ∧
        (getOwn c en).isSome ≠ (getOwn c zh).isSome) ∧
      (∀ e ∈ en, e.1 ∈ excludedCategories ∧ e.2 ≠ "") ∧
      (∀ e ∈ zh, e.1 ∈ excludedCategories ∧ e.2 ≠ "") ∧
      (en.map fun e => e.1).Nodup ∧ (zh.map fun e => e.1).Nodup :=
  ⟨_, _, rfl, rfl, by decide, by decide, by decide, by decide, by decide, by decide⟩

/-! ## Dropdowns -/

theorem indexOf_item (items : List Element) (i : Nat) (item : Element)
    (hnodup : items.Nodup) (hitem : items[i]? = some item) :
    indexOf items (some item) = (i : Int) := by
  obtain ⟨hi, hget⟩ := List.getElem?_eq_some.mp hitem
  have hmem : item ∈ items := by rw [← hget]; exact List.getElem_mem hi
  unfold indexOf
  simp only [hmem, if_true]
  rw [← hget, List.indexOf_getElem hnodup i hi]

theorem indexOf_not_item (items : List Element) (item : Element) (h : item ∉ items) :
    indexOf items (some item) = -1 := by
  unfold indexOf
  simp only [h, if_false]

theorem indexOf_range (items : List Element) (c : Option Element) :
    -1 ≤ indexOf items c ∧ indexOf items c < (items.length : Int) := by
  unfold indexOf
  cases c with
  | none => simp only; omega
  | some item =>
    simp only
    by_cases hmem : item ∈ items
    · have hlt := List.indexOf_lt_length.mpr hmem
      simp only [hmem, if_true]
      omega
    · simp only [hmem, if_false]
      omega

theorem nextIndex_range (n : Nat) (c : Int) (hn : 0 < n) (hhi : c < (n : Int)) :
    0 ≤ nextIndex n c ∧ nextIndex n c < (n : Int) := by
  unfold nextIndex
  split <;> omega

theorem previousIndex_range (n : Nat) (c : Int) (hn : 0 < n) (hhi : c < (n : Int)) :
    0 ≤ previousIndex n c ∧ previousIndex n c < (n : Int) := by
  unfold previousIndex
  split <;> omega

theorem nextIndex_mod (n i : Nat) (hi : i < n) :
    nextIndex n (i : Int) = (((i + 1) % n : Nat) : Int) := by
  unfold nextIndex
  by_cases hlast : i + 1 = n
  · have hc : (i : Int) = (n : Int) - 1 ∨ (i : Int) < 0 := Or.inl (by omega)
    rw [if_pos hc, hlast, Nat.mod_self]
    rfl
  · have hc : ¬ ((i : Int) = (n : Int) - 1 ∨ (i : Int) < 0) := by omega
    rw [if_neg hc, Nat.mod_eq_of_lt (by omega)]
    omega

theorem previousIndex_mod (n i : Nat) (hi : i < n) :
    previousIndex n (i : Int) = (((i + n - 1) % n : Nat) : Int) := by
  unfold previousIndex
  by_cases hfirst : i = 0
  · have hc : (i : Int) ≤ 0 := by omega
    rw [if_pos hc, hfirst, Nat.zero_add, Nat.mod_eq_of_lt (by omega)]
    omega
  · have hc : ¬ ((i : Int) ≤ 0) := by omega
    have hsum : i + n - 1 = (i - 1) + n := by omega
    rw [if_neg hc, hsum, Nat.add_mod_right, Nat.mod_eq_of_lt (by omega)]
    omega

theorem focusItem_at (d : Dropdown) (j : Nat) (item : Element)
    (hitem : d.menuItems[j]? = some item) :
    d.focusItem (j : Int) = ⟨{ d with activeElement := some item }, .normal⟩ := by
  unfold Dropdown.focusItem
  have hneg : ¬ ((j : Int) < 0) := by omega
  rw [if_neg hneg]
  simp only [Int.toNat_ofNat, hitem]

theorem focusItem_range (d : Dropdown) (index : Int) (hlo : 0 ≤ index)
    (hhi : index < (d.menuItems.length : Int)) :
    ∃ item, d.menuItems[index.toNat]? = some item ∧
      d.focusItem index = ⟨{ d with activeElement := some item }, .normal⟩ := by
  have hlt : index.toNat < d.menuItems.length := by omega
  refine ⟨d.menuItems[index.toNat], List.getElem?_eq_getElem hlt, ?_⟩
  unfold Dropdown.focusItem
  have hneg : ¬ (index < 0) := by omega
  rw [if_neg hneg, List.getElem?_eq_getElem hlt]

theorem focusNextMenuItem_empty (d : Dropdown) (c : Option Element) (h : d.menuItems = []) :
    d.focusNextMenuItem c = ⟨d, .normal⟩ := by
  unfold Dropdown.focusNextMenuItem
  simp [h]

theorem focusPreviousMenuItem_empty (d : Dropdown) (c : Option Element)
    (h : d.menuItems = []) :
    d.focusPreviousMenuItem c = ⟨d, .normal⟩ := by
  unfold Dropdown.focusPreviousMenuItem
  simp [h]

theorem focusNextMenuItem_index (d : Dropdown) (c : Option Element) (j : Nat)
    (item : Element) (hj : nextIndex d.menuItems.length (indexOf d.menuItems c) = (j : Int))
    (hitem : d.menuItems[j]? = some item) :
    d.focusNextMenuItem c = ⟨{ d with activeElement := some item }, .normal⟩ := by
  have hne : ¬ (d.menuItems.length = 0) := by
    intro h
    rw [List.length_eq_zero] at h
    rw [h] at hitem
    simp at hitem
  unfold Dropdown.focusNextMenuItem
  rw [if_neg hne]
  simp only [hj]
  exact focusItem_at d j item hitem

theorem focusPreviousMenuItem_index (d : Dropdown) (c : Option Element) (j : Nat)
    (item : Element) (hj : previousIndex d.menuItems.length (indexOf d.menuItems c) = (j : Int))
    (hitem : d.menuItems[j]? = some item) :
    d.focusPreviousMenuItem c = ⟨{ d with activeElement := some item }, .normal⟩ := by
  have hne : ¬ (d.menuItems.length = 0) := by
    intro h
    rw [List.length_eq_zero] at h
    rw [h] at hitem
    simp at hitem
  unfold Dropdown.focusPreviousMenuItem
  rw [if_neg hne]
  simp only [hj]
  exact focusItem_at d j item hitem

theorem focusNextMenuItem_frame (d : Dropdown) (c : Option Element) :
    ∃ active, d.focusNextMenuItem c = ⟨{ d with activeElement := active }, .normal⟩ := by
  by_cases hempty : d.menuItems = []
  · exact ⟨d.activeElement, focusNextMenuItem_empty d c hempty⟩
  · have hn : 0 < d.menuItems.length := List.length_pos.mpr hempty
    have hr := nextIndex_range d.menuItems.length (indexOf d.menuItems c) hn
      (indexOf_range d.menuItems c).2
    obtain ⟨item, _, hfocus⟩ := focusItem_range d _ hr.1 hr.2
    refine ⟨some item, ?_⟩
    unfold Dropdown.focusNextMenuItem
    rw [if_neg (by omega)]
    exact hfocus

theorem focusPreviousMenuItem_frame (d : Dropdown) (c : Option Element) :
    ∃ active, d.focusPreviousMenuItem c = ⟨{ d with activeElement := active }, .normal⟩ := by
  by_cases hempty : d.menuItems = []
  · exact ⟨d.activeElement, focusPreviousMenuItem_empty d c hempty⟩
  · have hn : 0 < d.menuItems.length := List.length_pos.mpr hempty
    have hr := previousIndex_range d.menuItems.length (indexOf d.menuItems c) hn
      (indexOf_range d.menuItems c).2
    obtain ⟨item, _, hfocus⟩ := focusItem_range d _ hr.1 hr.2
    refine ⟨some item, ?_⟩
    unfold Dropdown.focusPreviousMenuItem
    rw [if_neg (by omega)]
    exact hfocus

theorem focusNextMenuItem_item (d : Dropdown) (i : Nat) (item : Element)
    (hnodup : d.menuItems.Nodup) (hitem : d.menuItems[i]? = some item) :
    ∃ next, d.menuItems[(i + 1) % d.menuItems.length]? = some next ∧
      d.focusNextMenuItem (some item) = ⟨{ d with activeElement := some next }, .normal⟩ := by
  obtain ⟨hi, _⟩ := List.getElem?_eq_some.mp hitem
  have hlt : (i + 1) % d.menuItems.length < d.menuItems.length := Nat.mod_lt _ (by omega)
  refine ⟨d.menuItems[(i + 1) % d.menuItems.length], List.getElem?_eq_getElem hlt, ?_⟩
  apply focusNextMenuItem_index d (some item) ((i + 1) % d.menuItems.length)
  · rw [indexOf_item d.menuItems i item hnodup hitem, nextIndex_mod _ _ hi]
  · exact List.getElem?_eq_getElem hlt

theorem focusPreviousMenuItem_item (d : Dropdown) (i : Nat) (item : Element)
    (hnodup : d.menuItems.Nodup) (hitem : d.menuItems[i]? = some item) :
    ∃ previous,
      d.menuItems[(i + d.menuItems.length - 1) % d.menuItems.length]? = some previous ∧
      d.focusPreviousMenuItem (some item) =
        ⟨{ d with activeElement := some previous }, .normal⟩ := by
  obtain ⟨hi, _⟩ := List.getElem?_eq_some.mp hitem
  have hlt : (i + d.menuItems.length - 1) % d.menuItems.length < d.menuItems.length :=
    Nat.mod_lt _ (by omega)
  refine ⟨d.menuItems[(i + d.menuItems.length - 1) % d.menuItems.length],
    List.getElem?_eq_getElem hlt, ?_⟩
  apply focusPreviousMenuItem_index d (some item)
    ((i + d.menuItems.length - 1) % d.menuItems.length)
  · rw [indexOf_item d.menuItems i item hnodup hitem, previousIndex_mod _ _ hi]
  · exact List.getElem?_eq_getElem hlt

theorem focusNextMenuItem_first (d : Dropdown) (c : Option Element) (first : Element)
    (hc : indexOf d.menuItems c = -1) (hfirst : d.menuItems[0]? = some first) :
    d.focusNextMenuItem c = ⟨{ d with activeElement := some first }, .normal⟩ := by
  apply focusNextMenuItem_index d c 0 first _ hfirst
  rw [hc]
  unfold nextIndex
  rw [if_pos (Or.inr (by omega))]
  rfl

theorem focusPreviousMenuItem_last (d : Dropdown) (c : Option Element) (last : Element)
    (hc : indexOf d.menuItems c = -1)
    (hlast : d.menuItems[d.menuItems.length - 1]? = some last) :
    d.focusPreviousMenuItem c = ⟨{ d with activeElement := some last }, .normal⟩ := by
  have hn : 0 < d.menuItems.length := by
    obtain ⟨h, _⟩ := List.getElem?_eq_some.mp hlast
    omega
  apply focusPreviousMenuItem_index d c (d.menuItems.length - 1) last _ hlast
  rw [hc]
  unfold previousIndex
  rw [if_pos (by omega)]
  omega

/-- C24. Keyboard focus cycles within the menu items. For a menu without
items neither method focuses anything. For `n > 0` items: with no current item
or one that is no menu item, `focusNextMenuItem` focuses the item 0 and
`focusPreviousMenuItem` the item `n - 1`; with the current item at the index
`i`, they choose the indices `(i + 1) mod n` and `(i - 1) mod n`, written
`(i + n - 1) mod n`, both below `n`, each chosen index led back to `i` by the
other method, and the item at the chosen index gets the focus. -/
theorem focus_cycles (d : Dropdown) :
    (d.menuItems = [] → ∀ c,
      d.focusNextMenuItem c = ⟨d, .normal⟩ ∧ d.focusPreviousMenuItem c = ⟨d, .normal⟩) ∧
    (∀ c first last, indexOf d.menuItems c = -1 →
      d.menuItems[0]? = some first → d.menuItems[d.menuItems.length - 1]? = some last →
      nextIndex d.menuItems.length (-1) = 0 ∧
      previousIndex d.menuItems.length (-1) = (d.menuItems.length : Int) - 1 ∧
      d.focusNextMenuItem c = ⟨{ d with activeElement := some first }, .normal⟩ ∧
      d.focusPreviousMenuItem c = ⟨{ d with activeElement := some last }, .normal⟩) ∧
    (∀ item, item ∉ d.menuItems → indexOf d.menuItems (some item) = -1) ∧
    indexOf d.menuItems none = -1 ∧
    (∀ i : Nat, i < d.menuItems.length →
      nextIndex d.menuItems.length (i : Int) = (((i + 1) % d.menuItems.length : Nat) : Int) ∧
      previousIndex d.menuItems.length (i : Int) =
        (((i + d.menuItems.length - 1) % d.menuItems.length : Nat) : Int) ∧
      (i + 1) % d.menuItems.length < d.menuItems.length ∧
      (i + d.menuItems.length - 1) % d.menuItems.length < d.menuItems.length ∧
      previousIndex d.menuItems.length (nextIndex d.menuItems.length (i : Int)) = (i : Int) ∧
      nextIndex d.menuItems.length (previousIndex d.menuItems.length (i : Int)) = (i : Int)) ∧
    (∀ (i : Nat) (item : Element), d.menuItems.Nodup → d.menuItems[i]? = some item →
      indexOf d.menuItems (some item) = (i : Int) ∧
      (∃ next, d.menuItems[(i + 1) % d.menuItems.length]? = some next ∧
        d.focusNextMenuItem (some item) = ⟨{ d with activeElement := some next }, .normal⟩) ∧
      (∃ previous,
        d.menuItems[(i + d.menuItems.length - 1) % d.menuItems.length]? = some previous ∧
        d.focusPreviousMenuItem (some item) =
          ⟨{ d with activeElement := some previous }, .normal⟩)) := by
  refine ⟨?_, ?_, ?_, rfl, ?_, ?_⟩
  · intro hempty c
    exact ⟨focusNextMenuItem_empty d c hempty, focusPreviousMenuItem_empty d c hempty⟩
  · intro c first last hc hfirst hlast
    refine ⟨?_, ?_, focusNextMenuItem_first d c first hc hfirst,
      focusPreviousMenuItem_last d c last hc hlast⟩
    · unfold nextIndex
      rw [if_pos (Or.inr (by omega))]
    · unfold previousIndex
      rw [if_pos (by omega)]
  · intro item hitem
    exact indexOf_not_item d.menuItems item hitem
  · intro i hi
    refine ⟨nextIndex_mod _ _ hi, previousIndex_mod _ _ hi, Nat.mod_lt _ (by omega),
      Nat.mod_lt _ (by omega), ?_, ?_⟩
    · unfold nextIndex previousIndex
      split <;> split <;> omega
    · unfold nextIndex previousIndex
      split <;> split <;> omega
  · intro i item hnodup hitem
    exact ⟨indexOf_item d.menuItems i item hnodup hitem,
      focusNextMenuItem_item d i item hnodup hitem,
      focusPreviousMenuItem_item d i item hnodup hitem⟩

/-- C24 on a menu of three items: from the last item the next one is the
first, from the first item the previous one is the last. -/
theorem focus_cycles_witness :
    (sampleDropdown [4, 5, 6] 6).focusNextMenuItem (some 6) =
      ⟨sampleDropdown [4, 5, 6] 4, .normal⟩ ∧
    (sampleDropdown [4, 5, 6] 4).focusPreviousMenuItem (some 4) =
      ⟨sampleDropdown [4, 5, 6] 6, .normal⟩ ∧
    (sampleDropdown [4, 5, 6] 0).focusNextMenuItem none =
      ⟨sampleDropdown [4, 5, 6] 4, .normal⟩ ∧
    (sampleDropdown [] 0).focusNextMenuItem (some 4) = ⟨sampleDropdown [] 0, .normal⟩ ∧
    nextIndex 3 (2 : Nat) = (((2 + 1) % 3 : Nat) : Int) :=
  ⟨by
      obtain ⟨next, hnext, hfocus⟩ :=
        ((focus_cycles (sampleDropdown [4, 5, 6] 6)).2.2.2.2.2 2 6 (by decide) rfl).2.1
      cases hnext
      exact hfocus,
    rfl, rfl,
    ((focus_cycles (sampleDropdown [] 0)).1 rfl (some 4)).1,
    ((focus_cycles (sampleDropdown [4, 5, 6] 6)).2.2.2.2.1 2 (by decide)).1⟩

theorem handleOverflow_ariaExpanded (layout : Layout) (d : Dropdown) :
    (d.handleOverflow layout).ariaExpanded = d.ariaExpanded := by
  unfold Dropdown.handleOverflow
  simp only
  repeat' split
  all_goals rfl

theorem dismiss_collapsed (d : Dropdown) (h : d.isExpanded = false) : d.dismiss = d := by
  unfold Dropdown.dismiss
  simp [h]

theorem openMenu_expanded (layout : Layout) (d : Dropdown) (h : d.isExpanded = true) :
    d.openMenu layout = d := by
  unfold Dropdown.openMenu
  simp [h]

theorem dismiss_expanded (d : Dropdown) (h : d.isExpanded = true) :
    d.dismiss =
      { d with
        ariaExpanded := some "false",
        classList :=
          classListRemove "dropdown-menu-top"
            (classListRemove "dropdown-menu-end" d.classList) } := by
  unfold Dropdown.dismiss
  simp [h]

theorem dismiss_isExpanded (d : Dropdown) : (d.dismiss).isExpanded = false := by
  cases h : d.isExpanded with
  | false => rw [dismiss_collapsed d h, h]
  | true =>
    rw [dismiss_expanded d h]
    simp [Dropdown.isExpanded]

theorem openMenu_isExpanded (layout : Layout) (d : Dropdown) :
    (d.openMenu layout).isExpanded = true := by
  cases h : d.isExpanded with
  | true => rw [openMenu_expanded layout d h, h]
  | false =>
    unfold Dropdown.openMenu
    simp only [h, Bool.false_eq_true, if_false]
    unfold Dropdown.isExpanded
    rw [handleOverflow_ariaExpanded]
    simp

theorem clickHandler_isExpanded (layout : Layout) (d : Dropdown) :
    (d.clickHandler layout).isExpanded = !d.isExpanded := by
  unfold Dropdown.clickHandler
  cases h : d.isExpanded with
  | true => simp [dismiss_isExpanded]
  | false => simp [openMenu_isExpanded]

/-- C25. `clickHandler` negates the expanded state, whatever the layout
measured, so two clicks restore it. `dismiss` leaves a collapsed dropdown as it
is and `open` an expanded one. `dismiss` on an expanded dropdown sets
`aria-expanded` to `false`, leaves neither `dropdown-menu-end` nor
`dropdown-menu-top` in the class list of the menu, and keeps every other
class. -/
theorem clickHandler_negates (layout second : Layout) (d : Dropdown) :
    (d.clickHandler layout).isExpanded = !d.isExpanded ∧
    ((d.clickHandler layout).clickHandler second).isExpanded = d.isExpanded ∧
    (d.isExpanded = false → d.dismiss = d) ∧
    (d.isExpanded = true → d.openMenu layout = d) ∧
    (d.isExpanded = true →
      (d.dismiss).ariaExpanded = some "false" ∧
      (d.dismiss).isExpanded = false ∧
      "dropdown-menu-end" ∉ (d.dismiss).classList ∧
      "dropdown-menu-top" ∉ (d.dismiss).classList ∧
      (∀ name, name ≠ "dropdown-menu-end" → name ≠ "dropdown-menu-top" →
        (name ∈ (d.dismiss).classList ↔ name ∈ d.classList)) ∧
      (d.dismiss).menuItems = d.menuItems ∧ (d.dismiss).activeElement = d.activeElement) := by
  refine ⟨clickHandler_isExpanded layout d, ?_, dismiss_collapsed d,
    openMenu_expanded layout d, ?_⟩
  · rw [clickHandler_isExpanded, clickHandler_isExpanded, Bool.not_not]
  · intro h
    rw [dismiss_expanded d h]
    refine ⟨rfl, by simp [Dropdown.isExpanded], ?_, ?_, ?_, rfl, rfl⟩
    · simp [classListRemove]
    · simp [classListRemove]
    · intro name hend htop
      simp [classListRemove, hend, htop]

/-- C25 on the sample dropdown, which is expanded and placed at the end. -/
theorem clickHandler_negates_witness :
    ((sampleDropdown [4, 5, 6] 4).clickHandler sampleLayout).isExpanded = false ∧
    (((sampleDropdown [4, 5, 6] 4).clickHandler sampleLayout).clickHandler
      sampleLayout).isExpanded = true ∧
    ((sampleDropdown [4, 5, 6] 4).dismiss).classList = ["dropdown-menu"] ∧
    "dropdown-menu-end" ∉ ((sampleDropdown [4, 5, 6] 4).dismiss).classList :=
  ⟨(clickHandler_negates sampleLayout sampleLayout (sampleDropdown [4, 5, 6] 4)).1,
    (clickHandler_negates sampleLayout sampleLayout (sampleDropdown [4, 5, 6] 4)).2.1,
    by decide,
    ((clickHandler_negates sampleLayout sampleLayout (sampleDropdown [4, 5, 6] 4)).2.2.2.2
      rfl).2.2.1⟩

theorem menuKeyHandler_tab_leaving (e : KeyEvent) (d : Dropdown) (hkey : e.keyCode = TAB)
    (hleaves : leavesMenu e d = true) :
    d.menuKeyHandler e = ⟨d.dismiss, .normal⟩ := by
  unfold leavesMenu at hleaves
  unfold Dropdown.menuKeyHandler
  have h1 : ¬ (e.keyCode = ESCAPE) := by rw [hkey]; decide
  have h2 : ¬ (e.keyCode = DOWN) := by rw [hkey]; decide
  have h3 : ¬ (e.keyCode = UP) := by rw [hkey]; decide
  simp only [if_neg h1, if_neg h2, if_neg h3, if_pos hkey]
  cases hshift : e.shiftKey with
  | true =>
    rw [hshift] at hleaves
    simp only [if_true, decide_eq_true_eq] at hleaves
    simp only [if_true, hleaves]
  | false =>
    rw [hshift] at hleaves
    simp only [Bool.false_eq_true, if_false, decide_eq_true_eq] at hleaves
    simp only [Bool.false_eq_true, if_false, hleaves, if_true]

theorem menuKeyHandler_tab_staying (e : KeyEvent) (d : Dropdown) (hkey : e.keyCode = TAB)
    (hstays : leavesMenu e d = false) :
    d.menuKeyHandler e =
      if e.shiftKey then (d.preventDefault).focusPreviousMenuItem (some e.target)
      else (d.preventDefault).focusNextMenuItem (some e.target) := by
  unfold leavesMenu at hstays
  unfold Dropdown.menuKeyHandler
  have h1 : ¬ (e.keyCode = ESCAPE) := by rw [hkey]; decide
  have h2 : ¬ (e.keyCode = DOWN) := by rw [hkey]; decide
  have h3 : ¬ (e.keyCode = UP) := by rw [hkey]; decide
  simp only [if_neg h1, if_neg h2, if_neg h3, if_pos hkey]
  cases hshift : e.shiftKey with
  | true =>
    rw [hshift] at hstays
    simp only [if_true, decide_eq_false_iff_not] at hstays
    have hne : ¬ (some e.target = d.menuItems[0]?) := fun h => hstays h.symm
    simp only [if_true, if_neg hne]
  | false =>
    rw [hshift] at hstays
    simp only [Bool.false_eq_true, if_false, decide_eq_false_iff_not] at hstays
    have hne : ¬ (some e.target = d.menuItems[d.menuItems.length - 1]?) :=
      fun h => hstays h.symm
    simp only [Bool.false_eq_true, if_false, if_neg hne]

theorem menuKeyHandler_tab_frame (e : KeyEvent) (d : Dropdown) (hkey : e.keyCode = TAB)
    (hstays : leavesMenu e d = false) :
    ∃ active, d.menuKeyHandler e =
      ⟨{ d with defaultPrevented := true, activeElement := active }, .normal⟩ := by
  rw [menuKeyHandler_tab_staying e d hkey hstays]
  cases e.shiftKey with
  | true =>
    obtain ⟨active, h⟩ := focusPreviousMenuItem_frame d.preventDefault (some e.target)
    exact ⟨active, by simp only [if_true, h]; rfl⟩
  | false =>
    obtain ⟨active, h⟩ := focusNextMenuItem_frame d.preventDefault (some e.target)
    exact ⟨active, by simp only [Bool.false_eq_true, if_false, h]; rfl⟩

/-- C26, as stated, fails. In a menu without menu items the Tab key, with or
without Shift, prevents the default and moves the focus nowhere. In a menu
with the items 4, 5, 6 and a target 9 that is no menu item, Tab moves the focus
to the first item and Shift+Tab to the last one, wherever the target lies. In
both menus the menu stays expanded. -/
theorem menuKeyHandler_tab_without_items :
    (sampleDropdown [] 9).menuKeyHandler { keyCode := TAB, shiftKey := false, target := 9 } =
      ⟨{ sampleDropdown [] 9 with defaultPrevented := true }, .normal⟩ ∧
    (sampleDropdown [] 9).menuKeyHandler { keyCode := TAB, shiftKey := true, target := 9 } =
      ⟨{ sampleDropdown [] 9 with defaultPrevented := true }, .normal⟩ ∧
    ((sampleDropdown [] 9).menuKeyHandler
      { keyCode := TAB, shiftKey := false, target := 9 }).state.activeElement = some 9 ∧
    (sampleDropdown [4, 5, 6] 9).menuKeyHandler
        { keyCode := TAB, shiftKey := false, target := 9 } =
      ⟨{ sampleDropdown [4, 5, 6] 4 with defaultPrevented := true }, .normal⟩ ∧
    (sampleDropdown [4, 5, 6] 9).menuKeyHandler
        { keyCode := TAB, shiftKey := true, target := 9 } =
      ⟨{ sampleDropdown [4, 5, 6] 6 with defaultPrevented := true }, .normal⟩ :=
  ⟨rfl, rfl, rfl, rfl, rfl⟩

/-- C26, amended. On the Tab key `menuKeyHandler` calls `dismiss`, and nothing
else, exactly when the target is the last menu item, or with Shift the first;
an expanded menu is collapsed by the key exactly then. In every other case the
handler prevents the default, leaves the expanded state and the classes of the
menu as they are, and calls `focusNextMenuItem`, with Shift
`focusPreviousMenuItem`, for the target: when the target is the menu item at
the index `i`, the focus moves to the item at `i + 1`, with Shift at `i - 1`;
when the target is no menu item, the focus moves to the first item, with Shift
to the last; when the menu has no items, the focus is not moved. -/
theorem menuKeyHandler_tab (e : KeyEvent) (d : Dropdown) (hkey : e.keyCode = TAB) :
    (leavesMenu e d = true → d.menuKeyHandler e = ⟨d.dismiss, .normal⟩) ∧
    (d.isExpanded = true →
      ((d.menuKeyHandler e).state.isExpanded = false ↔ leavesMenu e d = true)) ∧
    (leavesMenu e d = false →
      (d.menuKeyHandler e).completion = .normal ∧
      (d.menuKeyHandler e).state.defaultPrevented = true ∧
      (d.menuKeyHandler e).state.isExpanded = d.isExpanded ∧
      (d.menuKeyHandler e).state.classList = d.classList ∧
      (d.menuKeyHandler e =
        if e.shiftKey then (d.preventDefault).focusPreviousMenuItem (some e.target)
        else (d.preventDefault).focusNextMenuItem (some e.target)) ∧
      (d.menuItems = [] → (d.menuKeyHandler e).state.activeElement = d.activeElement) ∧
      (∀ first last, e.target ∉ d.menuItems → d.menuItems[0]? = some first →
        d.menuItems[d.menuItems.length - 1]? = some last →
        (d.menuKeyHandler e).state.activeElement =
          some (if e.shiftKey then last else first)) ∧
      (∀ i : Nat, d.menuItems.Nodup → d.menuItems[i]? = some e.target →
        (if e.shiftKey then 0 < i else i + 1 < d.menuItems.length) ∧
        (d.menuKeyHandler e).state.activeElement =
          d.menuItems[if e.shiftKey then i - 1 else i + 1]? ∧
        ((d.menuKeyHandler e).state.activeElement).isSome)) := by
  refine ⟨menuKeyHandler_tab_leaving e d hkey, ?_, ?_⟩
  · intro hexpanded
    cases hleaves : leavesMenu e d with
    | true =>
      rw [menuKeyHandler_tab_leaving e d hkey hleaves]
      simp [dismiss_isExpanded]
    | false =>
      obtain ⟨active, h⟩ := menuKeyHandler_tab_frame e d hkey hleaves
      rw [h]
      simp only [Bool.false_eq_true, iff_false]
      show ¬ (d.isExpanded = false)
      rw [hexpanded]
      decide
  · intro hstays
    obtain ⟨active, hframe⟩ := menuKeyHandler_tab_frame e d hkey hstays
    have hstep := menuKeyHandler_tab_staying e d hkey hstays
    refine ⟨by rw [hframe], by rw [hframe], by rw [hframe]; rfl, by rw [hframe], hstep,
      ?_, ?_, ?_⟩
    · intro hempty
      rw [hstep]
      cases e.shiftKey with
      | true =>
        simp only [if_true]
        rw [focusPreviousMenuItem_empty d.preventDefault _ hempty]
        rfl
      | false =>
        simp only [Bool.false_eq_true, if_false]
        rw [focusNextMenuItem_empty d.preventDefault _ hempty]
        rfl
    · intro first last hnot hfirst hlast
      have hindex : indexOf (d.preventDefault).menuItems (some e.target) = -1 :=
        indexOf_not_item d.menuItems e.target hnot
      rw [hstep]
      cases e.shiftKey with
      | true =>
        simp only [if_true]
        rw [focusPreviousMenuItem_last d.preventDefault _ last hindex hlast]
      | false =>
        simp only [Bool.false_eq_true, if_false]
        rw [focusNextMenuItem_first d.preventDefault _ first hindex hfirst]
    · intro i hnodup hitem
      obtain ⟨hi, _⟩ := List.getElem?_eq_some.mp hitem
      unfold leavesMenu at hstays
      rw [hstep]
      cases hshift : e.shiftKey with
      | true =>
        rw [hshift] at hstays
        simp only [if_true, decide_eq_false_iff_not] at hstays
        have hpos : 0 < i := by
          rcases Nat.eq_zero_or_pos i with h0 | h0
          · rw [h0] at hitem
            exact absurd hitem hstays
          · exact h0
        obtain ⟨previous, hprevious, hfocus⟩ :=
          focusPreviousMenuItem_item d.preventDefault i e.target hnodup hitem
        have hmod : (i + d.menuItems.length - 1) % d.menuItems.length = i - 1 := by
          have hsum : i + d.menuItems.length - 1 = (i - 1) + d.menuItems.length := by omega
          rw [hsum, Nat.add_mod_right, Nat.mod_eq_of_lt (by omega)]
        have hprevious2 : d.menuItems[i - 1]? = some previous := by
          rw [← hmod]; exact hprevious
        simp only [if_true]
        rw [hfocus]
        exact ⟨hpos, hprevious2.symm, rfl⟩
      | false =>
        rw [hshift] at hstays
        simp only [Bool.false_eq_true, if_false, decide_eq_false_iff_not] at hstays
        have hlt : i + 1 < d.menuItems.length := by
          rcases Nat.lt_or_ge (i + 1) d.menuItems.length with h0 | h0
          · exact h0
          · have hlast : d.menuItems.length - 1 = i := by omega
            rw [hlast] at hstays
            exact absurd hitem hstays
        obtain ⟨next, hnext, hfocus⟩ :=
          focusNextMenuItem_item d.preventDefault i e.target hnodup hitem
        have hmod : (i + 1) % d.menuItems.length = i + 1 := Nat.mod_eq_of_lt hlt
        have hnext2 : d.menuItems[i + 1]? = some next := by
          rw [← hmod]; exact hnext
        simp only [Bool.false_eq_true, if_false]
        rw [hfocus]
        exact ⟨hlt, hnext2.symm, rfl⟩

/-- C26 on the menu with the items 4, 5, 6: Tab on the last item dismisses the
menu, Tab on the second item moves the focus to the third. -/
theorem menuKeyHandler_tab_witness :
    (sampleDropdown [4, 5, 6] 6).menuKeyHandler
        { keyCode := TAB, shiftKey := false, target := 6 } =
      ⟨(sampleDropdown [4, 5, 6] 6).dismiss, .normal⟩ ∧
    ((sampleDropdown [4, 5, 6] 6).dismiss).isExpanded = false ∧
    ((sampleDropdown [4, 5, 6] 5).menuKeyHandler
      { keyCode := TAB, shiftKey := false, target := 5 }).state.activeElement = some 6 :=
  ⟨(menuKeyHandler_tab { keyCode := TAB, shiftKey := false, target := 6 }
      (sampleDropdown [4, 5, 6] 6) rfl).1 rfl,
    by decide,
    ((menuKeyHandler_tab { keyCode := TAB, shiftKey := false, target := 5 }
      (sampleDropdown [4, 5, 6] 5) rfl).2.2 rfl).2.2.2.2.2.2.2 1 (by decide) rfl |>.2.1⟩

/-! ## The filter of the home page -/

theorem filterBlocksItem_normal (lower : String → String) (filterId : String)
    (item : BlocksItem)
    (htitle : item.title.isSome) :
    (filterBlocksItem lower filterId item).completion = .normal := by
  obtain ⟨textContent, htext⟩ := Option.isSome_iff_exists.mp htitle
  unfold filterBlocksItem
  simp only [htext]
  split <;> rfl

theorem filterBlocksItems_at (lower : String → String) (filterId : String)
    (items : List BlocksItem) (k : Nat)
    (item : BlocksItem) (hitem : items[k]? = some item)
    (hbefore : ∀ m < k, ∃ earlier, items[m]? = some earlier ∧ earlier.title.isSome) :
    (filterBlocksItems lower filterId items).state[k]? =
      some (filterBlocksItem lower filterId item).state := by
  induction items generalizing k with
  | nil => simp at hitem
  | cons first rest ih =>
    unfold filterBlocksItems
    cases k with
    | zero =>
      simp only [List.getElem?_cons_zero, Option.some.injEq] at hitem
      subst hitem
      simp only
      split <;> simp
    | succ k =>
      have htitle : first.title.isSome := by
        obtain ⟨earlier, hearlier, h⟩ := hbefore 0 (by omega)
        simp only [List.getElem?_cons_zero, Option.some.injEq] at hearlier
        rw [hearlier]
        exact h
      have hnormal := filterBlocksItem_normal lower filterId first htitle
      simp only [hnormal, List.getElem?_cons_succ]
      simp only [List.getElem?_cons_succ] at hitem
      apply ih k hitem
      intro m hm
      have := hbefore (m + 1) (by omega)
      simpa only [List.getElem?_cons_succ] using this

theorem filterBlocksItems_normal (lower : String → String) (filterId : String)
    (items : List BlocksItem)
    (htitles : ∀ item ∈ items, item.title.isSome) :
    (filterBlocksItems lower filterId items).completion = .normal ∧
    (filterBlocksItems lower filterId items).state =
      items.map fun item => (filterBlocksItem lower filterId item).state := by
  induction items with
  | nil => exact ⟨rfl, rfl⟩
  | cons first rest ih =>
    have hnormal := filterBlocksItem_normal lower filterId first
      (htitles first (List.mem_cons_self _ _))
    obtain ⟨h1, h2⟩ := ih (fun item hmem => htitles item (List.mem_cons_of_mem _ hmem))
    unfold filterBlocksItems
    simp only [hnormal, h1, h2, List.map_cons]
    exact ⟨trivial, trivial⟩

theorem filterBlocksItem_excluded (lower : String → String) (filterId : String)
    (item : BlocksItem)
    (textContent : String) (htitle : item.title = some textContent)
    (hexcluded : isExcluded lower textContent = true) :
    filterBlocksItem lower filterId item = ⟨{ item with display := "none" }, .normal⟩ := by
  unfold isExcluded at hexcluded
  unfold filterBlocksItem
  simp only [htitle, hexcluded, if_true]

theorem filterBlocksItem_wash (lower : String → String) (filterId : String)
    (item : BlocksItem)
    (textContent : String) (htitle : item.title = some textContent)
    (hexcluded : isExcluded lower textContent = false)
    (hwash : includes (lower textContent) "wash" = true) :
    filterBlocksItem lower filterId item =
      ⟨{ item with
          display :=
            if filterId = "wash" ∨
                (filterId = "fdm" ∧ includes (lower textContent) "arco" = true) then ""
            else "none" },
        .normal⟩ := by
  unfold isExcluded at hexcluded
  unfold filterBlocksItem
  simp only [htitle, hexcluded, hwash, Bool.false_eq_true, if_false, Bool.not_true,
    Bool.and_false, Bool.false_and, Bool.true_or, Bool.or_true]
  by_cases hfdm : filterId = "fdm"
  · have hne : ¬ ("fdm" = "wash") := by decide
    by_cases harco : includes (lower textContent) "arco" = true
    · simp [hfdm, harco]
    · simp [hfdm, harco, hne]
  · by_cases hw : filterId = "wash"
    · simp [hw]
    · by_cases ho : filterId = "other"
      · have hne1 : ¬ ("other" = "fdm") := by decide
        have hne2 : ¬ ("other" = "wash") := by decide
        simp [ho, hne1, hne2]
      · simp [hfdm, hw, ho]

/-- C27. In `filterBlocksItems` exclusion comes first. On a page whose block
items up to the `k`-th have a title element, for every `filterId` and whatever
`toLowerCase` (the parameter `lower`) maps a title to: when the lower-cased
title of the `k`-th item holds an entry of `excludedTitles`, the
item is left with `display` set to `none`, whatever else the title holds. -/
theorem filterBlocksItems_excluded (lower : String → String) (filterId : String)
    (items : List BlocksItem) (k : Nat)
    (item : BlocksItem) (textContent : String)
    (hitem : items[k]? = some item) (htitle : item.title = some textContent)
    (hbefore : ∀ m < k, ∃ earlier, items[m]? = some earlier ∧ earlier.title.isSome)
    (hexcluded : ∃ excludedTitle ∈ excludedTitles,
      includes (lower textContent) excludedTitle = true) :
    (filterBlocksItems lower filterId items).state[k]? =
      some { item with display := "none" } := by
  have hany : isExcluded lower textContent = true := by
    unfold isExcluded
    rw [List.any_eq_true]
    exact hexcluded
  rw [filterBlocksItems_at lower filterId items k item hitem hbefore,
    filterBlocksItem_excluded lower filterId item textContent htitle hany]

/-- C27 for the item titled "Sonic Mega 8K FAQ" under the filter `sonic`. -/
theorem filterBlocksItems_excluded_witness :
    (filterBlocksItems toLowerCase "sonic"
      [{ title := some "Sonic Mini 8K", display := "none" },
       { title := some "Sonic Mega 8K FAQ", display := "" }]).state[1]? =
      some { title := some "Sonic Mega 8K FAQ", display := "none" } :=
  filterBlocksItems_excluded toLowerCase "sonic" _ 1 _ "Sonic Mega 8K FAQ" rfl rfl
    (by decide) ⟨"faq", by decide, by decide⟩

/-- C28. Wash items appear only under the wash filter. On a page whose block
items up to the `k`-th have a title element, when the lower-cased title of the
`k`-th item holds no entry of `excludedTitles` and holds `wash`, the item is
displayed (`display` reset to the empty text) when `filterId` is `wash`, and
when `filterId` is `fdm` and the title holds `arco`; for every other
`filterId` it is hidden. -/
theorem filterBlocksItems_wash (lower : String → String) (filterId : String)
    (items : List BlocksItem) (k : Nat)
    (item : BlocksItem) (textContent : String)
    (hitem : items[k]? = some item) (htitle : item.title = some textContent)
    (hbefore : ∀ m < k, ∃ earlier, items[m]? = some earlier ∧ earlier.title.isSome)
    (hnot : ∀ excludedTitle ∈ excludedTitles,
      includes (lower textContent) excludedTitle = false)
    (hwash : includes (lower textContent) "wash" = true) :
    (filterBlocksItems lower filterId items).state[k]? =
      some { item with
        display :=
          if filterId = "wash" ∨
              (filterId = "fdm" ∧ includes (lower textContent) "arco" = true) then ""
          else "none" } := by
  have hany : isExcluded lower textContent = false := by
    unfold isExcluded
    rw [List.any_eq_false]
    intro excludedTitle hmem
    rw [hnot excludedTitle hmem]
    decide
  rw [filterBlocksItems_at lower filterId items k item hitem hbefore,
    filterBlocksItem_wash lower filterId item textContent htitle hany hwash]

/-- C28 for the item titled "Arco Wash Kit" under the filters `fdm` and
`sonic`. -/
theorem filterBlocksItems_wash_witness :
    (filterBlocksItems toLowerCase "fdm"
      [{ title := some "Arco Wash Kit", display := "none" }]).state[0]? =
      some { title := some "Arco Wash Kit", display := "" } ∧
    (filterBlocksItems toLowerCase "sonic"
      [{ title := some "Arco Wash Kit", display := "" }]).state[0]? =
      some { title := some "Arco Wash Kit", display := "none" } :=
  ⟨filterBlocksItems_wash toLowerCase "fdm" _ 0 _ "Arco Wash Kit" rfl rfl (by decide) (by decide)
      (by decide),
    filterBlocksItems_wash toLowerCase "sonic" _ 0 _ "Arco Wash Kit" rfl rfl (by decide) (by decide)
      (by decide)⟩

/-! ## Accordion -/

theorem deactivate_isOpen (header : AccordionHeader) :
    (deactivate header).state.isOpen = false := by
  unfold deactivate
  cases h : header.nextElementSibling with
  | none => simp [AccordionHeader.isOpen, h]
  | some panel => simp [AccordionHeader.isOpen]

theorem deactivate_isActive (header : AccordionHeader) :
    (deactivate header).state.isActive = false := by
  unfold deactivate
  cases h : header.nextElementSibling <;>
    simp [AccordionHeader.isActive, classListRemove]

theorem deactivate_inside (header : AccordionHeader) :
    (deactivate header).state.insideAccordionDiv = header.insideAccordionDiv := by
  unfold deactivate
  cases h : header.nextElementSibling <;> simp

theorem countP_isOpen_cons (header : AccordionHeader) (rest : List AccordionHeader) :
    (header :: rest).countP AccordionHeader.isOpen =
      rest.countP AccordionHeader.isOpen + if header.isOpen = true then 1 else 0 :=
  List.countP_cons AccordionHeader.isOpen header rest

theorem deactivateAll_spec (acc : List AccordionHeader)
    (hinside : ∀ h ∈ acc, h.insideAccordionDiv = true)
    (hactive : ∀ h ∈ acc, h.isOpen = true → h.isActive = true) :
    (deactivateAll acc).state.length = acc.length ∧
    (∀ h ∈ (deactivateAll acc).state, h.insideAccordionDiv = true) ∧
    (∀ h ∈ (deactivateAll acc).state, h.isOpen = true → h.isActive = true) ∧
    (deactivateAll acc).state.countP AccordionHeader.isOpen ≤
      acc.countP AccordionHeader.isOpen ∧
    ((deactivateAll acc).completion = .normal →
      ∀ h ∈ (deactivateAll acc).state, h.isOpen = false ∧ h.isActive = false) := by
  induction acc with
  | nil =>
    refine ⟨rfl, ?_, ?_, Nat.le_refl _, ?_⟩
    · intro h hmem
      cases hmem
    · intro h hmem
      cases hmem
    · intro _ h hmem
      cases hmem
  | cons header rest ih =>
    have hin := hinside header (List.mem_cons_self _ _)
    have hac := hactive header (List.mem_cons_self _ _)
    obtain ⟨ih1, ih2, ih3, ih4, ih5⟩ :=
      ih (fun h hmem => hinside h (List.mem_cons_of_mem _ hmem))
        (fun h hmem => hactive h (List.mem_cons_of_mem _ hmem))
    have hclosed := deactivate_isOpen header
    have hdin : (deactivate header).state.insideAccordionDiv = true := by
      rw [deactivate_inside, hin]
    unfold deactivateAll
    by_cases hcond : (header.insideAccordionDiv && decide ("active" ∈ header.classList)) = true
    · rw [if_pos hcond]
      cases hc : (deactivate header).completion with
      | normal =>
        simp only [hc]
        refine ⟨by simp only [List.length_cons, ih1], ?_, ?_, ?_, ?_⟩
        · intro h hmem
          rcases List.mem_cons.mp hmem with heq | hmem
          · rw [heq]; exact hdin
          · exact ih2 h hmem
        · intro h hmem hopen
          rcases List.mem_cons.mp hmem with heq | hmem
          · rw [heq, hclosed] at hopen
            cases hopen
          · exact ih3 h hmem hopen
        · rw [countP_isOpen_cons, countP_isOpen_cons, hclosed]
          simp only [Bool.false_eq_true, if_false, Nat.add_zero]
          have : 0 ≤ (if header.isOpen = true then 1 else 0) := Nat.zero_le _
          omega
        · intro hnormal h hmem
          rcases List.mem_cons.mp hmem with heq | hmem
          · rw [heq]; exact ⟨hclosed, deactivate_isActive header⟩
          · exact ih5 hnormal h hmem
      | throw e =>
        simp only [hc]
        refine ⟨by simp only [List.length_cons], ?_, ?_, ?_, ?_⟩
        · intro h hmem
          rcases List.mem_cons.mp hmem with heq | hmem
          · rw [heq]; exact hdin
          · exact hinside h (List.mem_cons_of_mem _ hmem)
        · intro h hmem hopen
          rcases List.mem_cons.mp hmem with heq | hmem
          · rw [heq, hclosed] at hopen
            cases hopen
          · exact hactive h (List.mem_cons_of_mem _ hmem) hopen
        · rw [countP_isOpen_cons, countP_isOpen_cons, hclosed]
          simp only [Bool.false_eq_true, if_false, Nat.add_zero]
          omega
        · intro hnormal
          cases hnormal
    · rw [if_neg hcond]
      have hnotactive : header.isActive = false := by
        unfold AccordionHeader.isActive
        rw [hin] at hcond
        simpa using hcond
      have hheader : header.isOpen = false := by
        cases hopen : header.isOpen with
        | false => rfl
        | true =>
          rw [hac hopen] at hnotactive
          cases hnotactive
      simp only
      refine ⟨by simp only [List.length_cons, ih1], ?_, ?_, ?_, ?_⟩
      · intro h hmem
        rcases List.mem_cons.mp hmem with heq | hmem
        · rw [heq]; exact hin
        · exact ih2 h hmem
      · intro h hmem hopen
        rcases List.mem_cons.mp hmem with heq | hmem
        · rw [heq]; rw [heq] at hopen; exact hac hopen
        · exact ih3 h hmem hopen
      · rw [countP_isOpen_cons, countP_isOpen_cons]
        omega
      · intro hnormal h hmem
        rcases List.mem_cons.mp hmem with heq | hmem
        · rw [heq]; exact ⟨hheader, hnotactive⟩
        · exact ih5 hnormal h hmem

theorem countP_set_closed (l : List AccordionHeader) (k : Nat) (header : AccordionHeader)
    (hclosed : header.isOpen = false) :
    (l.set k header).countP AccordionHeader.isOpen ≤ l.countP AccordionHeader.isOpen := by
  induction l generalizing k with
  | nil => simp
  | cons first rest ih =>
    cases k with
    | zero =>
      rw [List.set_cons_zero, countP_isOpen_cons, countP_isOpen_cons, hclosed]
      simp only [Bool.false_eq_true, if_false, Nat.add_zero]
      omega
    | succ k =>
      rw [List.set_cons_succ, countP_isOpen_cons, countP_isOpen_cons]
      have := ih k
      omega

theorem countP_all_closed (l : List AccordionHeader)
    (hall : ∀ h ∈ l, h.isOpen = false) : l.countP AccordionHeader.isOpen = 0 := by
  rw [List.countP_eq_zero]
  intro h hmem
  rw [hall h hmem]
  decide

theorem countP_set_all_closed (l : List AccordionHeader) (k : Nat) (header : AccordionHeader)
    (hall : ∀ h ∈ l, h.isOpen = false) :
    (l.set k header).countP AccordionHeader.isOpen ≤ 1 := by
  induction l generalizing k with
  | nil => simp
  | cons first rest ih =>
    have hrest : ∀ h ∈ rest, h.isOpen = false := fun h hmem =>
      hall h (List.mem_cons_of_mem _ hmem)
    cases k with
    | zero =>
      rw [List.set_cons_zero, countP_isOpen_cons, countP_all_closed rest hrest]
      split <;> omega
    | succ k =>
      rw [List.set_cons_succ, countP_isOpen_cons, hall first (List.mem_cons_self _ _)]
      have := ih k hrest
      simp only [Bool.false_eq_true, if_false, Nat.add_zero]
      exact this

theorem getElem?_mem_list {α : Type} (l : List α) (k : Nat) (a : α) (h : l[k]? = some a) :
    a ∈ l := by
  obtain ⟨hk, heq⟩ := List.getElem?_eq_some.mp h
  rw [← heq]
  exact List.getElem_mem hk

theorem accordionClick_invariant (scrollHeight k : Nat) (acc : List AccordionHeader)
    (hinside : ∀ h ∈ acc, h.insideAccordionDiv = true)
    (hactive : ∀ h ∈ acc, h.isOpen = true → h.isActive = true)
    (hcount : acc.countP AccordionHeader.isOpen ≤ 1) :
    (∀ h ∈ (accordionClick scrollHeight k acc).state, h.insideAccordionDiv = true) ∧
    (∀ h ∈ (accordionClick scrollHeight k acc).state, h.isOpen = true → h.isActive = true) ∧
    (accordionClick scrollHeight k acc).state.countP AccordionHeader.isOpen ≤ 1 := by
  unfold accordionClick
  cases hk : acc[k]? with
  | none => exact ⟨hinside, hactive, hcount⟩
  | some header =>
    have hmemk : header ∈ acc := getElem?_mem_list _ _ _ hk
    simp only
    cases hpanel : header.nextElementSibling with
    | none => exact ⟨hinside, hactive, hcount⟩
    | some panel =>
      simp only
      by_cases hopen : panel.maxHeight ≠ ""
      · rw [if_pos hopen]
        have hnew : ({ header with nextElementSibling := some { panel with maxHeight := "" } } :
            AccordionHeader).isOpen = false := by
          simp [AccordionHeader.isOpen]
        refine ⟨?_, ?_, ?_⟩
        · intro h hmem
          rcases List.mem_or_eq_of_mem_set hmem with hold | heq
          · exact hinside h hold
          · rw [heq]; exact hinside header hmemk
        · intro h hmem hisOpen
          rcases List.mem_or_eq_of_mem_set hmem with hold | heq
          · exact hactive h hold hisOpen
          · rw [heq, hnew] at hisOpen
            cases hisOpen
        · exact Nat.le_trans (countP_set_closed acc k _ hnew) hcount
      · rw [if_neg hopen]
        obtain ⟨_, h2, h3, h4, h5⟩ := deactivateAll_spec acc hinside hactive
        cases hc : (deactivateAll acc).completion with
        | throw e =>
          have hr : (match Completion.throw e, (deactivateAll acc).state[k]? with
              | .normal, some header =>
                (⟨(deactivateAll acc).state.set k
                  { header with
                    classList := classListToggle "active" header.classList,
                    nextElementSibling :=
                      some { maxHeight := toString scrollHeight ++ "px" } },
                  .normal⟩ : Run (List AccordionHeader))
              | _, _ => deactivateAll acc) = deactivateAll acc := rfl
          rw [hr]
          exact ⟨h2, h3, Nat.le_trans h4 hcount⟩
        | normal =>
          have hall := h5 hc
          cases hk2 : (deactivateAll acc).state[k]? with
          | none =>
            exact ⟨h2, h3, Nat.le_trans h4 hcount⟩
          | some header2 =>
            have hmem2 : header2 ∈ (deactivateAll acc).state := getElem?_mem_list _ _ _ hk2
            have hnotactive : "active" ∉ header2.classList := by
              have := (hall header2 hmem2).2
              unfold AccordionHeader.isActive at this
              simpa using this
            have hnewActive : ({ header2 with
                classList := classListToggle "active" header2.classList,
                nextElementSibling := some { maxHeight := toString scrollHeight ++ "px" } } :
                AccordionHeader).isActive = true := by
              simp [AccordionHeader.isActive, classListToggle, hnotactive, classListAdd]
            refine ⟨?_, ?_, ?_⟩
            · intro h hmem
              rcases List.mem_or_eq_of_mem_set hmem with hold | heq
              · exact h2 h hold
              · rw [heq]; exact h2 header2 hmem2
            · intro h hmem hisOpen
              rcases List.mem_or_eq_of_mem_set hmem with hold | heq
              · exact h3 h hold hisOpen
              · rw [heq]; exact hnewActive
            · exact countP_set_all_closed _ k _ (fun h hmem => (hall h hmem).1)

theorem accordionClicks_invariant (clicks : List (Nat × Nat)) (acc : List AccordionHeader)
    (hinside : ∀ h ∈ acc, h.insideAccordionDiv = true)
    (hactive : ∀ h ∈ acc, h.isOpen = true → h.isActive = true)
    (hcount : acc.countP AccordionHeader.isOpen ≤ 1) :
    (∀ h ∈ accordionClicks clicks acc, h.isOpen = true → h.isActive = true) ∧
    (accordionClicks clicks acc).countP AccordionHeader.isOpen ≤ 1 := by
  induction clicks generalizing acc with
  | nil => exact ⟨hactive, hcount⟩
  | cons click rest ih =>
    obtain ⟨k, scrollHeight⟩ := click
    obtain ⟨h1, h2, h3⟩ := accordionClick_invariant scrollHeight k acc hinside hactive hcount
    exact ih _ h1 h2 h3

/-- C29. The accordion keeps at most one panel open. When every accordion
header lies inside an `.accordion-div` and no panel has a `max-height` in the
beginning, then after every sequence of clicks on headers, at whatever measured
heights, at most one panel has a `max-height`, and the header of every panel
that has one carries the class `active`. -/
theorem accordion_one_open (clicks : List (Nat × Nat)) (acc : List AccordionHeader)
    (hinside : ∀ h ∈ acc, h.insideAccordionDiv = true)
    (hclosed : ∀ h ∈ acc, h.isOpen = false) :
    (accordionClicks clicks acc).countP AccordionHeader.isOpen ≤ 1 ∧
    ∀ h ∈ accordionClicks clicks acc, h.isOpen = true → h.isActive = true := by
  have hactive : ∀ h ∈ acc, h.isOpen = true → h.isActive = true := by
    intro h hmem hopen
    rw [hclosed h hmem] at hopen
    cases hopen
  have hcount : acc.countP AccordionHeader.isOpen ≤ 1 := by
    rw [countP_all_closed acc hclosed]
    omega
  obtain ⟨h1, h2⟩ := accordionClicks_invariant clicks acc hinside hactive hcount
  exact ⟨h2, h1⟩

/-- C29 on the sample accordion: a click on the first header opens its panel,
a click on the second one then closes the first panel and opens the second,
and a further click on the second closes it and leaves the header active. -/
theorem accordion_one_open_witness :
    (accordionClicks [(0, 120), (1, 80), (1, 80), (0, 120)] sampleAccordion).countP
      AccordionHeader.isOpen ≤ 1 ∧
    accordionClicks [(0, 120)] sampleAccordion =
      [ { classList := ["accordion", "active"], insideAccordionDiv := true,
          nextElementSibling := some { maxHeight := "120px" } },
        { classList := ["accordion"], insideAccordionDiv := true,
          nextElementSibling := some { maxHeight := "" } } ] ∧
    accordionClicks [(0, 120), (1, 80)] sampleAccordion =
      [ { classList := ["accordion"], insideAccordionDiv := true,
          nextElementSibling := some { maxHeight := "" } },
        { classList := ["accordion", "active"], insideAccordionDiv := true,
          nextElementSibling := some { maxHeight := "80px" } } ] ∧
    accordionClicks [(0, 120), (1, 80), (1, 80)] sampleAccordion =
      [ { classList := ["accordion"], insideAccordionDiv := true,
          nextElementSibling := some { maxHeight := "" } },
        { classList := ["accordion", "active"], insideAccordionDiv := true,
          nextElementSibling := some { maxHeight := "" } } ] :=
  ⟨(accordion_one_open [(0, 120), (1, 80), (1, 80), (0, 120)] sampleAccordion
      (by decide) (by decide)).1,
    by decide, by decide, by decide⟩

/-! ## The checked category -/

/-- C30 fails for a radio button whose `id` is `列印小竅門`. On the sample page
with that checked radio, `getCheckedCategory` ends normally, sets the title to
`列印小竅門`, shows the first section and hides the second, and leaves the
radio with the `id` `3D 列印小竅門`, which it never had: the last test renames
whatever carries the shorter name. A second call then sets the title to
`3D 列印小竅門`. For the `id` `3D 列印小竅門` itself the `id` is restored, and the
section is looked up under the shorter name. -/
theorem getCheckedCategory_renames :
    (getCheckedCategory sampleQuery (sampleChecked "列印小竅門")).completion = .normal ∧
    (getCheckedCategory sampleQuery (sampleChecked "列印小竅門")).state =
      { checkedRadio := some { id := "3D 列印小竅門" },
        categroySectionTitle := some { innerHTML := "列印小竅門" },
        categroySections :=
          [ { classList := ["section-flex", "列印小竅門"] },
            { classList := ["section-flex", "FAQ", "hidden"] } ] } ∧
    (getCheckedCategory sampleQuery (sampleChecked "列印小竅門")).state.checkedRadio ≠
      (sampleChecked "列印小竅門").checkedRadio ∧
    (getCheckedCategory sampleQuery
      (getCheckedCategory sampleQuery (sampleChecked "列印小竅門")).state).state.categroySectionTitle =
      some { innerHTML := "3D 列印小竅門" } ∧
    (getCheckedCategory sampleQuery (sampleChecked "3D 列印小竅門")).state =
      { checkedRadio := some { id := "3D 列印小竅門" },
        categroySectionTitle := some { innerHTML := "3D 列印小竅門" },
        categroySections :=
          [ { classList := ["section-flex", "列印小竅門"] },
            { classList := ["section-flex", "FAQ", "hidden"] } ] } ∧
    convertClassNameToSelector "3D 列印小竅門" = "3D.列印小竅門" ∧
    convertClassNameToSelector "列印小竅門" = "列印小竅門" := by
  decide

theorem getCheckedCategory_eq (querySelector : String → QueryResult) (d : CheckedDocument)
    (radio : Radio) (title : SectionTitle) (index : Nat)
    (hradio : d.checkedRadio = some radio) (htitle : d.categroySectionTitle = some title)
    (hid : radio.id ≠ "列印小竅門")
    (hquery : querySelector ("." ++ convertClassNameToSelector (lookupId radio.id)) =
      .sectionFlex index) :
    getCheckedCategory querySelector d =
      ⟨{ checkedRadio := some radio,
         categroySectionTitle := some { innerHTML := radio.id },
         categroySections :=
           (d.categroySections.map fun (section_ : SectionFlex) =>
              { section_ with classList := classListAdd "hidden" section_.classList }).modify
             (fun (section_ : SectionFlex) =>
               { section_ with classList := classListRemove "hidden" section_.classList })
             index },
        .normal⟩ := by
  unfold lookupId at hquery
  unfold getCheckedCategory
  simp only [hradio, htitle]
  by_cases h3d : radio.id = "3D 列印小竅門"
  · simp only [h3d, if_true] at hquery ⊢
    simp only [hquery]
    obtain ⟨id⟩ := radio
    simp only at h3d
    subst h3d
    rfl
  · simp only [h3d, if_false] at hquery ⊢
    simp only [hquery, if_neg hid]

theorem hidden_after_add_remove (classList : List String) :
    "hidden" ∈ classListAdd "hidden" classList ∧
    "hidden" ∉ classListRemove "hidden" (classListAdd "hidden" classList) ∧
    ∀ name, name ≠ "hidden" →
      ((name ∈ classListAdd "hidden" classList ↔ name ∈ classList) ∧
       (name ∈ classListRemove "hidden" (classListAdd "hidden" classList) ↔
        name ∈ classList)) := by
  refine ⟨?_, ?_, ?_⟩
  · unfold classListAdd
    split
    · assumption
    · simp
  · simp [classListRemove]
  · intro name hname
    unfold classListAdd classListRemove
    split <;> simp [hname]

/-- For a checked radio button whose `id` is not `列印小竅門`, on a page with
the title element, when the selector made of `convertClassNameToSelector` of
the `id` (of `列印小竅門` for the `id` `3D 列印小竅門`) selects the `index`-th
section: `getCheckedCategory` ends normally, leaves the `id` of the radio as it
was, sets the title to the `id`, and leaves every section with the class
`hidden` but the selected one; no other class of a section changes. -/
theorem getCheckedCategory_spec (querySelector : String → QueryResult) (d : CheckedDocument)
    (radio : Radio) (title : SectionTitle) (index : Nat)
    (hradio : d.checkedRadio = some radio) (htitle : d.categroySectionTitle = some title)
    (hid : radio.id ≠ "列印小竅門")
    (hquery : querySelector ("." ++ convertClassNameToSelector (lookupId radio.id)) =
      .sectionFlex index) :
    (getCheckedCategory querySelector d).completion = .normal ∧
    (getCheckedCategory querySelector d).state.checkedRadio = some radio ∧
    (getCheckedCategory querySelector d).state.categroySectionTitle =
      some { innerHTML := radio.id } ∧
    (getCheckedCategory querySelector d).state.categroySections.length =
      d.categroySections.length ∧
    ∀ (i : Nat) (before : SectionFlex), d.categroySections[i]? = some before →
      ∃ after, (getCheckedCategory querySelector d).state.categroySections[i]? = some after ∧
        ("hidden" ∈ after.classList ↔ i ≠ index) ∧
        ∀ name, name ≠ "hidden" → (name ∈ after.classList ↔ name ∈ before.classList) := by
  rw [getCheckedCategory_eq querySelector d radio title index hradio htitle hid hquery]
  refine ⟨rfl, rfl, rfl, by simp, ?_⟩
  intro i before hbefore
  obtain ⟨hadd, hremove, hother⟩ := hidden_after_add_remove before.classList
  simp only [List.getElem?_modify, List.getElem?_map, hbefore, Option.map_some', Option.map_eq_map]
  by_cases hi : index = i
  · refine ⟨_, by rw [if_pos hi], ?_, ?_⟩
    · simp only [hremove, false_iff, not_not]
      exact hi.symm
    · intro name hname
      exact (hother name hname).2
  · refine ⟨_, by rw [if_neg hi], ?_, ?_⟩
    · simp only [hadd, true_iff]
      exact fun h => hi h.symm
    · intro name hname
      exact (hother name hname).1

/-- The checked radio `FAQ` of the sample page. -/
theorem getCheckedCategory_spec_witness :
    (getCheckedCategory sampleQuery (sampleChecked "FAQ")).completion = .normal ∧
    (getCheckedCategory sampleQuery (sampleChecked "FAQ")).state.checkedRadio =
      some { id := "FAQ" } ∧
    (getCheckedCategory sampleQuery (sampleChecked "FAQ")).state.categroySectionTitle =
      some { innerHTML := "FAQ" } :=
  ⟨(getCheckedCategory_spec sampleQuery (sampleChecked "FAQ") { id := "FAQ" }
      { innerHTML := "" } 1 rfl rfl (by decide) (by decide)).1,
    (getCheckedCategory_spec sampleQuery (sampleChecked "FAQ") { id := "FAQ" }
      { innerHTML := "" } 1 rfl rfl (by decide) (by decide)).2.1,
    (getCheckedCategory_spec sampleQuery (sampleChecked "FAQ") { id := "FAQ" }
      { innerHTML := "" } 1 rfl rfl (by decide) (by decide)).2.2.1⟩

end Phrozen3D
